import Mathlib

/-!
# Verification of the OpenAPI-Spec-Parser schema-normalization core

This file gives a shallow embedding, in Lean 4, of the schema-normalization
subsystem of the `OpenAPI-Spec-Parser` repository (TypeScript): the REST,
GraphQL and WebSocket connectors and converters, and the Memory and File
storage backends.  Pure TypeScript functions become Lean functions; the HTTP
and WebSocket transports, the file system, and the external JSON/YAML parsers
are modelled as explicit environment parameters; machine-level details that
the embedded logic observes (JavaScript truthiness, 32-bit integer wrapping
in the string hash, stable `Array.prototype.sort`, insertion-ordered `Map` /
`Set` / object keys) are modelled explicitly.

Naming follows the source: `restIntrospect` embeds
`RESTConnector.introspect`, `analyzeMessagePatterns` embeds
`WebSocketConnector.analyzeMessagePatterns`, `memoryQuery` embeds
`MemoryStorage.query`, and so on.
-/

set_option maxHeartbeats 4000000

/-! ## JavaScript-flavoured string and record helpers -/

/-- Lexicographic comparison of UTF-16-style code sequences, as used by the
JavaScript default `Array.prototype.sort` on strings.  (Modelled on code
points; identical to UTF-16 order on the Basic Multilingual Plane.) -/
def charListLe : List Char → List Char → Bool
  | [], _ => true
  | _ :: _, [] => false
  | a :: as, b :: bs =>
    if a.toNat < b.toNat then true
    else if b.toNat < a.toNat then false
    else charListLe as bs

/-- JavaScript string comparison `a <= b`. -/
def jsStrLe (a b : String) : Bool := charListLe a.toList b.toList

/-- ASCII lower-casing of one character; models the effect of
`String.prototype.toLowerCase` on the ASCII range. -/
def jsCharLower (c : Char) : Char :=
  if 65 ≤ c.toNat ∧ c.toNat ≤ 90 then Char.ofNat (c.toNat + 32) else c

/-- `s.toLowerCase()` (ASCII model). -/
def jsToLower (s : String) : String := String.mk (s.toList.map jsCharLower)

/-- `s.includes(t)`. -/
def strContains (s t : String) : Bool :=
  s.toList.tails.any fun l => t.toList.isPrefixOf l

/-- `s.endsWith(t)`. -/
def strEndsWith (s t : String) : Bool := t.toList.isSuffixOf s.toList

/-- `s.startsWith(t)`. -/
def strStartsWith (s t : String) : Bool := t.toList.isPrefixOf s.toList

/-- JavaScript truthiness of an optional string (`undefined` and `""` are
falsy). -/
def jsStrOptTruthy : Option String → Bool
  | some s => s ≠ ""
  | none => false

/-- JavaScript truthiness of an optional number (`undefined` and `0` are
falsy). -/
def jsNatOptTruthy : Option Nat → Bool
  | some n => n ≠ 0
  | none => false

/-- `opt || dflt` for strings (falls through on `undefined` and `""`). -/
def jsStrOr (o : Option String) (dflt : String) : String :=
  match o with
  | some s => if s ≠ "" then s else dflt
  | none => dflt

/-- Insertion-ordered assoc-list lookup; models reading a property of a plain
JavaScript object used as a record. -/
def jsRecordGet {ν : Type} (l : List (String × ν)) (k : String) : Option ν :=
  match l.find? (fun p => p.1 == k) with
  | some p => some p.2
  | none => none

/-- `record[k] = v` on a plain JavaScript object (or `Map.prototype.set`):
replaces the value in place if the key exists, otherwise appends. -/
def jsRecordSet {ν : Type} (l : List (String × ν)) (k : String) (v : ν) :
    List (String × ν) :=
  if l.any (fun p => p.1 == k) then
    l.map (fun p => if p.1 == k then (k, v) else p)
  else l ++ [(k, v)]

/-- `Set.prototype.add` on an insertion-ordered set of strings. -/
def jsSetAdd (l : List String) (x : String) : List String :=
  if l.contains x then l else l ++ [x]

/-- Stable insertion of one element into a list that is already sorted by
`le`; the new element goes after every element it ties with. -/
def insertStable {α : Type} (le : α → α → Bool) (x : α) : List α → List α
  | [] => [x]
  | y :: ys => if le y x then y :: insertStable le x ys else x :: y :: ys

/-- Stable sort by `le`; models the (stable) `Array.prototype.sort` with a
comparator realising `le`. -/
def sortStable {α : Type} (le : α → α → Bool) (l : List α) : List α :=
  l.foldl (fun acc x => insertStable le x acc) []

theorem length_insertStable {α : Type} (le : α → α → Bool) (x : α)
    (l : List α) : (insertStable le x l).length = l.length + 1 := by
  induction l with
  | nil => rfl
  | cons y ys ih => simp only [insertStable]; split <;> simp [ih]

theorem length_sortStable {α : Type} (le : α → α → Bool) (l : List α) :
    (sortStable le l).length = l.length := by
  suffices h : ∀ acc : List α,
      (l.foldl (fun acc x => insertStable le x acc) acc).length
        = acc.length + l.length by
    simpa [sortStable] using h []
  induction l with
  | nil => simp
  | cons y ys ih =>
    intro acc
    rw [List.foldl_cons, ih, length_insertStable, List.length_cons]
    omega

/-- Count of `.` characters plus one; models `s.split('.').length`
(splitting on a single character always yields one more part than there are
separators). -/
def jsSplitDotLen (s : String) : Nat := s.toList.count '.' + 1

/-- UTF-16-style code units of a string, as read by `charCodeAt`.  (Modelled
as code points; identical on the Basic Multilingual Plane.) -/
def jsCharCodes (s : String) : List Nat := s.toList.map Char.toNat

/-- Wrap an integer into signed 32-bit range; models JavaScript `x | 0` /
`x & x` coercion to Int32. -/
def wrap32 (i : Int) : Int := (i + 2 ^ 31) % 2 ^ 32 - 2 ^ 31

/-- The 32-bit string hash used by `generateSchemaId` in the REST and
WebSocket converters: `hash = ((hash << 5) - hash) + charCode; hash &= hash`.
The shift itself is an Int32 operation, so it wraps before the subtraction. -/
def jsStringHash (s : String) : Int :=
  (jsCharCodes s).foldl (fun h c => wrap32 (wrap32 (h * 32) - h + (c : Int))) 0

/-- One base-36 digit, `0-9a-z`, as produced by `Number.prototype.toString(36)`. -/
def base36Digit (n : Nat) : Char :=
  if n < 10 then Char.ofNat (48 + n) else Char.ofNat (87 + n)

/-- Auxiliary digit accumulator for `natToBase36`; the fuel argument is a
strict upper bound on the number of digits, so the function is total on the
calls made below. -/
def natToBase36Aux : Nat → Nat → List Char → List Char
  | 0, _, acc => acc
  | _ + 1, n, acc =>
    if n = 0 then acc
    else natToBase36Aux n (n / 36) (base36Digit (n % 36) :: acc)
  -- fuel decreases; `n / 36 < n` is not needed because fuel bounds the depth

/-- `n.toString(36)` for a natural number. -/
def natToBase36 (n : Nat) : String :=
  if n = 0 then "0" else String.mk (natToBase36Aux (n + 1) n [])

/-- UTF-8 bytes of one character (standard 1-4 byte encoding). -/
def utf8Bytes (c : Char) : List Nat :=
  let n := c.toNat
  if n < 128 then [n]
  else if n < 2048 then [192 + n / 64, 128 + n % 64]
  else if n < 65536 then [224 + n / 4096, 128 + n / 64 % 64, 128 + n % 64]
  else [240 + n / 262144, 128 + n / 4096 % 64, 128 + n / 64 % 64, 128 + n % 64]

/-- The base-64 alphabet as used by `Buffer.prototype.toString('base64')`. -/
def base64Digit (n : Nat) : Char :=
  if n < 26 then Char.ofNat (65 + n)
  else if n < 52 then Char.ofNat (97 + n - 26)
  else if n < 62 then Char.ofNat (48 + n - 52)
  else if n = 62 then '+' else '/'

/-- Base-64 encoding of a byte list, with `=` padding. -/
def base64Encode : List Nat → List Char
  | [] => []
  | [a] =>
    [base64Digit (a / 4), base64Digit (a % 4 * 16), '=', '=']
  | [a, b] =>
    [base64Digit (a / 4), base64Digit (a % 4 * 16 + b / 16),
     base64Digit (b % 16 * 4), '=']
  | a :: b :: c :: rest =>
    base64Digit (a / 4) :: base64Digit (a % 4 * 16 + b / 16) ::
      base64Digit (b % 16 * 4 + c / 64) :: base64Digit (c % 64) ::
      base64Encode rest

/-- `Buffer.from(s).toString('base64')`. -/
def jsBase64 (s : String) : String :=
  String.mk (base64Encode (s.toList.flatMap utf8Bytes))

/-! ## JSON values

JSON values as produced by `JSON.parse`.  Arrays and objects carry their own
list types so that all recursions over JSON are structural (and hence
kernel-evaluable).  Numbers are modelled as rationals: `Json.num q` with
`q.den = 1` models a JavaScript number for which `Number.isInteger` holds. -/

mutual
inductive Json where
  | null
  | bool (b : Bool)
  | num (q : Rat)
  | str (s : String)
  | arr (elems : JsonList)
  | obj (entries : JsonObj)

inductive JsonList where
  | nil
  | cons (v : Json) (rest : JsonList)

inductive JsonObj where
  | nil
  | cons (key : String) (v : Json) (rest : JsonObj)
end

mutual
def Json.beq : Json → Json → Bool
  | .null, .null => true
  | .bool a, .bool b => a == b
  | .num a, .num b => a == b
  | .str a, .str b => a == b
  | .arr a, .arr b => JsonList.beq a b
  | .obj a, .obj b => JsonObj.beq a b
  | _, _ => false

def JsonList.beq : JsonList → JsonList → Bool
  | .nil, .nil => true
  | .cons a as, .cons b bs => Json.beq a b && JsonList.beq as bs
  | _, _ => false

def JsonObj.beq : JsonObj → JsonObj → Bool
  | .nil, .nil => true
  | .cons ka a as, .cons kb b bs => ka == kb && Json.beq a b && JsonObj.beq as bs
  | _, _ => false
end

instance : BEq Json := ⟨Json.beq⟩

/-- `typeof v` for a parsed JSON value (note `typeof null === "object"`). -/
def jsTypeof : Json → String
  | .null => "object"
  | .bool _ => "boolean"
  | .num _ => "number"
  | .str _ => "string"
  | .arr _ => "object"
  | .obj _ => "object"

/-- JavaScript truthiness of a parsed JSON value. -/
def jsTruthy : Json → Bool
  | .null => false
  | .bool b => b
  | .num q => q ≠ 0
  | .str s => s ≠ ""
  | .arr _ => true
  | .obj _ => true

def JsonList.length : JsonList → Nat
  | .nil => 0
  | .cons _ rest => rest.length + 1

def JsonObj.keys : JsonObj → List String
  | .nil => []
  | .cons k _ rest => k :: rest.keys

def JsonObj.entriesList : JsonObj → List (String × Json)
  | .nil => []
  | .cons k v rest => (k, v) :: rest.entriesList

/-- First own-property value for a key (reading `obj[k]` for own keys). -/
def JsonObj.get : JsonObj → String → Option Json
  | .nil, _ => none
  | .cons k v rest, f => if k == f then some v else rest.get f

def JsonObj.hasKey (o : JsonObj) (f : String) : Bool := (o.get f).isSome

/-- `Object.keys(v)`: own enumerable keys in insertion order; for arrays, the
indices as decimal strings. -/
def jsKeys : Json → List String
  | .obj es => es.keys
  | .arr es => (List.range es.length).map (fun i => toString i)
  | _ => []

/-- Properties of `Object.prototype`, visible to the `in` operator on every
plain object. -/
def objProtoKeys : List String :=
  ["constructor", "hasOwnProperty", "isPrototypeOf", "propertyIsEnumerable",
   "toLocaleString", "toString", "valueOf",
   "__defineGetter__", "__defineSetter__", "__lookupGetter__",
   "__lookupSetter__", "__proto__"]

/-- A representative list of `Array.prototype` members visible to `in` on
arrays (enough for the values examined in this development; the exact list
is an engine detail external to the repository). -/
def arrayProtoKeys : List String :=
  ["length", "push", "pop", "shift", "unshift", "slice", "splice", "concat",
   "join", "reverse", "sort", "indexOf", "lastIndexOf", "forEach", "map",
   "filter", "reduce", "reduceRight", "some", "every", "find", "findIndex",
   "includes", "keys", "values", "entries", "flat", "flatMap", "fill",
   "copyWithin", "at"]

/-- `f in v` for a parsed JSON value `v`: own properties plus the prototype
chain (array index strings and `length` for arrays). -/
def jsHasKey : Json → String → Bool
  | .obj es, f => es.hasKey f || objProtoKeys.contains f
  | .arr es, f =>
    (List.range es.length).any (fun i => toString i == f)
      || arrayProtoKeys.contains f || objProtoKeys.contains f
  | _, _ => false

/-! ## Universal schema data model (`src/types/core/schema.ts`) -/

inductive DataType where
  | string
  | number
  | integer
  | boolean
  | array
  | object
  | null
  | unknown
deriving DecidableEq, Repr

inductive APIProtocol where
  | rest
  | graphql
  | websocket
deriving DecidableEq, Repr

inductive HTTPMethod where
  | GET
  | POST
  | PUT
  | DELETE
  | PATCH
  | HEAD
  | OPTIONS
deriving DecidableEq, Repr

/-- The `type` of an `Operation` (string union in the source). -/
inductive OperationType where
  | query
  | mutation
  | subscription
  | endpoint
  | message
deriving DecidableEq, Repr

/-- Parameter location after conversion
(`'query' | 'path' | 'header' | 'body' | 'cookie'`). -/
inductive ParamLocation where
  | query
  | path
  | header
  | body
  | cookie
deriving DecidableEq, Repr

inductive AuthType where
  | none
  | apikey
  | bearer
  | basic
  | oauth2
  | custom
deriving DecidableEq, Repr

/-- Field constraints carried by a `SchemaField`. -/
structure FieldConstraints where
  minimum : Option Int := Option.none
  maximum : Option Int := Option.none
  pattern : Option String := Option.none
  enum : Option (List Json) := Option.none
  format : Option String := Option.none

/-- GraphQL type kinds as returned by introspection
(`src/connectors/graphql/types.ts`). -/
inductive GraphQLTypeKind where
  | SCALAR
  | OBJECT
  | INTERFACE
  | UNION
  | ENUM
  | INPUT_OBJECT
  | LIST
  | NON_NULL
deriving DecidableEq, Repr

/-- WebSocket protocols (`src/connectors/websocket/types.ts`). -/
inductive WebSocketProtocol where
  | raw
  | socketio
  | sockjs
  | stomp
  | mqtt
  | custom
deriving DecidableEq, Repr

/-- The string value of a `WebSocketProtocol` enum member. -/
def WebSocketProtocol.str : WebSocketProtocol → String
  | .raw => "raw"
  | .socketio => "socket.io"
  | .sockjs => "sockjs"
  | .stomp => "stomp"
  | .mqtt => "mqtt"
  | .custom => "custom"

/-- Message direction of a WebSocket message. -/
inductive WsDirection where
  | incoming
  | outgoing
deriving DecidableEq, Repr

/-- Direction of a detected WebSocket event (may be bidirectional). -/
inductive WsEventDirection where
  | incoming
  | outgoing
  | bidirectional
deriving DecidableEq, Repr

mutual
/-- `SchemaField`: recursive structural description of a value's shape.
The `metadata` bag (`Record<string, unknown>` in the source) is modelled by
the typed `FieldMeta` sum of the shapes actually written by the
converters. -/
inductive SchemaField where
  | mk (name : String) (type : DataType) (required : Bool)
       (description : Option String) (defaultValue : Option Json)
       (items : Option SchemaField)
       (properties : Option (List (String × SchemaField)))
       (constraints : Option FieldConstraints)
       (metadata : Option FieldMeta)

/-- The protocol-specific metadata objects the converters attach to a
`SchemaField`. -/
inductive FieldMeta where
  | openapi (format : Option String) (exampleVal : Option Json)
      (enum : Option (List Json)) (nullable : Option Bool)
      (readOnly : Option Bool) (writeOnly : Option Bool)
      (deprecated : Option Bool)
  | graphqlField (isDeprecated : Bool) (deprecationReason : Option String)
      (arguments : List Parameter)
  | graphqlType (kind : GraphQLTypeKind)
      (interfaces : Option (List (Option String)))
      (possibleTypes : Option (List (Option String)))
  | websocketPattern (frequency : Nat) (examples : List Json)

/-- `Parameter` of an operation. -/
inductive Parameter where
  | mk (name : String) (location : ParamLocation) (schema : SchemaField)
       (required : Bool) (description : Option String) (exampleVal : Option Json)
end

def SchemaField.name : SchemaField → String
  | .mk n _ _ _ _ _ _ _ _ => n

def SchemaField.type : SchemaField → DataType
  | .mk _ t _ _ _ _ _ _ _ => t

def SchemaField.required : SchemaField → Bool
  | .mk _ _ r _ _ _ _ _ _ => r

def SchemaField.description : SchemaField → Option String
  | .mk _ _ _ d _ _ _ _ _ => d

def SchemaField.defaultValue : SchemaField → Option Json
  | .mk _ _ _ _ v _ _ _ _ => v

def SchemaField.items : SchemaField → Option SchemaField
  | .mk _ _ _ _ _ i _ _ _ => i

def SchemaField.properties : SchemaField → Option (List (String × SchemaField))
  | .mk _ _ _ _ _ _ p _ _ => p

def SchemaField.constraints : SchemaField → Option FieldConstraints
  | .mk _ _ _ _ _ _ _ c _ => c

def SchemaField.metadata : SchemaField → Option FieldMeta
  | .mk _ _ _ _ _ _ _ _ m => m

def Parameter.name : Parameter → String
  | .mk n _ _ _ _ _ => n

def Parameter.location : Parameter → ParamLocation
  | .mk _ l _ _ _ _ => l

def Parameter.schema : Parameter → SchemaField
  | .mk _ _ s _ _ _ => s

def Parameter.required : Parameter → Bool
  | .mk _ _ _ r _ _ => r

def Parameter.description : Parameter → Option String
  | .mk _ _ _ _ d _ => d

/-- `Response` of an operation. -/
structure Response where
  statusCode : String
  description : String
  schema : Option SchemaField := Option.none
  headers : Option (List (String × SchemaField)) := Option.none

/-- Example entry stored in WebSocket operation metadata
(`{data, timestamp, size}`). -/
structure WsExampleMeta where
  data : Json
  timestamp : Nat
  size : Nat

/-- Protocol-specific metadata objects attached to an `Operation`. -/
inductive OpMeta where
  | openapi (operationId : Option String) (consumes : Option (List String))
      (produces : Option (List String))
      (security : Option (List (List (String × List String))))
  | graphql (deprecationReason : Option String) (returnType : String)
  | websocketEvent (direction : WsEventDirection) (frequency : Nat)
      (examples : List WsExampleMeta)
  | websocketConnect (protocol : WebSocketProtocol)
      (subprotocols : Option (List String))
      (headers : Option (List (String × String)))

/-- `Operation`: one invokable unit. -/
structure Operation where
  id : String
  name : String
  type : OperationType
  method : Option HTTPMethod := Option.none
  path : Option String := Option.none
  description : Option String := Option.none
  parameters : List Parameter := []
  responses : List Response := []
  tags : Option (List String) := Option.none
  deprecated : Option Bool := Option.none
  metadata : Option OpMeta := Option.none

/-- Scopes of one OAuth2 flow object (the converter only reads the scope
names; the flow URLs are not consumed by any embedded logic). -/
structure OAFlowScopes where
  scopes : List (String × String)

/-- The `flows` object of an OAuth2 security scheme. -/
structure OAFlowsData where
  implicit : Option OAFlowScopes := Option.none
  password : Option OAFlowScopes := Option.none
  clientCredentials : Option OAFlowScopes := Option.none
  authorizationCode : Option OAFlowScopes := Option.none

/-- The metadata object the REST converter attaches to an
`AuthenticationInfo`. -/
inductive AuthMeta where
  | apiKey (name : Option String) (inLoc : Option String)
  | http (scheme : Option String) (bearerFormat : Option String)
  | oauth2 (flows : Option OAFlowsData)
  | openIdConnect (url : Option String)

structure AuthenticationInfo where
  type : AuthType
  description : Option String := Option.none
  scopes : Option (List String) := Option.none
  metadata : Option AuthMeta := Option.none

/-- Schema-level statistics metadata written by each converter
(`metadata.extensions` in the source, plus contact/license/externalDocs for
REST). -/
inductive ExtMeta where
  | openapi (version : Option String) (pathCount : Nat) (tagCount : Nat)
      (hasServers : Bool) (hasComponents : Bool)
  | graphql (typeCount : Nat) (directiveCount : Nat) (hasQuery : Bool)
      (hasMutation : Bool) (hasSubscription : Bool)
  | websocket (protocol : WebSocketProtocol) (confidence : Rat)
      (sessionDuration : Nat) (totalMessages : Nat)
      (messagesByType : List (String × Nat)) (averageMessageSize : Rat)
      (detectionReasoning : List String)

structure SchemaMetadata where
  extensions : ExtMeta
  contact : Option Json := Option.none
  license : Option Json := Option.none
  externalDocs : Option Json := Option.none

/-- `UniversalSchema`: the protocol-neutral root entity.  `discoveredAt` is a
millisecond timestamp (`Date` in the source). -/
structure UniversalSchema where
  id : String
  name : String
  version : String
  protocol : APIProtocol
  baseUrl : Option String := Option.none
  description : Option String := Option.none
  operations : List Operation
  types : List (String × SchemaField)
  authentication : Option AuthenticationInfo := Option.none
  metadata : Option SchemaMetadata := Option.none
  discoveredAt : Nat
  source : String

/-! ## Storage backends (`src/storage/memory/memory-storage.ts`,
  FileStorage in `src/unnamed/part_005`) -/

/-- `SchemaQuery`: filter/pagination options.  Timestamps are milliseconds
(`Date` in the source). -/
structure SchemaQuery where
  id : Option String := Option.none
  name : Option String := Option.none
  protocol : Option APIProtocol := Option.none
  source : Option String := Option.none
  discoveredAfter : Option Nat := Option.none
  discoveredBefore : Option Nat := Option.none
  search : Option String := Option.none
  limit : Option Nat := Option.none
  offset : Option Nat := Option.none

structure SchemaQueryResult where
  schemas : List UniversalSchema
  totalCount : Nat
  hasMore : Bool

/-- One conditional filter step of a `query` implementation: the step
`if (query.x) results = results.filter(pred)` filters only when the query
field is present and truthy (`tr`). -/
def applyOptFilter {α β : Type} (o : Option β) (tr : β → Bool)
    (p : β → α → Bool) (l : List α) : List α :=
  match o with
  | some b => if tr b then l.filter (p b) else l
  | none => l

/-- The predicate an element must satisfy to survive `applyOptFilter`
(everything survives when the field is absent or falsy). -/
def applyOptPred {α β : Type} (o : Option β) (tr : β → Bool)
    (p : β → α → Bool) (a : α) : Bool :=
  match o with
  | some b => if tr b then p b a else true
  | none => true

theorem applyOptFilter_eq {α β : Type} (o : Option β) (tr : β → Bool)
    (p : β → α → Bool) (l : List α) :
    applyOptFilter o tr p l = l.filter (applyOptPred o tr p) := by
  cases o with
  | none => exact (List.filter_true l).symm
  | some b =>
    by_cases h : tr b = true
    · show (if tr b then l.filter (p b) else l) = _
      rw [if_pos h]
      exact List.filter_congr (fun a _ => by simp [applyOptPred, h])
    · show (if tr b then l.filter (p b) else l) = _
      rw [if_neg h]
      calc l = l.filter (fun _ => true) := (List.filter_true l).symm
        _ = l.filter (applyOptPred (some b) tr p) :=
          List.filter_congr (fun a _ => by simp [applyOptPred, h])

/-- The in-memory store: the insertion-ordered `Map<string, UniversalSchema>`
keyed by schema id. -/
def MemoryState := List (String × UniversalSchema)

/-- `MemoryStorageConfig` after `initialize` merged the defaults
(`maxSchemas: 1000`, `autoCleanup: true`, `maxAge: 24h`) with the caller's
options. -/
structure MemoryStorageConfig where
  maxSchemas : Option Nat := some 1000
  autoCleanup : Bool := true
  maxAge : Option Nat := some (24 * 60 * 60 * 1000)

/-- `MemoryStorage.cleanup`: with no (truthy) `maxAge`, drop the oldest
`Math.max(1, Math.floor(length * 0.1))` entries (stable ascending sort by
`discoveredAt`); with a `maxAge`, drop every schema strictly older than
`now - maxAge`.  (`Math.floor(n * 0.1) = n / 10` for all list lengths that
fit in memory; natural subtraction matches the code because timestamps are
non-negative.) -/
def memoryCleanup (cfg : MemoryStorageConfig) (st : MemoryState) (now : Nat) :
    MemoryState :=
  if ¬ jsNatOptTruthy cfg.maxAge then
    let sorted := sortStable
      (fun (a b : String × UniversalSchema) =>
        decide (a.2.discoveredAt ≤ b.2.discoveredAt)) st
    let toRemove := max 1 (st.length / 10)
    let removedIds := (sorted.take toRemove).map (fun p => p.1)
    st.filter (fun p => ¬ removedIds.contains p.1)
  else
    let cutoff := now - cfg.maxAge.getD 0
    st.filter (fun p => ¬ p.2.discoveredAt < cutoff)

/-- `MemoryStorage.store`: when a (truthy) `maxSchemas` is configured and the
map is at or above it, run `cleanup` first, then upsert by id. -/
def memoryStore (cfg : MemoryStorageConfig) (st : MemoryState)
    (schema : UniversalSchema) (now : Nat) : MemoryState :=
  let st1 :=
    if jsNatOptTruthy cfg.maxSchemas ∧ cfg.maxSchemas.getD 0 ≤ st.length then
      memoryCleanup cfg st now
    else st
  jsRecordSet st1 schema.id schema

/-- The name/description full-text condition used by the `search` filter of
both storage backends. -/
def searchHit (t : String) (name : String) (description : Option String) :
    Bool :=
  strContains (jsToLower name) (jsToLower t)
    || (match description with
        | some d => d ≠ "" && strContains (jsToLower d) (jsToLower t)
        | none => false)

/-- The predicate a stored schema must satisfy to pass every filter of
`MemoryStorage.query` (a filter whose query field is absent or falsy is
skipped by the code and imposes nothing). -/
def memMatches (q : SchemaQuery) (s : UniversalSchema) : Bool :=
  applyOptPred q.id (fun i => i ≠ "") (fun i s => s.id == i) s &&
  applyOptPred q.name (fun n => n ≠ "")
    (fun n (s : UniversalSchema) =>
      strContains (jsToLower s.name) (jsToLower n)) s &&
  applyOptPred q.protocol (fun _ => true)
    (fun p (s : UniversalSchema) => s.protocol == p) s &&
  applyOptPred q.source (fun src => src ≠ "")
    (fun src (s : UniversalSchema) =>
      strContains (jsToLower s.source) (jsToLower src)) s &&
  applyOptPred q.discoveredAfter (fun _ => true)
    (fun a (s : UniversalSchema) => decide (a ≤ s.discoveredAt)) s &&
  applyOptPred q.discoveredBefore (fun _ => true)
    (fun b (s : UniversalSchema) => decide (s.discoveredAt ≤ b)) s &&
  applyOptPred q.search (fun t => t ≠ "")
    (fun t (s : UniversalSchema) => searchHit t s.name s.description) s

/-- Newest-discovered-first stable sort used by both storage backends
(`results.sort((a, b) => b.discoveredAt - a.discoveredAt)`, and JavaScript
sort is stable). -/
def sortNewestFirst (l : List UniversalSchema) : List UniversalSchema :=
  sortStable (fun a b => decide (b.discoveredAt ≤ a.discoveredAt)) l

/-- The pre-pagination phase of `MemoryStorage.query`: each present (truthy)
filter in source order, then the newest-first sort. -/
def memoryFiltered (st : MemoryState) (q : SchemaQuery) :
    List UniversalSchema :=
  let r0 := st.map (fun p => p.2)
  let r1 := applyOptFilter q.id (fun i => i ≠ "")
    (fun i s => s.id == i) r0
  let r2 := applyOptFilter q.name (fun n => n ≠ "")
    (fun n (s : UniversalSchema) =>
      strContains (jsToLower s.name) (jsToLower n)) r1
  let r3 := applyOptFilter q.protocol (fun _ => true)
    (fun p (s : UniversalSchema) => s.protocol == p) r2
  let r4 := applyOptFilter q.source (fun src => src ≠ "")
    (fun src (s : UniversalSchema) =>
      strContains (jsToLower s.source) (jsToLower src)) r3
  let r5 := applyOptFilter q.discoveredAfter (fun _ => true)
    (fun a (s : UniversalSchema) => decide (a ≤ s.discoveredAt)) r4
  let r6 := applyOptFilter q.discoveredBefore (fun _ => true)
    (fun b (s : UniversalSchema) => decide (s.discoveredAt ≤ b)) r5
  let r7 := applyOptFilter q.search (fun t => t ≠ "")
    (fun t (s : UniversalSchema) => searchHit t s.name s.description) r6
  sortNewestFirst r7

/-- `MemoryStorage.query`: filters, newest-first sort, `totalCount` taken
before pagination, then `offset`/`limit` slices (a `0` offset or limit is
falsy in JavaScript, so its slice is skipped) and the `hasMore` flag. -/
def memoryQuery (st : MemoryState) (q : SchemaQuery) : SchemaQueryResult :=
  let sorted := memoryFiltered st q
  let totalCount := sorted.length
  let r8 := match q.offset with
    | some o => if o ≠ 0 then sorted.drop o else sorted
    | none => sorted
  let r9 := match q.limit with
    | some l => if l ≠ 0 then r8.take l else r8
    | none => r8
  { schemas := r9
    totalCount := totalCount
    hasMore :=
      match q.limit with
      | some l => if l ≠ 0 then decide (q.offset.getD 0 + l < totalCount)
                  else false
      | none => false }

/-- One entry of the File backend's `index.json`
(`{id, name, protocol, source, discoveredAt, filePath}`; `discoveredAt` is
stored as an ISO string and compared through `new Date(...)`, modelled here
as the timestamp it denotes). -/
structure FileIndexEntry where
  id : String
  name : String
  protocol : APIProtocol
  source : String
  discoveredAt : Nat
  filePath : String

/-- The index-level filter predicate of `FileStorage.query` (everything
except the full-text `search`, which needs the schema bodies). -/
def fileMatchesIndex (q : SchemaQuery) (e : FileIndexEntry) : Bool :=
  applyOptPred q.id (fun i => i ≠ "") (fun i e => e.id == i) e &&
  applyOptPred q.name (fun n => n ≠ "")
    (fun n (e : FileIndexEntry) =>
      strContains (jsToLower e.name) (jsToLower n)) e &&
  applyOptPred q.protocol (fun _ => true)
    (fun p (e : FileIndexEntry) => e.protocol == p) e &&
  applyOptPred q.source (fun src => src ≠ "")
    (fun src (e : FileIndexEntry) =>
      strContains (jsToLower e.source) (jsToLower src)) e &&
  applyOptPred q.discoveredAfter (fun _ => true)
    (fun a (e : FileIndexEntry) => decide (a ≤ e.discoveredAt)) e &&
  applyOptPred q.discoveredBefore (fun _ => true)
    (fun b (e : FileIndexEntry) => decide (e.discoveredAt ≤ b)) e

/-- The `search` refinement of `FileStorage.query`: load each candidate
schema and keep the entry if the schema exists and its name or description
matches.  `retrieve` models `FileStorage.retrieve` (it throws `StorageError`
on an unreadable file, modelled by `Except.error`). -/
def fileSearchFilter
    (retrieve : String → Except String (Option UniversalSchema))
    (t : String) : List FileIndexEntry →
    Except String (List FileIndexEntry)
  | [] => .ok []
  | item :: rest => do
    let schema ← retrieve item.id
    let tail ← fileSearchFilter retrieve t rest
    match schema with
    | some s =>
      if searchHit t s.name s.description then pure (item :: tail)
      else pure tail
    | none => pure tail

/-- The pre-pagination phase of `FileStorage.query`: index-level filters in
source order, then the `search` refinement, then the newest-first sort. -/
def fileFiltered (index : List FileIndexEntry)
    (retrieve : String → Except String (Option UniversalSchema))
    (q : SchemaQuery) : Except String (List FileIndexEntry) := do
  let r1 := applyOptFilter q.id (fun i => i ≠ "")
    (fun i e => e.id == i) index
  let r2 := applyOptFilter q.name (fun n => n ≠ "")
    (fun n (e : FileIndexEntry) =>
      strContains (jsToLower e.name) (jsToLower n)) r1
  let r3 := applyOptFilter q.protocol (fun _ => true)
    (fun p (e : FileIndexEntry) => e.protocol == p) r2
  let r4 := applyOptFilter q.source (fun src => src ≠ "")
    (fun src (e : FileIndexEntry) =>
      strContains (jsToLower e.source) (jsToLower src)) r3
  let r5 := applyOptFilter q.discoveredAfter (fun _ => true)
    (fun a (e : FileIndexEntry) => decide (a ≤ e.discoveredAt)) r4
  let r6 := applyOptFilter q.discoveredBefore (fun _ => true)
    (fun b (e : FileIndexEntry) => decide (e.discoveredAt ≤ b)) r5
  let r7 ← match q.search with
    | some t => if t ≠ "" then fileSearchFilter retrieve t r6 else pure r6
    | none => pure r6
  pure (sortStable (fun (a b : FileIndexEntry) =>
    decide (b.discoveredAt ≤ a.discoveredAt)) r7)

/-- The post-pagination load loop of `FileStorage.query`: retrieve each
remaining entry's schema, silently skipping entries whose file has
disappeared (`if (schema) schemas.push(schema)`). -/
def fileLoadSchemas
    (retrieve : String → Except String (Option UniversalSchema)) :
    List FileIndexEntry → Except String (List UniversalSchema)
  | [] => .ok []
  | item :: rest => do
    let schema ← retrieve item.id
    let tail ← fileLoadSchemas retrieve rest
    match schema with
    | some s => pure (s :: tail)
    | none => pure tail

/-- `FileStorage.query`: filters and search over the index, newest-first
sort, pagination, then loading of the page's schema bodies.  Any `retrieve`
failure surfaces as a thrown `StorageError` (the `Except.error` case). -/
def fileQuery (index : List FileIndexEntry)
    (retrieve : String → Except String (Option UniversalSchema))
    (q : SchemaQuery) : Except String SchemaQueryResult :=
  match (do
    let sorted ← fileFiltered index retrieve q
    let totalCount := sorted.length
    let r8 := match q.offset with
      | some o => if o ≠ 0 then sorted.drop o else sorted
      | none => sorted
    let r9 := match q.limit with
      | some l => if l ≠ 0 then r8.take l else r8
      | none => r8
    let schemas ← fileLoadSchemas retrieve r9
    pure { schemas := schemas
           totalCount := totalCount
           hasMore :=
             match q.limit with
             | some l => if l ≠ 0 then
                 decide (q.offset.getD 0 + l < totalCount)
               else false
             | none => false } : Except String SchemaQueryResult) with
  | .ok r => .ok r
  | .error e => .error ("Failed to query schemas: " ++ e)

/-! ## Storage lemmas -/

theorem mem_insertStable {α : Type} (le : α → α → Bool) (x a : α)
    (l : List α) : a ∈ insertStable le x l ↔ a = x ∨ a ∈ l := by
  induction l with
  | nil => simp [insertStable]
  | cons y ys ih =>
    simp only [insertStable]
    split
    · simp only [List.mem_cons, ih]
      tauto
    · simp only [List.mem_cons]

theorem mem_sortStable {α : Type} (le : α → α → Bool) (a : α) (l : List α) :
    a ∈ sortStable le l ↔ a ∈ l := by
  suffices h : ∀ acc : List α,
      a ∈ l.foldl (fun acc x => insertStable le x acc) acc
        ↔ a ∈ acc ∨ a ∈ l by
    simpa [sortStable] using h []
  induction l with
  | nil => simp
  | cons y ys ih =>
    intro acc
    rw [List.foldl_cons, ih, mem_insertStable]
    simp only [List.mem_cons]
    tauto

/-- The pre-pagination phase of `MemoryStorage.query` is the newest-first
sort of exactly the schemas matching all present filters. -/
theorem memoryFiltered_eq (st : MemoryState) (q : SchemaQuery) :
    memoryFiltered st q
      = sortNewestFirst ((st.map (fun p => p.2)).filter (memMatches q)) := by
  unfold memoryFiltered
  dsimp only
  rw [applyOptFilter_eq, applyOptFilter_eq, applyOptFilter_eq,
    applyOptFilter_eq, applyOptFilter_eq, applyOptFilter_eq,
    applyOptFilter_eq, List.filter_filter, List.filter_filter,
    List.filter_filter, List.filter_filter, List.filter_filter,
    List.filter_filter]
  refine congrArg sortNewestFirst (List.filter_congr (fun s _ => ?_))
  unfold memMatches
  ac_rfl

/-- `totalCount` of a memory query counts exactly the schemas matching the
filters, before any pagination. -/
theorem memoryQuery_totalCount (st : MemoryState) (q : SchemaQuery) :
    (memoryQuery st q).totalCount
      = ((st.map (fun p => p.2)).filter (memMatches q)).length := by
  show (memoryFiltered st q).length = _
  rw [memoryFiltered_eq]
  exact length_sortStable _ _

theorem exceptBind_ok {ε α β : Type} (a : α) (f : α → Except ε β) :
    (Except.ok a >>= f) = f a := rfl

theorem exceptBind_err {ε α β : Type} (e : ε) (f : α → Except ε β) :
    ((Except.error e : Except ε α) >>= f) = Except.error e := rfl

theorem exceptPure {ε α : Type} (a : α) :
    (pure a : Except ε α) = Except.ok a := rfl

/-- The number of loaded schemas is at most the number of index entries the
load loop was given. -/
theorem fileLoadSchemas_length
    (retrieve : String → Except String (Option UniversalSchema)) :
    ∀ (l : List FileIndexEntry) (out : List UniversalSchema),
      fileLoadSchemas retrieve l = .ok out → out.length ≤ l.length := by
  intro l
  induction l with
  | nil =>
    intro out h
    cases h
    simp
  | cons item rest ih =>
    intro out h
    rw [fileLoadSchemas] at h
    cases hr : retrieve item.id with
    | error e =>
      rw [hr, exceptBind_err] at h
      exact absurd h (by simp)
    | ok schema =>
      rw [hr, exceptBind_ok] at h
      cases ht : fileLoadSchemas retrieve rest with
      | error e =>
        rw [ht, exceptBind_err] at h
        exact absurd h (by simp)
      | ok tail =>
        rw [ht, exceptBind_ok] at h
        have htl := ih tail ht
        cases schema with
        | some s =>
          rw [exceptPure] at h
          cases h
          simpa using Nat.succ_le_succ htl
        | none =>
          rw [exceptPure] at h
          cases h
          exact Nat.le_succ_of_le htl


/-- Without a (truthy) full-text `search`, the pre-pagination phase of
`FileStorage.query` succeeds and is the newest-first sort of exactly the
index entries matching all present filters. -/
theorem fileFiltered_noSearch (index : List FileIndexEntry)
    (retrieve : String → Except String (Option UniversalSchema))
    (q : SchemaQuery) (hs : jsStrOptTruthy q.search = false) :
    fileFiltered index retrieve q
      = .ok (sortStable (fun (a b : FileIndexEntry) =>
          decide (b.discoveredAt ≤ a.discoveredAt))
          (index.filter (fileMatchesIndex q))) := by
  have hchain :
      applyOptFilter q.discoveredBefore (fun _ => true)
        (fun b (e : FileIndexEntry) => decide (e.discoveredAt ≤ b))
        (applyOptFilter q.discoveredAfter (fun _ => true)
          (fun a (e : FileIndexEntry) => decide (a ≤ e.discoveredAt))
          (applyOptFilter q.source (fun src => src ≠ "")
            (fun src (e : FileIndexEntry) =>
              strContains (jsToLower e.source) (jsToLower src))
            (applyOptFilter q.protocol (fun _ => true)
              (fun p (e : FileIndexEntry) => e.protocol == p)
              (applyOptFilter q.name (fun n => n ≠ "")
                (fun n (e : FileIndexEntry) =>
                  strContains (jsToLower e.name) (jsToLower n))
                (applyOptFilter q.id (fun i => i ≠ "")
                  (fun i e => e.id == i) index)))))
      = index.filter (fileMatchesIndex q) := by
    rw [applyOptFilter_eq, applyOptFilter_eq, applyOptFilter_eq,
      applyOptFilter_eq, applyOptFilter_eq, applyOptFilter_eq,
      List.filter_filter, List.filter_filter, List.filter_filter,
      List.filter_filter, List.filter_filter]
    refine List.filter_congr (fun e _ => ?_)
    unfold fileMatchesIndex
    ac_rfl
  unfold fileFiltered
  dsimp only
  cases hq : q.search with
  | none =>
    rw [hchain]
    rfl
  | some t =>
    rw [hq] at hs
    simp only [jsStrOptTruthy, decide_eq_false_iff_not,
      Decidable.not_not] at hs
    subst hs
    rw [hchain]
    rfl

/-! ## Claim C3: storage query pagination invariant -/

/-- Claim C3 (amended): for every stored set of schemas and every query
specifying `limit = L ≥ 1` and `offset = O`, both the Memory and the File
backend return at most `L` schemas, a `totalCount` equal to the number of
schemas matching the filters before pagination, and
`hasMore = (totalCount > O + L)`.  (For `L = 0` the code skips the slice and
reports `hasMore = false`; see the counterexample.)  For the File backend the
pre-pagination count is over index entries; without a full-text `search` it
equals the number of index entries matching the filters. -/
theorem C3_storage_query_pagination :
    (∀ (st : MemoryState) (q : SchemaQuery) (L O : Nat),
        q.limit = some L → 1 ≤ L → q.offset = some O →
        (memoryQuery st q).schemas.length ≤ L
        ∧ (memoryQuery st q).totalCount
            = ((st.map (fun p => p.2)).filter (memMatches q)).length
        ∧ (memoryQuery st q).hasMore
            = decide (O + L < (memoryQuery st q).totalCount))
    ∧ (∀ (index : List FileIndexEntry)
        (retrieve : String → Except String (Option UniversalSchema))
        (q : SchemaQuery) (L O : Nat) (r : SchemaQueryResult),
        q.limit = some L → 1 ≤ L → q.offset = some O →
        fileQuery index retrieve q = .ok r →
        r.schemas.length ≤ L
        ∧ (∃ pre, fileFiltered index retrieve q = .ok pre
            ∧ r.totalCount = pre.length)
        ∧ (jsStrOptTruthy q.search = false →
            r.totalCount = (index.filter (fileMatchesIndex q)).length)
        ∧ r.hasMore = decide (O + L < r.totalCount)) := by
  constructor
  · intro st q L O hL hL1 hO
    have hLne : L ≠ 0 := by omega
    refine ⟨?_, memoryQuery_totalCount st q, ?_⟩
    · show (let sorted := memoryFiltered st q
            let r8 := match q.offset with
              | some o => if o ≠ 0 then sorted.drop o else sorted
              | none => sorted
            match q.limit with
            | some l => if l ≠ 0 then r8.take l else r8
            | none => r8).length ≤ L
      dsimp only
      rw [hL]
      simp only [hLne, ne_eq, not_false_iff, if_true]
      exact List.length_take_le _ _
    · show (match q.limit with
            | some l => if l ≠ 0 then
                decide (q.offset.getD 0 + l < (memoryFiltered st q).length)
              else false
            | none => false)
          = decide (O + L < (memoryQuery st q).totalCount)
      rw [hL, hO]
      simp only [hLne, ne_eq, not_false_iff, if_true, Option.getD_some]
      rfl
  · intro index retrieve q L O r hL hL1 hO hq
    have hLne : L ≠ 0 := by omega
    unfold fileQuery at hq
    cases hf : fileFiltered index retrieve q with
    | error e =>
      rw [hf, exceptBind_err] at hq
      exact absurd hq (by simp)
    | ok pre =>
      rw [hf, exceptBind_ok] at hq
      have hpage :
          (match q.offset with
            | some o => if o ≠ 0 then pre.drop o else pre
            | none => pre) = pre.drop O := by
        rw [hO]
        by_cases hOz : O = 0
        · simp [hOz]
        · simp [hOz]
      rw [hL] at hq
      simp only [hLne, ne_eq, not_false_iff, if_true] at hq
      rw [hpage] at hq
      cases hl : fileLoadSchemas retrieve ((pre.drop O).take L) with
      | error e =>
        rw [hl, exceptBind_err] at hq
        exact absurd hq (by simp)
      | ok schemas =>
        rw [hl, exceptBind_ok, exceptPure] at hq
        cases hq
        refine ⟨?_, ⟨pre, rfl, rfl⟩, ?_, ?_⟩
        · show schemas.length ≤ L
          calc schemas.length ≤ ((pre.drop O).take L).length :=
                fileLoadSchemas_length retrieve _ _ hl
            _ ≤ L := List.length_take_le _ _
        · intro hs
          have := fileFiltered_noSearch index retrieve q hs
          rw [hf] at this
          have hpre : pre = sortStable (fun (a b : FileIndexEntry) =>
              decide (b.discoveredAt ≤ a.discoveredAt))
              (index.filter (fileMatchesIndex q)) := by
            cases this
            rfl
          show pre.length = _
          rw [hpre, length_sortStable]
        · show decide (q.offset.getD 0 + L < pre.length)
              = decide (O + L < pre.length)
          rw [hO]
          simp only [Option.getD_some]

/-- A minimal stored schema used for concrete storage scenarios. -/
def demoSchema (i : String) (t : Nat) : UniversalSchema :=
  { id := i
    name := "Demo"
    version := "1.0.0"
    protocol := APIProtocol.rest
    operations := []
    types := []
    discoveredAt := t
    source := "http://example.com" }

def demoMemSt : MemoryState := [("a", demoSchema "a" 5)]

def demoQ : SchemaQuery := { limit := some 2, offset := some 1 }

def demoIndexEntry : FileIndexEntry :=
  { id := "a"
    name := "Demo"
    protocol := APIProtocol.rest
    source := "http://example.com"
    discoveredAt := 5
    filePath := "a.json" }

def demoRetrieve : String → Except String (Option UniversalSchema) :=
  fun _ => .ok (some (demoSchema "a" 5))

def demoFileResult : SchemaQueryResult :=
  { schemas := [], totalCount := 1, hasMore := false }

theorem C3_storage_query_pagination_witness :
    ((memoryQuery demoMemSt demoQ).schemas.length ≤ 2
      ∧ (memoryQuery demoMemSt demoQ).totalCount
          = ((demoMemSt.map (fun p => p.2)).filter (memMatches demoQ)).length
      ∧ (memoryQuery demoMemSt demoQ).hasMore
          = decide (1 + 2 < (memoryQuery demoMemSt demoQ).totalCount))
    ∧ (demoFileResult.schemas.length ≤ 2
      ∧ (∃ pre, fileFiltered [demoIndexEntry] demoRetrieve demoQ = .ok pre
          ∧ demoFileResult.totalCount = pre.length)
      ∧ (jsStrOptTruthy demoQ.search = false →
          demoFileResult.totalCount
            = ([demoIndexEntry].filter (fileMatchesIndex demoQ)).length)
      ∧ demoFileResult.hasMore
          = decide (1 + 2 < demoFileResult.totalCount)) :=
  ⟨C3_storage_query_pagination.1 demoMemSt demoQ 2 1 rfl (by omega) rfl,
   C3_storage_query_pagination.2 [demoIndexEntry] demoRetrieve demoQ 2 1
     demoFileResult rfl (by omega) rfl rfl⟩

def demoQZero : SchemaQuery := { limit := some 0, offset := some 0 }

/-- Claim C3, counterexample: a query explicitly specifying `limit = 0` and
`offset = 0` over a one-schema store returns all 1 schema (violating
`schemas.length ≤ limit`) and reports `hasMore = false` although
`totalCount > offset + limit`: a `0` limit is falsy in JavaScript, so the
code treats it as "no limit". -/
theorem C3_limit_zero_counterexample :
    (memoryQuery demoMemSt demoQZero).schemas.length = 1
    ∧ ¬ ((memoryQuery demoMemSt demoQZero).schemas.length ≤ 0)
    ∧ (memoryQuery demoMemSt demoQZero).totalCount = 1
    ∧ (memoryQuery demoMemSt demoQZero).hasMore = false
    ∧ (0 + 0 < (memoryQuery demoMemSt demoQZero).totalCount) := by
  refine ⟨rfl, by decide, rfl, rfl, by decide⟩

/-! ## Claim C8: memory backend maxSchemas ceiling -/

theorem length_jsRecordSet_le {ν : Type} (l : List (String × ν)) (k : String)
    (v : ν) : (jsRecordSet l k v).length ≤ l.length + 1 := by
  unfold jsRecordSet
  split
  · rw [List.length_map]
    omega
  · rw [List.length_append]
    simp

/-- When no `maxAge` is configured, `cleanup` on a non-empty store removes at
least one schema (the oldest). -/
theorem memoryCleanup_shrinks (cfg : MemoryStorageConfig) (st : MemoryState)
    (now : Nat) (hAge : jsNatOptTruthy cfg.maxAge = false) (hne : st ≠ []) :
    (memoryCleanup cfg st now).length < st.length := by
  unfold memoryCleanup
  rw [if_pos (by simp [hAge])]
  have hlen : (sortStable
      (fun (a b : String × UniversalSchema) =>
        decide (a.2.discoveredAt ≤ b.2.discoveredAt)) st).length
      = st.length := length_sortStable _ _
  rcases hsorted : sortStable
      (fun (a b : String × UniversalSchema) =>
        decide (a.2.discoveredAt ≤ b.2.discoveredAt)) st with _ | ⟨y, ys⟩
  · exfalso
    rw [hsorted] at hlen
    exact hne (List.length_eq_zero.mp hlen.symm)
  · rw [List.length_filter_lt_length_iff_exists]
    refine ⟨y, ?_, ?_⟩
    · have : y ∈ sortStable
          (fun (a b : String × UniversalSchema) =>
            decide (a.2.discoveredAt ≤ b.2.discoveredAt)) st := by
        rw [hsorted]; exact List.mem_cons_self y ys
      exact (mem_sortStable _ y st).mp this
    · obtain ⟨m, hm⟩ : ∃ m, max 1 (st.length / 10) = m + 1 :=
        ⟨max 1 (st.length / 10) - 1, by omega⟩
      rw [hm, List.take_cons]
      simp
      omega

/-- Claim C8 (amended): on overflow (`size >= maxSchemas`, `maxSchemas` a
truthy configured ceiling) the Memory backend evicts before inserting; when
`maxAge` is not configured the eviction drops the oldest
`max(1, ⌊10%⌋)` schemas and the post-store count stays within `maxSchemas`;
when `maxAge` is configured the eviction removes exactly the schemas older
than `maxAge` — and then nothing bounds the count by `maxSchemas` (see the
counterexample). -/
theorem C8_memory_maxSchemas :
    (∀ (cfg : MemoryStorageConfig) (st : MemoryState)
        (schema : UniversalSchema) (now M : Nat),
        cfg.maxSchemas = some M → 1 ≤ M →
        jsNatOptTruthy cfg.maxAge = false →
        st.length ≤ M →
        (memoryStore cfg st schema now).length ≤ M)
    ∧ (∀ (cfg : MemoryStorageConfig) (st : MemoryState) (now A : Nat),
        cfg.maxAge = some A → 1 ≤ A →
        memoryCleanup cfg st now
          = st.filter (fun p => decide (now - A ≤ p.2.discoveredAt))) := by
  constructor
  · intro cfg st schema now M hM hM1 hAge hle
    unfold memoryStore
    dsimp only
    by_cases hcond :
        jsNatOptTruthy cfg.maxSchemas = true ∧ cfg.maxSchemas.getD 0 ≤ st.length
    · rw [if_pos hcond]
      have hne : st ≠ [] := by
        intro h
        rw [hM] at hcond
        subst h
        simp only [Option.getD_some, List.length_nil] at hcond
        omega
      have hlt := memoryCleanup_shrinks cfg st now hAge hne
      have hset := length_jsRecordSet_le (memoryCleanup cfg st now)
        schema.id schema
      omega
    · rw [if_neg hcond]
      have hst : st.length < M := by
        by_contra hge
        exact hcond ⟨by simp [jsNatOptTruthy, hM]; omega,
          by rw [hM]; simp; omega⟩
      have hset := length_jsRecordSet_le st schema.id schema
      omega
  · intro cfg st now A hA hA1
    unfold memoryCleanup
    rw [if_neg (by simp [jsNatOptTruthy, hA]; omega)]
    rw [hA]
    refine List.filter_congr (fun p _ => ?_)
    simp [Nat.not_lt]

def c8NoAgeConfig : MemoryStorageConfig :=
  { maxSchemas := some 2, autoCleanup := true, maxAge := Option.none }

def c8AgeConfig : MemoryStorageConfig :=
  { maxSchemas := some 2, autoCleanup := true, maxAge := some 100 }

theorem C8_memory_maxSchemas_witness :
    ((memoryStore c8NoAgeConfig
      [("a", demoSchema "a" 1), ("b", demoSchema "b" 2)]
      (demoSchema "c" 3) 100).length ≤ 2)
    ∧ memoryCleanup c8AgeConfig
      [("a", demoSchema "a" 1), ("b", demoSchema "b" 200)] 250
      = [("a", demoSchema "a" 1),
         ("b", demoSchema "b" 200)].filter
          (fun p => decide (250 - 100 ≤ p.2.discoveredAt)) :=
  ⟨C8_memory_maxSchemas.1 _ _ (demoSchema "c" 3) 100 2 rfl (by omega) rfl
     (by decide),
   C8_memory_maxSchemas.2 _ _ 250 100 rfl (by omega)⟩

def cexC8Config : MemoryStorageConfig :=
  { maxSchemas := some 2, autoCleanup := true, maxAge := some 86400000 }

/-- The store reached by three consecutive `store` calls of fresh schemas
under `maxSchemas = 2` and the default 24-hour `maxAge`. -/
def cexC8State : MemoryState :=
  memoryStore cexC8Config
    (memoryStore cexC8Config
      (memoryStore cexC8Config [] (demoSchema "a" 1000) 1000)
      (demoSchema "b" 1000) 1000)
    (demoSchema "c" 1000) 1000

/-- Claim C8, counterexample: with `maxSchemas = 2` and a `maxAge`
configured (the default), storing three fresh schemas leaves 3 > 2 schemas
in the store — the overflow cleanup finds nothing older than `maxAge`,
evicts nothing, and the insert proceeds. -/
theorem C8_maxSchemas_exceeded_counterexample :
    cexC8State.length = 3 ∧ ¬ (cexC8State.length ≤ 2) := by
  refine ⟨rfl, by decide⟩

/-! ## OpenAPI specification types (`src/connectors/rest/openapi-types.ts`)

`OpenAPISchema` carries its own option/list types so that the recursive
schema-to-field conversion is structural. -/

inductive OpenAPIDataType where
  | string
  | number
  | integer
  | boolean
  | array
  | object
  | file
deriving DecidableEq, Repr

/-- Parameter locations (`in`) of an OpenAPI/Swagger parameter. -/
inductive ParameterLocation where
  | query
  | header
  | path
  | cookie
  | formData
  | body
deriving DecidableEq, Repr

inductive SecuritySchemeType where
  | apiKey
  | http
  | oauth2
  | openIdConnect
deriving DecidableEq, Repr

mutual
/-- An OpenAPI schema object.  Field order follows the source interface;
`dflt`, `exampleVal`, `enumVals`, `requiredKeys` and `ref` stand for
`default`, `example`, `enum`, `required` and `$ref` (Lean keywords or
reserved names).  Combinator fields (`allOf`/`oneOf`/`anyOf`/`not`,
`additionalProperties`) are not consumed by the converter and are omitted. -/
inductive OpenAPISchema where
  | mk (type : Option OpenAPIDataType) (format : Option String)
       (description : Option String) (dflt : Option Json)
       (exampleVal : Option Json) (enumVals : Option (List Json))
       (minimum : Option Int) (maximum : Option Int)
       (minLength : Option Int) (maxLength : Option Int)
       (pattern : Option String) (items : OASOpt)
       (properties : OAPropsOpt) (requiredKeys : Option (List String))
       (ref : Option String) (nullable : Option Bool)
       (readOnly : Option Bool) (writeOnly : Option Bool)
       (deprecated : Option Bool)

/-- Optional nested schema (`items?: OpenAPISchema`). -/
inductive OASOpt where
  | none
  | some (s : OpenAPISchema)

/-- Optional properties record (`properties?: Record<string, OpenAPISchema>`;
an empty record is present and truthy). -/
inductive OAPropsOpt where
  | none
  | some (l : OAProps)

/-- Insertion-ordered property record entries. -/
inductive OAProps where
  | nil
  | cons (name : String) (s : OpenAPISchema) (rest : OAProps)
end

def OpenAPISchema.type : OpenAPISchema → Option OpenAPIDataType
  | .mk t _ _ _ _ _ _ _ _ _ _ _ _ _ _ _ _ _ _ => t

def OpenAPISchema.format : OpenAPISchema → Option String
  | .mk _ f _ _ _ _ _ _ _ _ _ _ _ _ _ _ _ _ _ => f

def OpenAPISchema.description : OpenAPISchema → Option String
  | .mk _ _ d _ _ _ _ _ _ _ _ _ _ _ _ _ _ _ _ => d

def OpenAPISchema.dflt : OpenAPISchema → Option Json
  | .mk _ _ _ d _ _ _ _ _ _ _ _ _ _ _ _ _ _ _ => d

def OpenAPISchema.exampleVal : OpenAPISchema → Option Json
  | .mk _ _ _ _ e _ _ _ _ _ _ _ _ _ _ _ _ _ _ => e

def OpenAPISchema.enumVals : OpenAPISchema → Option (List Json)
  | .mk _ _ _ _ _ e _ _ _ _ _ _ _ _ _ _ _ _ _ => e

def OpenAPISchema.minimum : OpenAPISchema → Option Int
  | .mk _ _ _ _ _ _ m _ _ _ _ _ _ _ _ _ _ _ _ => m

def OpenAPISchema.maximum : OpenAPISchema → Option Int
  | .mk _ _ _ _ _ _ _ m _ _ _ _ _ _ _ _ _ _ _ => m

def OpenAPISchema.minLength : OpenAPISchema → Option Int
  | .mk _ _ _ _ _ _ _ _ m _ _ _ _ _ _ _ _ _ _ => m

def OpenAPISchema.maxLength : OpenAPISchema → Option Int
  | .mk _ _ _ _ _ _ _ _ _ m _ _ _ _ _ _ _ _ _ => m

def OpenAPISchema.pattern : OpenAPISchema → Option String
  | .mk _ _ _ _ _ _ _ _ _ _ p _ _ _ _ _ _ _ _ => p

def OpenAPISchema.items : OpenAPISchema → OASOpt
  | .mk _ _ _ _ _ _ _ _ _ _ _ i _ _ _ _ _ _ _ => i

def OpenAPISchema.properties : OpenAPISchema → OAPropsOpt
  | .mk _ _ _ _ _ _ _ _ _ _ _ _ p _ _ _ _ _ _ => p

def OpenAPISchema.requiredKeys : OpenAPISchema → Option (List String)
  | .mk _ _ _ _ _ _ _ _ _ _ _ _ _ r _ _ _ _ _ => r

def OpenAPISchema.ref : OpenAPISchema → Option String
  | .mk _ _ _ _ _ _ _ _ _ _ _ _ _ _ r _ _ _ _ => r

def OpenAPISchema.nullable : OpenAPISchema → Option Bool
  | .mk _ _ _ _ _ _ _ _ _ _ _ _ _ _ _ n _ _ _ => n

def OpenAPISchema.readOnly : OpenAPISchema → Option Bool
  | .mk _ _ _ _ _ _ _ _ _ _ _ _ _ _ _ _ r _ _ => r

def OpenAPISchema.writeOnly : OpenAPISchema → Option Bool
  | .mk _ _ _ _ _ _ _ _ _ _ _ _ _ _ _ _ _ w _ => w

def OpenAPISchema.deprecated : OpenAPISchema → Option Bool
  | .mk _ _ _ _ _ _ _ _ _ _ _ _ _ _ _ _ _ _ d => d

/-- An all-absent schema object, for building concrete examples. -/
def OpenAPISchema.empty : OpenAPISchema :=
  .mk Option.none Option.none Option.none Option.none Option.none Option.none
    Option.none Option.none Option.none Option.none Option.none OASOpt.none
    OAPropsOpt.none Option.none Option.none Option.none Option.none
    Option.none Option.none

/-- A bare `{type: t}` schema object. -/
def oasOfType (t : OpenAPIDataType) : OpenAPISchema :=
  .mk (some t) Option.none Option.none Option.none Option.none Option.none
    Option.none Option.none Option.none Option.none Option.none OASOpt.none
    OAPropsOpt.none Option.none Option.none Option.none Option.none
    Option.none Option.none

/-- A bare `{$ref: r}` schema object. -/
def oasOfRef (r : String) : OpenAPISchema :=
  .mk Option.none Option.none Option.none Option.none Option.none Option.none
    Option.none Option.none Option.none Option.none Option.none OASOpt.none
    OAPropsOpt.none Option.none (some r) Option.none Option.none
    Option.none Option.none

/-- An OpenAPI/Swagger parameter object (`in` is `inLoc`; `default` is
`dflt`). -/
structure OpenAPIParameter where
  name : String
  inLoc : ParameterLocation
  description : Option String := Option.none
  required : Option Bool := Option.none
  deprecated : Option Bool := Option.none
  schema : Option OpenAPISchema := Option.none
  type : Option OpenAPIDataType := Option.none
  format : Option String := Option.none
  dflt : Option Json := Option.none
  maximum : Option Int := Option.none
  minimum : Option Int := Option.none
  maxLength : Option Int := Option.none
  minLength : Option Int := Option.none
  pattern : Option String := Option.none
  enumVals : Option (List Json) := Option.none

/-- One media-type object of a `content` record. -/
structure OAMediaObj where
  schema : Option OpenAPISchema := Option.none

/-- A response header: either an OpenAPI 3.x header carrying a `schema`
(detected by `'schema' in header`) or a Swagger-2-style parameter object. -/
inductive OAHeader where
  | schemaStyle (schema : OpenAPISchema)
  | paramStyle (type : Option OpenAPIDataType) (description : Option String)

structure OpenAPIResponse where
  description : String
  headers : Option (List (String × OAHeader)) := Option.none
  content : Option (List (String × OAMediaObj)) := Option.none
  schema : Option OpenAPISchema := Option.none

structure OpenAPIRequestBody where
  description : Option String := Option.none
  content : List (String × OAMediaObj)
  required : Option Bool := Option.none

structure OpenAPIOperation where
  tags : Option (List String) := Option.none
  summary : Option String := Option.none
  description : Option String := Option.none
  operationId : Option String := Option.none
  parameters : Option (List OpenAPIParameter) := Option.none
  requestBody : Option OpenAPIRequestBody := Option.none
  responses : List (String × OpenAPIResponse) := []
  deprecated : Option Bool := Option.none
  security : Option (List (List (String × List String))) := Option.none
  consumes : Option (List String) := Option.none
  produces : Option (List String) := Option.none

structure OpenAPIPathItem where
  summary : Option String := Option.none
  description : Option String := Option.none
  get : Option OpenAPIOperation := Option.none
  put : Option OpenAPIOperation := Option.none
  post : Option OpenAPIOperation := Option.none
  delete : Option OpenAPIOperation := Option.none
  options : Option OpenAPIOperation := Option.none
  head : Option OpenAPIOperation := Option.none
  patch : Option OpenAPIOperation := Option.none
  parameters : Option (List OpenAPIParameter) := Option.none

/-- A security scheme (`in` is `inLoc`; only the fields the converter reads
are carried). -/
structure OpenAPISecurityScheme where
  type : SecuritySchemeType
  description : Option String := Option.none
  name : Option String := Option.none
  inLoc : Option String := Option.none
  scheme : Option String := Option.none
  bearerFormat : Option String := Option.none
  flows : Option OAFlowsData := Option.none
  openIdConnectUrl : Option String := Option.none

structure OpenAPIInfo where
  title : Option String := Option.none
  description : Option String := Option.none
  version : Option String := Option.none
  contact : Option Json := Option.none
  license : Option Json := Option.none

structure OAServer where
  url : String

/-- The components the converter reads (other component kinds are unused). -/
structure OAComponents where
  schemas : Option (List (String × OpenAPISchema)) := Option.none
  securitySchemes : Option (List (String × OpenAPISecurityScheme)) :=
    Option.none

/-- A parsed OpenAPI/Swagger document.  `info` and `paths` are optional here
because validation must be able to observe their absence at runtime. -/
structure OpenAPISpecification where
  openapi : Option String := Option.none
  swagger : Option String := Option.none
  info : Option OpenAPIInfo := Option.none
  servers : Option (List OAServer) := Option.none
  host : Option String := Option.none
  basePath : Option String := Option.none
  schemes : Option (List String) := Option.none
  paths : Option (List (String × OpenAPIPathItem)) := Option.none
  components : Option OAComponents := Option.none
  definitions : Option (List (String × OpenAPISchema)) := Option.none
  securityDefinitions : Option (List (String × OpenAPISecurityScheme)) :=
    Option.none
  tags : Option (List Json) := Option.none
  externalDocs : Option Json := Option.none

/-! ## OpenAPI to Universal Schema converter
  (`src/connectors/rest/openapi-converter.ts`)

Conversion can throw a `TypeError` in the source when a `content` record is
empty (`Object.keys(content)[0]` is `undefined`); those paths are modelled
with `Except.error`. -/

/-- A truthy-filtered optional string: `if (o) field = o` leaves the field
unset for `undefined` and `""`. -/
def jsStrField (o : Option String) : Option String :=
  if jsStrOptTruthy o then o else Option.none

def mapOpenAPITypeToDataType : Option OpenAPIDataType → DataType
  | some .string => .string
  | some .number => .number
  | some .integer => .integer
  | some .boolean => .boolean
  | some .array => .array
  | some .object => .object
  | some .file => .string
  | Option.none => .unknown

def mapParameterLocation : ParameterLocation → ParamLocation
  | .query => .query
  | .path => .path
  | .header => .header
  | .formData => .body
  | .body => .body
  | .cookie => .query
  -- `cookie` falls to the switch default, which returns `query`

/-- `extractSchemaConstraints`: collect `minimum`/`maximum`
(`minLength`/`maxLength` overwrite them, as in the source), `pattern`
(truthy), `enum` (present) and `format` (truthy); `undefined` if none was
set. -/
def extractSchemaConstraints (s : OpenAPISchema) : Option FieldConstraints :=
  let c0 : FieldConstraints := {}
  let (c1, h1) := match s.minimum with
    | some m => ({ c0 with minimum := some m }, true)
    | Option.none => (c0, false)
  let (c2, h2) := match s.maximum with
    | some m => ({ c1 with maximum := some m }, true)
    | Option.none => (c1, h1)
  let (c3, h3) := match s.minLength with
    | some m => ({ c2 with minimum := some m }, true)
    | Option.none => (c2, h2)
  let (c4, h4) := match s.maxLength with
    | some m => ({ c3 with maximum := some m }, true)
    | Option.none => (c3, h3)
  let (c5, h5) := if jsStrOptTruthy s.pattern
    then ({ c4 with pattern := s.pattern }, true) else (c4, h4)
  let (c6, h6) := match s.enumVals with
    | some e => ({ c5 with enum := some e }, true)
    | Option.none => (c5, h5)
  let (c7, h7) := if jsStrOptTruthy s.format
    then ({ c6 with format := s.format }, true) else (c6, h6)
  if h7 then some c7 else Option.none

/-- `extractConstraints` for Swagger-2-style parameters (no `format`). -/
def extractConstraints (p : OpenAPIParameter) : Option FieldConstraints :=
  let c0 : FieldConstraints := {}
  let (c1, h1) := match p.minimum with
    | some m => ({ c0 with minimum := some m }, true)
    | Option.none => (c0, false)
  let (c2, h2) := match p.maximum with
    | some m => ({ c1 with maximum := some m }, true)
    | Option.none => (c1, h1)
  let (c3, h3) := match p.minLength with
    | some m => ({ c2 with minimum := some m }, true)
    | Option.none => (c2, h2)
  let (c4, h4) := match p.maxLength with
    | some m => ({ c3 with maximum := some m }, true)
    | Option.none => (c3, h3)
  let (c5, h5) := if jsStrOptTruthy p.pattern
    then ({ c4 with pattern := p.pattern }, true) else (c4, h4)
  let (c6, h6) := match p.enumVals with
    | some e => ({ c5 with enum := some e }, true)
    | Option.none => (c5, h5)
  if h6 then some c6 else Option.none

/-- `resolveSchemaReference`: the placeholder resolver — it ignores the
reference string entirely and returns a bare `{type: OBJECT}` schema. -/
def resolveSchemaReference (_ref : String) : OpenAPISchema :=
  oasOfType OpenAPIDataType.object

/-- Replace the `required` flag of a converted field
(`field.properties[propName].required = ...`). -/
def SchemaField.setRequired : SchemaField → Bool → SchemaField
  | .mk n t _ d dv i p c m, r => .mk n t r d dv i p c m

/-- Assemble a `SchemaField` from an already-resolved schema object and its
already-converted children (the non-recursive tail of
`convertOpenAPISchemaToSchemaField`). -/
def buildSchemaField (resolved : OpenAPISchema) (name : String)
    (itemsF : Option SchemaField)
    (propsF : Option (List (String × SchemaField))) : SchemaField :=
  SchemaField.mk name
    (mapOpenAPITypeToDataType
      (match resolved.type with
       | some t => some t
       | Option.none => some OpenAPIDataType.object))
    false
    (jsStrField resolved.description)
    resolved.dflt
    itemsF
    propsF
    (extractSchemaConstraints resolved)
    (some (FieldMeta.openapi resolved.format resolved.exampleVal
      resolved.enumVals resolved.nullable resolved.readOnly
      resolved.writeOnly resolved.deprecated))

mutual
/-- `convertOpenAPISchemaToSchemaField`: resolve a (truthy) `$ref` through
the placeholder resolver — whose result has no `items` and no `properties`,
so no recursion happens —, otherwise convert `items` (for arrays) and
`properties` (for objects) recursively. -/
def convertOpenAPISchemaToSchemaField (schema : OpenAPISchema)
    (name : String) : SchemaField :=
  match schema with
  | .mk type _ _ _ _ _ _ _ _ _ _ items properties requiredKeys ref
      _ _ _ _ =>
    if jsStrOptTruthy ref then
      buildSchemaField (resolveSchemaReference (jsStrOr ref ""))
        name Option.none Option.none
    else
      buildSchemaField schema name
        (match items with
         | OASOpt.some i =>
           if type == some OpenAPIDataType.array then
             some (convertOpenAPISchemaToSchemaField i "item")
           else Option.none
         | OASOpt.none => Option.none)
        (match properties with
         | OAPropsOpt.some l =>
           if type == some OpenAPIDataType.object then
             some (convertOAProps l requiredKeys [])
           else Option.none
         | OAPropsOpt.none => Option.none)

/-- The `properties` loop: convert each property and overwrite its
`required` flag from the parent's `required` array. -/
def convertOAProps (l : OAProps) (req : Option (List String))
    (acc : List (String × SchemaField)) : List (String × SchemaField) :=
  match l with
  | .nil => acc
  | .cons propName propSchema rest =>
    convertOAProps rest req
      (jsRecordSet acc propName
        ((convertOpenAPISchemaToSchemaField propSchema propName).setRequired
          (match req with
           | some rl => rl.contains propName
           | Option.none => false)))
end

/-- `convertOpenAPIParameterToParameter`.  `resolveReference` is the
identity on the typed parameter objects modelled here (the declared
`OpenAPIParameter` interface has no `$ref` member). -/
def convertOpenAPIParameterToParameter (param : OpenAPIParameter) :
    Parameter :=
  let schema : SchemaField :=
    match param.schema with
    | some s => convertOpenAPISchemaToSchemaField s param.name
    | Option.none =>
      SchemaField.mk param.name
        (mapOpenAPITypeToDataType
          (match param.type with
           | some t => some t
           | Option.none => some OpenAPIDataType.string))
        (param.required.getD false)
        (jsStrField param.description)
        param.dflt
        Option.none Option.none
        (extractConstraints param)
        Option.none
  Parameter.mk param.name (mapParameterLocation param.inLoc) schema
    (param.required.getD false) (jsStrField param.description) Option.none

/-- `convertRequestBodyToParameter`: take the first declared content type;
an empty `content` record makes the source read a property of `undefined`
(a thrown `TypeError`). -/
def convertRequestBodyToParameter (rb : OpenAPIRequestBody) :
    Except String (Option Parameter) :=
  match rb.content with
  | [] => .error "Cannot read properties of undefined (reading 'schema')"
  | (_, mediaObj) :: _ =>
    match mediaObj.schema with
    | Option.none => .ok Option.none
    | some s =>
      .ok (some (Parameter.mk "body" ParamLocation.body
        (convertOpenAPISchemaToSchemaField s "body")
        (rb.required.getD false) rb.description Option.none))

/-- `extractParameters`: path-level parameters, then operation-level
parameters, then the OpenAPI 3.x request body. -/
def extractParameters (operation : OpenAPIOperation)
    (pathItem : OpenAPIPathItem) : Except String (List Parameter) := do
  let pathParams := (pathItem.parameters.getD []).map
    convertOpenAPIParameterToParameter
  let opParams := (operation.parameters.getD []).map
    convertOpenAPIParameterToParameter
  let bodyParams ← match operation.requestBody with
    | some rb => do
      let p ← convertRequestBodyToParameter rb
      pure (match p with | some p => [p] | Option.none => [])
    | Option.none => pure ([] : List Parameter)
  pure (pathParams ++ opParams ++ bodyParams)

/-- `extractResponseHeaders`. -/
def extractResponseHeaders (response : OpenAPIResponse) :
    Option (List (String × SchemaField)) :=
  match response.headers with
  | Option.none => Option.none
  | some hs =>
    let headers := hs.foldl (fun acc (p : String × OAHeader) =>
      jsRecordSet acc p.1
        (match p.2 with
         | .schemaStyle s => convertOpenAPISchemaToSchemaField s p.1
         | .paramStyle t d =>
           SchemaField.mk p.1
             (mapOpenAPITypeToDataType
               (match t with
                | some t => some t
                | Option.none => some OpenAPIDataType.string))
             false d Option.none Option.none Option.none Option.none
             Option.none)) []
    if headers.length > 0 then some headers else Option.none

/-- `extractResponses`: one `Response` per declared status code; OpenAPI 3.x
`content` takes the first content type's schema (throwing on an empty
`content` record), Swagger 2.0 uses the legacy `schema`. -/
def extractResponses (responses : List (String × OpenAPIResponse)) :
    Except String (List Response) :=
  responses.foldlM (fun acc (p : String × OpenAPIResponse) => do
    let resolvedResponse := p.2
    let schema : Option SchemaField ← match resolvedResponse.content with
      | some [] => .error "Cannot read properties of undefined (reading 'schema')"
      | some ((_, mediaObj) :: _) =>
        pure (match mediaObj.schema with
          | some s => some (convertOpenAPISchemaToSchemaField s "response")
          | Option.none => Option.none)
      | Option.none =>
        pure (match resolvedResponse.schema with
          | some s => some (convertOpenAPISchemaToSchemaField s "response")
          | Option.none => Option.none)
    pure (acc ++ [{ statusCode := p.1
                    description := resolvedResponse.description
                    schema := schema
                    headers := extractResponseHeaders resolvedResponse }]))
    []

def HTTPMethod.str : HTTPMethod → String
  | .GET => "GET"
  | .POST => "POST"
  | .PUT => "PUT"
  | .DELETE => "DELETE"
  | .PATCH => "PATCH"
  | .HEAD => "HEAD"
  | .OPTIONS => "OPTIONS"

def HTTPMethod.lower : HTTPMethod → String
  | .GET => "get"
  | .POST => "post"
  | .PUT => "put"
  | .DELETE => "delete"
  | .PATCH => "patch"
  | .HEAD => "head"
  | .OPTIONS => "options"

/-- `path.replace(/[^a-zA-Z0-9]/g, '_')`. -/
def sanitizePathId (s : String) : String :=
  String.mk (s.toList.map (fun c =>
    if (48 ≤ c.toNat ∧ c.toNat ≤ 57) ∨ (65 ≤ c.toNat ∧ c.toNat ≤ 90)
        ∨ (97 ≤ c.toNat ∧ c.toNat ≤ 122) then c else '_'))

/-- `extractOperationsFromPath`: one `Operation` per present HTTP verb, in
the source's fixed order. -/
def extractOperationsFromPath (path : String) (pathItem : OpenAPIPathItem) :
    Except String (List Operation) := do
  let httpMethods : List (HTTPMethod × Option OpenAPIOperation) :=
    [(HTTPMethod.GET, pathItem.get), (HTTPMethod.POST, pathItem.post),
     (HTTPMethod.PUT, pathItem.put), (HTTPMethod.DELETE, pathItem.delete),
     (HTTPMethod.PATCH, pathItem.patch), (HTTPMethod.HEAD, pathItem.head),
     (HTTPMethod.OPTIONS, pathItem.options)]
  httpMethods.foldlM (fun acc (mp : HTTPMethod × Option OpenAPIOperation) =>
    match mp.2 with
    | Option.none => pure acc
    | some operation => do
      let operationId := jsStrOr operation.operationId
        (mp.1.lower ++ "_" ++ sanitizePathId path)
      let parameters ← extractParameters operation pathItem
      let responses ← extractResponses operation.responses
      pure (acc ++ [{
        id := operationId
        name := jsStrOr operation.summary (mp.1.str ++ " " ++ path)
        type := OperationType.endpoint
        method := some mp.1
        path := some path
        description := jsStrField operation.description
        parameters := parameters
        responses := responses
        tags := operation.tags
        deprecated := if operation.deprecated == some true then some true
                      else Option.none
        metadata := some (OpMeta.openapi operation.operationId
          operation.consumes operation.produces operation.security) }]))
    []

/-- `extractTypeDefinitions`: `components.schemas` (3.x) then `definitions`
(2.0). -/
def extractTypeDefinitions (spec : OpenAPISpecification) :
    List (String × SchemaField) :=
  let fromComponents :=
    match spec.components with
    | some c => c.schemas.getD []
    | Option.none => []
  let types := fromComponents.foldl (fun acc (p : String × OpenAPISchema) =>
    jsRecordSet acc p.1 (convertOpenAPISchemaToSchemaField p.2 p.1)) []
  (spec.definitions.getD []).foldl (fun acc (p : String × OpenAPISchema) =>
    jsRecordSet acc p.1 (convertOpenAPISchemaToSchemaField p.2 p.1)) types

/-- `extractBaseUrl`. -/
def extractBaseUrl (spec : OpenAPISpecification) : Option String :=
  match spec.servers with
  | some (s :: _) => some s.url
  | _ =>
    if jsStrOptTruthy spec.host then
      let scheme := match spec.schemes with
        | some (sc :: _) => if sc ≠ "" then sc else "https"
        | _ => "https"
      some (scheme ++ "://" ++ spec.host.getD "" ++ (spec.basePath.getD ""))
    else Option.none

/-- `extractOAuth2Scopes`: scope names from every flow object, deduplicated
in first-seen order. -/
def extractOAuth2Scopes (flows : Option OAFlowsData) : List String :=
  let flowList := match flows with
    | some f =>
      (match f.implicit with | some fl => [fl] | Option.none => []) ++
      (match f.password with | some fl => [fl] | Option.none => []) ++
      (match f.clientCredentials with | some fl => [fl] | Option.none => []) ++
      (match f.authorizationCode with | some fl => [fl] | Option.none => [])
    | Option.none => []
  (flowList.foldl (fun acc fl =>
    acc ++ fl.scopes.map (fun p => p.1)) []).foldl jsSetAdd []

/-- `extractAuthentication`: from the first entry of
`components.securitySchemes` or `securityDefinitions`. -/
def extractAuthentication (spec : OpenAPISpecification) :
    AuthenticationInfo :=
  let securitySchemes : Option (List (String × OpenAPISecurityScheme)) :=
    match spec.components with
    | some c =>
      (match c.securitySchemes with
       | some ss => some ss
       | Option.none => spec.securityDefinitions)
    | Option.none => spec.securityDefinitions
  match securitySchemes with
  | Option.none => { type := AuthType.none }
  | some [] => { type := AuthType.none }
  | some ((_, firstScheme) :: _) =>
    match firstScheme.type with
    | .apiKey =>
      { type := AuthType.apikey
        description := jsStrField firstScheme.description
        metadata := some (AuthMeta.apiKey firstScheme.name
          firstScheme.inLoc) }
    | .http =>
      { type := if firstScheme.scheme == some "bearer" then AuthType.bearer
                else AuthType.basic
        description := jsStrField firstScheme.description
        metadata := some (AuthMeta.http firstScheme.scheme
          firstScheme.bearerFormat) }
    | .oauth2 =>
      { type := AuthType.oauth2
        description := jsStrField firstScheme.description
        scopes := some (extractOAuth2Scopes firstScheme.flows)
        metadata := some (AuthMeta.oauth2 firstScheme.flows) }
    | .openIdConnect =>
      { type := AuthType.oauth2
        description := jsStrField firstScheme.description
        metadata := some (AuthMeta.openIdConnect
          firstScheme.openIdConnectUrl) }

/-- `createMetadata` for REST schemas. -/
def createRestMetadata (spec : OpenAPISpecification) : SchemaMetadata :=
  { extensions := ExtMeta.openapi
      (if jsStrOptTruthy spec.openapi then spec.openapi else spec.swagger)
      ((spec.paths.getD []).length)
      ((spec.tags.getD []).length)
      (match spec.servers with
       | some (_ :: _) => true
       | _ => false)
      (match spec.components with
       | some c => c.schemas.isSome || c.securitySchemes.isSome
       | Option.none => false)
    contact := spec.info.bind (fun i => i.contact)
    license := spec.info.bind (fun i => i.license)
    externalDocs := spec.externalDocs }

/-- `generateSchemaId` of the REST converter: 32-bit string hash of the
source URL in base 36, plus `Date.now()`. -/
def generateRestSchemaId (sourceUrl : String) (now : Nat) : String :=
  "rest_" ++ natToBase36 (jsStringHash sourceUrl).natAbs ++ "_"
    ++ toString now

/-- `OpenAPISchemaConverter.convertSchema`: reusable types, operations for
every path and verb, then the schema envelope.  Reading `spec.info.title` or
iterating `spec.paths` with either absent throws in the source; conversion
is only reached after validation, which guarantees their presence. -/
def convertSchema (spec : OpenAPISpecification) (sourceUrl : String)
    (now : Nat) : Except String UniversalSchema := do
  let types := extractTypeDefinitions spec
  let info ← match spec.info with
    | some i => pure i
    | Option.none => .error "Cannot read properties of undefined (reading 'title')"
  let paths ← match spec.paths with
    | some ps => pure ps
    | Option.none => .error "Cannot convert undefined or null to object"
  let operations ← paths.foldlM
    (fun acc (p : String × OpenAPIPathItem) => do
      let pathOps ← extractOperationsFromPath p.1 p.2
      pure (acc ++ pathOps)) []
  pure { id := generateRestSchemaId sourceUrl now
         name := info.title.getD "undefined"
         version := info.version.getD "undefined"
         protocol := APIProtocol.rest
         baseUrl := extractBaseUrl spec
         description := jsStrField (info.description)
         operations := operations
         types := types
         authentication := some (extractAuthentication spec)
         metadata := some (createRestMetadata spec)
         discoveredAt := now
         source := sourceUrl }

/-! ## REST connector (`src/connectors/rest/rest-connector.ts`)

The HTTP transport is an environment: `head` gives the content type of a
successful `axios.head` probe (`Option.none` when the request throws), and
`get` gives the outcome of `axios.get` on the specification URL. -/

/-- REST connector configuration.  Transport options (timeout, headers,
redirects, user agent) only parameterise the HTTP requests and are absorbed
by the environment functions. -/
structure RESTConnectorConfig where
  url : String
  specUrl : Option String := Option.none
  tryCommonPaths : Option Bool := Option.none
  customPaths : Option (List String) := Option.none

def COMMON_OPENAPI_PATHS : List String :=
  ["/openapi.json", "/openapi.yaml", "/swagger.json", "/swagger.yaml",
   "/api-docs", "/api/docs", "/docs/openapi.json", "/docs/swagger.json",
   "/v1/openapi.json", "/v1/swagger.json", "/api/v1/openapi.json",
   "/api/v1/swagger.json"]

/-- The body returned by a successful fetch of the specification URL: either
already a parsed object (axios decodes JSON bodies) or a raw string.  A
string body carries the outcomes that `JSON.parse` and `yaml.parse` (both
external to this repository) have on it. -/
inductive SpecData where
  | obj (spec : OpenAPISpecification)
  | str (raw : String) (jsonParse : Except String OpenAPISpecification)
      (yamlParse : Except String OpenAPISpecification)

/-- JavaScript truthiness of `response.data` (an empty string is falsy). -/
def SpecData.truthy : SpecData → Bool
  | .obj _ => true
  | .str raw _ _ => raw ≠ ""

/-- Outcome of an HTTP request made through axios: success with a payload, a
rejection recognised by `axios.isAxiosError` (carrying the optional response
status and status text and the error message), or some other thrown error. -/
inductive FetchOutcome (α : Type) where
  | ok (data : α)
  | axiosErr (status : Option Nat) (statusText : String) (message : String)
  | thrown (message : String)

structure RestEnv where
  head : String → Option String
  get : String → FetchOutcome SpecData

/-- The typed error classes a connector can throw
(`src/types/core/index.ts`), plus `genericError` for plain JavaScript errors
(such as the converter's `TypeError`s) that the introspection catch block
wraps. -/
inductive ConnectorThrow where
  | connectionError (msg : String)
  | authenticationError (msg : String)
  | introspectionError (msg : String)
  | schemaParsingError (msg : String)
  | genericError (msg : String)

def ConnectorThrow.message : ConnectorThrow → String
  | .connectionError m => m
  | .authenticationError m => m
  | .introspectionError m => m
  | .schemaParsingError m => m
  | .genericError m => m

/-- `ConnectionTestResult` (generic in the protocol-specific metadata;
`responseTime` is a wall-clock measurement and is not modelled). -/
structure ConnectionTestResult (μ : Type) where
  success : Bool
  error : Option String := Option.none
  metadata : μ

/-- `IntrospectionResult` (generic in the protocol-specific metadata). -/
structure IntrospectionResult (μ : Type) where
  success : Bool
  schema : Option UniversalSchema := Option.none
  error : Option String := Option.none
  warnings : Option (List String) := Option.none
  metadata : μ

/-- Metadata attached to REST connection-test results (`specSize` is a
serialization measurement and is not modelled). -/
inductive RestTCMeta where
  | discoverFail (endpoint : String) (triedPaths : List String)
  | fetchOk (endpoint : String) (specUrl : String) (specFormat : String)
  | emptySpec (endpoint : String) (specUrl : String)
  | httpError (endpoint : String) (status : Option Nat) (statusText : String)

/-- Metadata attached to REST introspection results
(`introspectionTimestamp` is a wall-clock reading and is not modelled). -/
inductive RestIntroMeta where
  | fromTest (m : RestTCMeta)
  | discoverFail (endpoint : String) (triedPaths : List String)
  | invalidSpec (endpoint : String) (specUrl : String)
      (validationErrors : List String)
  | success (endpoint : String) (specUrl : String) (specFormat : String)
      (operationCount : Nat) (typeCount : Nat)

/-- `looksLikeSpecUrl`. -/
def looksLikeSpecUrl (url : String) : Bool :=
  let lowerUrl := jsToLower url
  strContains lowerUrl "swagger" || strContains lowerUrl "openapi"
    || strEndsWith lowerUrl ".json" || strEndsWith lowerUrl ".yaml"
    || strEndsWith lowerUrl ".yml" || strContains lowerUrl "api-docs"

/-- `getPathsToTry`: custom paths first, then the common paths unless
`tryCommonPaths === false`. -/
def getPathsToTry (config : RESTConnectorConfig) : List String :=
  (config.customPaths.getD [])
    ++ (if config.tryCommonPaths == some false then [] else
        COMMON_OPENAPI_PATHS)

/-- `url.replace(/\/$/, '')`: drop one trailing slash. -/
def stripTrailingSlash (url : String) : String :=
  if strEndsWith url "/" then String.mk url.toList.dropLast else url

/-- The common-path probe loop of `discoverSpecificationUrl`: accept the
first path whose HEAD probe succeeds with a json/yaml/text content type;
a throwing probe just moves on to the next path. -/
def discoverLoop (env : RestEnv) (baseUrl : String) :
    List String → Option String
  | [] => Option.none
  | p :: rest =>
    let specUrl := baseUrl ++ p
    match env.head specUrl with
    | some contentType =>
      if strContains contentType "json" || strContains contentType "yaml"
          || strContains contentType "text" then some specUrl
      else discoverLoop env baseUrl rest
    | Option.none => discoverLoop env baseUrl rest

/-- `discoverSpecificationUrl`: explicit (truthy) `specUrl`, else the URL
itself when it looks like a spec, else the common-path probe. -/
def discoverSpecificationUrl (config : RESTConnectorConfig) (env : RestEnv) :
    Option String :=
  if jsStrOptTruthy config.specUrl then config.specUrl
  else if looksLikeSpecUrl config.url then some config.url
  else discoverLoop env (stripTrailingSlash config.url) (getPathsToTry config)

/-- `detectSpecificationFormat`. -/
def detectSpecificationFormat (data : SpecData) : String :=
  match data with
  | .obj spec =>
    if jsStrOptTruthy spec.openapi then "OpenAPI " ++ spec.openapi.getD ""
    else if jsStrOptTruthy spec.swagger then
      "Swagger " ++ spec.swagger.getD ""
    else "Unknown"
  | .str _ _ _ => "Unknown"

/-- `${x}` for an optional number (`undefined` prints as "undefined"). -/
def statusOptStr : Option Nat → String
  | some n => toString n
  | Option.none => "undefined"

/-- `RESTConnector.testConnection`. -/
def restTestConnection (config : RESTConnectorConfig) (env : RestEnv) :
    Except ConnectorThrow (ConnectionTestResult RestTCMeta) :=
  match discoverSpecificationUrl config env with
  | Option.none =>
    .ok { success := false
          error := some "Could not discover OpenAPI specification URL"
          metadata := RestTCMeta.discoverFail config.url
            (getPathsToTry config) }
  | some specUrl =>
    match env.get specUrl with
    | .ok data =>
      if data.truthy then
        .ok { success := true
              metadata := RestTCMeta.fetchOk config.url specUrl
                (detectSpecificationFormat data) }
      else
        .ok { success := false
              error := some "Empty or invalid OpenAPI specification"
              metadata := RestTCMeta.emptySpec config.url specUrl }
    | .axiosErr status statusText message =>
      .ok { success := false
            error := some ("HTTP " ++ statusOptStr status ++ ": "
              ++ (if statusText ≠ "" then statusText else message))
            metadata := RestTCMeta.httpError config.url status statusText }
    | .thrown message =>
      .error (.connectionError
        ("Failed to connect to REST endpoint: " ++ message))

/-- `RESTConnector.parseSpecification`: objects pass through; strings go
through `JSON.parse`, then `yaml.parse`; failure of both throws a
`SchemaParsingError` wrapping the inner parser's message. -/
def parseSpecification (data : SpecData) :
    Except ConnectorThrow OpenAPISpecification :=
  match data with
  | .obj spec => .ok spec
  | .str _ jsonParse yamlParse =>
    match jsonParse with
    | .ok spec => .ok spec
    | .error _ =>
      match yamlParse with
      | .ok spec => .ok spec
      | .error msg =>
        .error (.schemaParsingError
          ("Failed to parse OpenAPI specification: " ++ msg))

/-- `/^3\.\d+\.\d+$/`. -/
def matchesOpenAPI3 (v : String) : Bool :=
  match v.toList with
  | '3' :: '.' :: rest =>
    let d1 := rest.takeWhile Char.isDigit
    let rest1 := rest.dropWhile Char.isDigit
    d1 ≠ [] && (match rest1 with
      | '.' :: d2 => d2 ≠ [] && d2.all Char.isDigit
      | _ => false)
  | _ => false

structure ValidationOutcome where
  valid : Bool
  errors : List String
  warnings : List String

/-- `RESTConnector.validateSpecification`: required-field errors are
accumulated (not short-circuited); version-format problems only warn. -/
def validateSpecification (spec : OpenAPISpecification) :
    ValidationOutcome :=
  let errors1 := match spec.info with
    | Option.none => ["Missing required field: info"]
    | some i =>
      (if ¬ jsStrOptTruthy i.title then ["Missing required field: info.title"]
       else []) ++
      (if ¬ jsStrOptTruthy i.version then
        ["Missing required field: info.version"] else [])
  let (errors2, warnings1) := match spec.paths with
    | Option.none => (errors1 ++ ["Missing required field: paths"],
        ([] : List String))
    | some ps => (errors1,
        if ps.length = 0 then ["No paths defined in specification"] else [])
  let errors3 :=
    if ¬ jsStrOptTruthy spec.openapi ∧ ¬ jsStrOptTruthy spec.swagger then
      errors2 ++ ["Missing version field (openapi or swagger)"]
    else errors2
  let warnings2 := warnings1 ++ (match spec.openapi with
    | some v => if v ≠ "" ∧ ¬ matchesOpenAPI3 v then
        ["Unsupported OpenAPI version: " ++ v] else []
    | Option.none => [])
  let warnings3 := warnings2 ++ (match spec.swagger with
    | some v => if v ≠ "" ∧ v ≠ "2.0" then
        ["Unsupported Swagger version: " ++ v] else []
    | Option.none => [])
  { valid := errors3.length = 0, errors := errors3, warnings := warnings3 }

/-- The body of `RESTConnector.introspect` (inside its try block). -/
def restIntrospectBody (config : RESTConnectorConfig) (env : RestEnv)
    (now : Nat) :
    Except ConnectorThrow (IntrospectionResult RestIntroMeta) := do
  let connectionTest ← restTestConnection config env
  if ¬ connectionTest.success then
    return { success := false
             error := some ("Connection test failed: "
               ++ connectionTest.error.getD "undefined")
             metadata := RestIntroMeta.fromTest connectionTest.metadata }
  match discoverSpecificationUrl config env with
  | Option.none =>
    return { success := false
             error := some "Could not discover OpenAPI specification URL"
             metadata := RestIntroMeta.discoverFail config.url
               (getPathsToTry config) }
  | some specUrl =>
    match env.get specUrl with
    | .ok data => do
      let spec ← parseSpecification data
      let validationResult := validateSpecification spec
      if ¬ validationResult.valid then
        return { success := false
                 error := some ("Invalid OpenAPI specification: "
                   ++ String.intercalate ", " validationResult.errors)
                 metadata := RestIntroMeta.invalidSpec config.url specUrl
                   validationResult.errors }
      match convertSchema spec specUrl now with
      | .ok schema =>
        return { success := true
                 schema := some schema
                 warnings := some validationResult.warnings
                 metadata := RestIntroMeta.success config.url specUrl
                   (detectSpecificationFormat data)
                   schema.operations.length schema.types.length }
      | .error msg => .error (.genericError msg)
    | .axiosErr _ _ message => .error (.genericError message)
    | .thrown message => .error (.genericError message)

/-- The catch block of `RESTConnector.introspect`: rethrow
`ConnectionError`, wrap everything else as `IntrospectionError` carrying the
original message. -/
def restIntrospect (config : RESTConnectorConfig) (env : RestEnv)
    (now : Nat) :
    Except ConnectorThrow (IntrospectionResult RestIntroMeta) :=
  match restIntrospectBody config env now with
  | .ok res => .ok res
  | .error (.connectionError m) => .error (.connectionError m)
  | .error e =>
    .error (.introspectionError
      ("REST introspection failed: " ++ e.message))

/-! ## Claim C6: `$ref` conversion -/

/-- Claim C6 (amended): for every OpenAPI schema object containing a (truthy)
`$ref`, the REST converter produces a fixed object-typed stub — no `items`,
no `properties`, so the referenced structure is not inlined — but the stub
does not carry the referenced type's name: `resolveSchemaReference` is a
placeholder that ignores the reference string, so any two references convert
to identical fields. -/
theorem C6_ref_stub (s : OpenAPISchema) (name r : String)
    (h : s.ref = some r) (hr : r ≠ "") :
    convertOpenAPISchemaToSchemaField s name
      = SchemaField.mk name DataType.object false Option.none Option.none
          Option.none Option.none Option.none
          (some (FieldMeta.openapi Option.none Option.none Option.none
            Option.none Option.none Option.none Option.none)) := by
  rcases s with ⟨t, f, d, dv, ev, en, mi, ma, mil, mal, pat, it, pr, rq, rf,
    nu, ro, wo, dp⟩
  have h' : rf = some r := h
  have htr : jsStrOptTruthy rf = true := by
    rw [h']
    simp [jsStrOptTruthy, hr]
  unfold convertOpenAPISchemaToSchemaField
  rw [if_pos htr]
  rfl

theorem C6_ref_stub_witness :
    convertOpenAPISchemaToSchemaField (oasOfRef "#/components/schemas/Pet")
      "owner"
      = SchemaField.mk "owner" DataType.object false Option.none Option.none
          Option.none Option.none Option.none
          (some (FieldMeta.openapi Option.none Option.none Option.none
            Option.none Option.none Option.none Option.none)) :=
  C6_ref_stub (oasOfRef "#/components/schemas/Pet") "owner"
    "#/components/schemas/Pet" rfl (by decide)

/-- Claim C6, counterexample: references to two different component schemas
(`Pet` and `Dog`) convert to byte-for-byte identical `SchemaField`s, and the
result is a bare object stub; so the produced field cannot carry the
referenced type's name, contrary to the claim. -/
theorem C6_ref_discards_name_counterexample :
    convertOpenAPISchemaToSchemaField (oasOfRef "#/components/schemas/Pet")
        "owner"
      = convertOpenAPISchemaToSchemaField
          (oasOfRef "#/components/schemas/Dog") "owner"
    ∧ convertOpenAPISchemaToSchemaField (oasOfRef "#/components/schemas/Pet")
        "owner"
      = SchemaField.mk "owner" DataType.object false Option.none Option.none
          Option.none Option.none Option.none
          (some (FieldMeta.openapi Option.none Option.none Option.none
            Option.none Option.none Option.none Option.none)) :=
  ⟨rfl, rfl⟩

/-! ## Claim C9: discovery path exhaustion -/

/-- Whether a HEAD probe of `u` counts as a hit (succeeded with a
json/yaml/text content type). -/
def headAccepts (env : RestEnv) (u : String) : Bool :=
  match env.head u with
  | some contentType =>
    strContains contentType "json" || strContains contentType "yaml"
      || strContains contentType "text"
  | Option.none => false

theorem discoverLoop_none (env : RestEnv) (baseUrl : String) :
    ∀ paths : List String,
      (∀ p ∈ paths, headAccepts env (baseUrl ++ p) = false) →
      discoverLoop env baseUrl paths = Option.none := by
  intro paths
  induction paths with
  | nil => intro _; rfl
  | cons p rest ih =>
    intro h
    have hrest := ih (fun q hq => h q (List.mem_cons_of_mem p hq))
    unfold discoverLoop
    dsimp only
    cases hh : env.head (baseUrl ++ p) with
    | none => exact hrest
    | some ct =>
      have hp : (strContains ct "json" || strContains ct "yaml"
          || strContains ct "text") = false := by
        have hx := h p (List.mem_cons_self p rest)
        unfold headAccepts at hx
        rw [hh] at hx
        exact hx
      simp [hp, hrest]

/-- Claim C9 (amended): under the default configuration (no explicit spec
URL, no custom paths, common paths enabled, base URL not itself looking like
a spec), when none of the probed common paths responds acceptably, REST
`introspect` returns `success:false`; `metadata.triedPaths` is the
12-element common path list, but the error message is the fixed string
"Connection test failed: Could not discover OpenAPI specification URL" —
it does **not** mention the count of tried paths (see the counterexample). -/
theorem C9_discovery_exhaustion (config : RESTConnectorConfig)
    (env : RestEnv) (now : Nat)
    (hSpec : jsStrOptTruthy config.specUrl = false)
    (hLooks : looksLikeSpecUrl config.url = false)
    (hCustom : config.customPaths = Option.none)
    (hCommon : config.tryCommonPaths ≠ some false)
    (hFail : ∀ p ∈ getPathsToTry config,
      headAccepts env (stripTrailingSlash config.url ++ p) = false) :
    restIntrospect config env now
      = .ok { success := false
              error := some
                "Connection test failed: Could not discover OpenAPI specification URL"
              metadata := RestIntroMeta.fromTest
                (RestTCMeta.discoverFail config.url (getPathsToTry config)) }
    ∧ (getPathsToTry config).length = 12 := by
  have hdisc : discoverSpecificationUrl config env = Option.none := by
    unfold discoverSpecificationUrl
    rw [hSpec, hLooks]
    simp only [Bool.false_eq_true, if_false]
    exact discoverLoop_none env _ _ hFail
  have htc : restTestConnection config env
      = .ok { success := false
              error := some "Could not discover OpenAPI specification URL"
              metadata := RestTCMeta.discoverFail config.url
                (getPathsToTry config) } := by
    unfold restTestConnection
    rw [hdisc]
  constructor
  · unfold restIntrospect restIntrospectBody
    rw [htc, exceptBind_ok]
    rfl
  · unfold getPathsToTry
    rw [hCustom]
    have : (config.tryCommonPaths == some false) = false := by
      cases hc : config.tryCommonPaths with
      | none => rfl
      | some b =>
        cases b with
        | false => exact absurd hc hCommon
        | true => rfl
    rw [this]
    rfl

def cexC9Config : RESTConnectorConfig := { url := "http://api.example.com" }

def cexC9Env : RestEnv :=
  { head := fun _ => Option.none
    get := fun _ => .thrown "unreachable" }

/-- Claim C9, counterexample: with every common-path probe failing, the
introspection error is the fixed string "Connection test failed: Could not
discover OpenAPI specification URL", which does not contain "12" (nor any
digit) — the count of tried paths is only available in
`metadata.triedPaths`, whose length is indeed 12. -/
theorem C9_error_no_count_counterexample :
    restIntrospect cexC9Config cexC9Env 0
      = .ok { success := false
              error := some
                "Connection test failed: Could not discover OpenAPI specification URL"
              metadata := RestIntroMeta.fromTest
                (RestTCMeta.discoverFail "http://api.example.com"
                  COMMON_OPENAPI_PATHS) }
    ∧ strContains
        "Connection test failed: Could not discover OpenAPI specification URL"
        "12" = false
    ∧ COMMON_OPENAPI_PATHS.length = 12 := by
  refine ⟨rfl, by decide, rfl⟩

/-! ## Claim C7: validation errors and version warnings -/

/-- Claim C7: a parsed document missing `info.title`, `info.version` or
`paths` makes REST `introspect` return `success:false` with an error that
joins all accumulated `Missing required field` messages (each missing item
contributes its message; validation does not stop at the first); a version
string outside the supported patterns (an `openapi` value not matching
`3.x.y`, or a `swagger` value other than `"2.0"`) only contributes a warning
and — all required fields present and the conversion succeeding — the
introspection succeeds with that warning attached. -/
theorem C7_validation_enumerates_and_warns :
    (∀ spec : OpenAPISpecification,
      (spec.info = Option.none →
        "Missing required field: info" ∈ (validateSpecification spec).errors)
      ∧ (∀ i, spec.info = some i → jsStrOptTruthy i.title = false →
          "Missing required field: info.title"
            ∈ (validateSpecification spec).errors)
      ∧ (∀ i, spec.info = some i → jsStrOptTruthy i.version = false →
          "Missing required field: info.version"
            ∈ (validateSpecification spec).errors)
      ∧ (spec.paths = Option.none →
          "Missing required field: paths"
            ∈ (validateSpecification spec).errors)
      ∧ ((validateSpecification spec).errors ≠ [] →
          (validateSpecification spec).valid = false))
    ∧ (∀ (config : RESTConnectorConfig) (env : RestEnv) (now : Nat)
        (specUrl : String) (data : SpecData) (spec : OpenAPISpecification),
        discoverSpecificationUrl config env = some specUrl →
        env.get specUrl = .ok data →
        data.truthy = true →
        parseSpecification data = .ok spec →
        (validateSpecification spec).valid = false →
        restIntrospect config env now
          = .ok { success := false
                  error := some ("Invalid OpenAPI specification: "
                    ++ String.intercalate ", "
                      (validateSpecification spec).errors)
                  metadata := RestIntroMeta.invalidSpec config.url specUrl
                    (validateSpecification spec).errors })
    ∧ (∀ (config : RESTConnectorConfig) (env : RestEnv) (now : Nat)
        (specUrl : String) (data : SpecData) (spec : OpenAPISpecification)
        (schema : UniversalSchema),
        discoverSpecificationUrl config env = some specUrl →
        env.get specUrl = .ok data →
        data.truthy = true →
        parseSpecification data = .ok spec →
        (validateSpecification spec).valid = true →
        convertSchema spec specUrl now = .ok schema →
        restIntrospect config env now
          = .ok { success := true
                  schema := some schema
                  warnings := some (validateSpecification spec).warnings
                  metadata := RestIntroMeta.success config.url specUrl
                    (detectSpecificationFormat data)
                    schema.operations.length schema.types.length })
    ∧ (∀ (spec : OpenAPISpecification) (v : String),
        spec.openapi = some v → v ≠ "" → matchesOpenAPI3 v = false →
        ("Unsupported OpenAPI version: " ++ v)
          ∈ (validateSpecification spec).warnings)
    ∧ (∀ (spec : OpenAPISpecification) (v : String),
        spec.swagger = some v → v ≠ "" → v ≠ "2.0" →
        ("Unsupported Swagger version: " ++ v)
          ∈ (validateSpecification spec).warnings)
    ∧ (∀ (spec : OpenAPISpecification) (i : OpenAPIInfo)
        (ps : List (String × OpenAPIPathItem)),
        spec.info = some i → jsStrOptTruthy i.title = true →
        jsStrOptTruthy i.version = true → spec.paths = some ps →
        (jsStrOptTruthy spec.openapi = true
          ∨ jsStrOptTruthy spec.swagger = true) →
        (validateSpecification spec).valid = true) := by
  refine ⟨?_, ?_, ?_, ?_, ?_, ?_⟩
  · intro spec
    refine ⟨?_, ?_, ?_, ?_, ?_⟩
    · intro h
      unfold validateSpecification
      rw [h]
      dsimp only
      split <;> split <;> simp
    · intro i hi ht
      unfold validateSpecification
      rw [hi]
      dsimp only
      rw [ht]
      split <;> split <;> simp
    · intro i hi hv
      unfold validateSpecification
      rw [hi]
      dsimp only
      rw [hv]
      split <;> split <;> split <;> simp
    · intro h
      unfold validateSpecification
      rw [h]
      dsimp only
      split <;> split <;> simp
    · intro h
      unfold validateSpecification at h ⊢
      dsimp only at h ⊢
      simp only [ValidationOutcome.valid, decide_eq_false_iff_not]
      intro hlen
      exact h (List.eq_nil_of_length_eq_zero hlen)
  · intro config env now specUrl data spec hdisc hget htruthy hparse hvalid
    have htc : restTestConnection config env
        = .ok { success := true
                metadata := RestTCMeta.fetchOk config.url specUrl
                  (detectSpecificationFormat data) } := by
      unfold restTestConnection
      rw [hdisc]
      dsimp only
      rw [hget]
      dsimp only
      rw [if_pos htruthy]
    unfold restIntrospect restIntrospectBody
    rw [htc, exceptBind_ok]
    dsimp only
    rw [if_neg (by simp), exceptPure, exceptBind_ok]
    rw [hdisc]
    dsimp only
    rw [hget]
    dsimp only
    rw [hparse, exceptBind_ok]
    rw [if_pos (by rw [hvalid]; simp)]
    rfl
  · intro config env now specUrl data spec schema hdisc hget htruthy hparse
      hvalid hconv
    have htc : restTestConnection config env
        = .ok { success := true
                metadata := RestTCMeta.fetchOk config.url specUrl
                  (detectSpecificationFormat data) } := by
      unfold restTestConnection
      rw [hdisc]
      dsimp only
      rw [hget]
      dsimp only
      rw [if_pos htruthy]
    unfold restIntrospect restIntrospectBody
    rw [htc, exceptBind_ok]
    dsimp only
    rw [if_neg (by simp), exceptPure, exceptBind_ok]
    rw [hdisc]
    dsimp only
    rw [hget]
    dsimp only
    rw [hparse, exceptBind_ok]
    rw [if_neg (by rw [hvalid]; simp), hconv]
    rfl
  · intro spec v hv hvne hmatch
    unfold validateSpecification
    rw [hv]
    dsimp only
    split <;> split <;> simp [hvne, hmatch]
  · intro spec v hv hvne hv2
    unfold validateSpecification
    rw [hv]
    dsimp only
    split <;> split <;> split <;> simp [hvne, hv2]
  · intro spec i ps hi ht hv hp hver
    unfold validateSpecification
    rw [hi]
    dsimp only
    rw [ht, hv, hp]
    dsimp only
    have : ¬ (¬ jsStrOptTruthy spec.openapi = true
        ∧ ¬ jsStrOptTruthy spec.swagger = true) := by
      rcases hver with h | h
      · exact fun hc => hc.1 h
      · exact fun hc => hc.2 h
    rw [if_neg this]
    simp

def c7SpecUrl : String := "http://x/openapi.json"

def c7Config : RESTConnectorConfig :=
  { url := "http://x", specUrl := some c7SpecUrl }

def c7BadInfo : OpenAPIInfo := { title := some "" }

def c7BadSpec : OpenAPISpecification := { info := some c7BadInfo }

def c7BadEnv : RestEnv :=
  { head := fun _ => Option.none
    get := fun _ => FetchOutcome.ok (SpecData.obj c7BadSpec) }

def c7GoodInfo : OpenAPIInfo :=
  { title := some "Demo", version := some "1.0" }

def c7GoodSpec : OpenAPISpecification :=
  { openapi := some "3.0.0", info := some c7GoodInfo, paths := some [] }

def c7GoodEnv : RestEnv :=
  { head := fun _ => Option.none
    get := fun _ => FetchOutcome.ok (SpecData.obj c7GoodSpec) }

def c7FallbackSchema : UniversalSchema :=
  { id := "", name := "", version := "", protocol := APIProtocol.rest
    operations := [], types := [], discoveredAt := 0, source := "" }

def c7GoodSchema : UniversalSchema :=
  match convertSchema c7GoodSpec c7SpecUrl 0 with
  | .ok s => s
  | .error _ => c7FallbackSchema

def c7WarnSpec : OpenAPISpecification :=
  { openapi := some "4.0.0", swagger := some "1.2" }

theorem C7_validation_enumerates_and_warns_witness :
    ("Missing required field: info.title"
        ∈ (validateSpecification c7BadSpec).errors)
    ∧ ((validateSpecification c7BadSpec).valid = false)
    ∧ restIntrospect c7Config c7BadEnv 0
        = .ok { success := false
                error := some ("Invalid OpenAPI specification: "
                  ++ String.intercalate ", "
                    (validateSpecification c7BadSpec).errors)
                metadata := RestIntroMeta.invalidSpec c7Config.url c7SpecUrl
                  (validateSpecification c7BadSpec).errors }
    ∧ restIntrospect c7Config c7GoodEnv 0
        = .ok { success := true
                schema := some c7GoodSchema
                warnings := some (validateSpecification c7GoodSpec).warnings
                metadata := RestIntroMeta.success c7Config.url c7SpecUrl
                  (detectSpecificationFormat (SpecData.obj c7GoodSpec))
                  c7GoodSchema.operations.length c7GoodSchema.types.length }
    ∧ ("Unsupported OpenAPI version: 4.0.0"
        ∈ (validateSpecification c7WarnSpec).warnings)
    ∧ ("Unsupported Swagger version: 1.2"
        ∈ (validateSpecification c7WarnSpec).warnings)
    ∧ ((validateSpecification c7GoodSpec).valid = true) :=
  ⟨(C7_validation_enumerates_and_warns.1 c7BadSpec).2.1 c7BadInfo rfl rfl,
   (C7_validation_enumerates_and_warns.1 c7BadSpec).2.2.2.2 (by decide),
   C7_validation_enumerates_and_warns.2.1 c7Config c7BadEnv 0 c7SpecUrl
     (SpecData.obj c7BadSpec) c7BadSpec rfl rfl rfl rfl (by decide),
   C7_validation_enumerates_and_warns.2.2.1 c7Config c7GoodEnv 0 c7SpecUrl
     (SpecData.obj c7GoodSpec) c7GoodSpec c7GoodSchema rfl rfl rfl rfl
     (by decide) rfl,
   C7_validation_enumerates_and_warns.2.2.2.1 c7WarnSpec "4.0.0" rfl
     (by decide) (by decide),
   C7_validation_enumerates_and_warns.2.2.2.2.1 c7WarnSpec "1.2" rfl
     (by decide) (by decide),
   C7_validation_enumerates_and_warns.2.2.2.2.2 c7GoodSpec c7GoodInfo []
     rfl rfl rfl rfl (Or.inl rfl)⟩

theorem C9_discovery_exhaustion_witness :
    restIntrospect cexC9Config cexC9Env 0
      = .ok { success := false
              error := some
                "Connection test failed: Could not discover OpenAPI specification URL"
              metadata := RestIntroMeta.fromTest
                (RestTCMeta.discoverFail cexC9Config.url
                  (getPathsToTry cexC9Config)) }
    ∧ (getPathsToTry cexC9Config).length = 12 :=
  C9_discovery_exhaustion cexC9Config cexC9Env 0 rfl (by decide) rfl
    (by decide) (fun p _ => rfl)

/-! ## GraphQL model

Introspection data types (`src/connectors/graphql/types.ts`), the schema
converter (`GraphQLSchemaConverter`), and the connector
(`src/connectors/graphql/graphql-connector.ts`).  The HTTP POST transport is
an environment mapping the selected query to an outcome. -/

mutual
/-- `GraphQLTypeRef`: a possibly wrapped type reference from introspection.
The optional recursive `ofType` is encoded through the mutual wrapper
`GQLRefOpt` so that recursions over it are structural. -/
inductive GraphQLTypeRef where
  | mk (kind : GraphQLTypeKind) (name : Option String) (ofType : GQLRefOpt)

inductive GQLRefOpt where
  | none
  | some (r : GraphQLTypeRef)
end

def GraphQLTypeRef.kind : GraphQLTypeRef → GraphQLTypeKind
  | .mk k _ _ => k

def GraphQLTypeRef.name : GraphQLTypeRef → Option String
  | .mk _ n _ => n

def GraphQLTypeRef.ofType : GraphQLTypeRef → GQLRefOpt
  | .mk _ _ o => o

/-- `GraphQLInputValue`.  `defaultValue` is a raw string in the source and is
fed to `JSON.parse` by the converter; the pair carries the raw string
together with its parse outcome (the oracle for `JSON.parse`). -/
structure GraphQLInputValue where
  name : String
  description : Option String := Option.none
  type : GraphQLTypeRef
  defaultValue : Option (String × Except String Json) := Option.none

/-- `GraphQLField`. -/
structure GraphQLField where
  name : String
  description : Option String := Option.none
  args : List GraphQLInputValue := []
  type : GraphQLTypeRef
  isDeprecated : Bool := false
  deprecationReason : Option String := Option.none

/-- `GraphQLEnumValue` (carried by enum types; not read by the converter). -/
structure GraphQLEnumValue where
  name : String
  description : Option String := Option.none
  isDeprecated : Bool := false
  deprecationReason : Option String := Option.none

/-- `GraphQLDirective` (only its presence is consumed, as a count in the
schema metadata; `locations` parameterises nothing and is absorbed). -/
structure GraphQLDirective where
  name : String
  description : Option String := Option.none
  args : List GraphQLInputValue := []

/-- `GraphQLType`: one type definition from introspection. -/
structure GraphQLType where
  kind : GraphQLTypeKind
  name : Option String := Option.none
  description : Option String := Option.none
  fields : Option (List GraphQLField) := Option.none
  inputFields : Option (List GraphQLInputValue) := Option.none
  interfaces : Option (List GraphQLTypeRef) := Option.none
  enumValues : Option (List GraphQLEnumValue) := Option.none
  possibleTypes : Option (List GraphQLTypeRef) := Option.none

/-- `GraphQLIntrospectionSchema`.  The `queryType`/`mutationType`/
`subscriptionType` objects are collapsed to their `name` field, the only
member the code reads. -/
structure GraphQLIntrospectionSchema where
  queryType : Option String := Option.none
  mutationType : Option String := Option.none
  subscriptionType : Option String := Option.none
  types : List GraphQLType := []
  directives : List GraphQLDirective := []

/-- The unwrap loop of `convertGraphQLTypeToDataType`: follow `ofType` while
present, recording whether a `LIST` wrapper was seen, and return the
innermost type together with that flag. -/
def gqlUnwrapCore : GraphQLTypeRef → Bool → GraphQLTypeRef × Bool
  | .mk k n GQLRefOpt.none, isList => (.mk k n GQLRefOpt.none, isList)
  | .mk k _ (GQLRefOpt.some r), isList =>
    gqlUnwrapCore r (if k == GraphQLTypeKind.LIST then true else isList)

/-- `GraphQLSchemaConverter.mapScalarType`.  The source passes
`currentType.name!`; an absent name falls into the switch default (custom
scalars default to string). -/
def mapScalarType (scalarName : Option String) : DataType :=
  match scalarName with
  | some "String" => DataType.string
  | some "ID" => DataType.string
  | some "Int" => DataType.integer
  | some "Float" => DataType.number
  | some "Boolean" => DataType.boolean
  | _ => DataType.string

/-- `GraphQLSchemaConverter.convertGraphQLTypeToDataType`. -/
def convertGraphQLTypeToDataType (typeRef : GraphQLTypeRef) : DataType :=
  match gqlUnwrapCore typeRef false with
  | (currentType, isList) =>
    if isList then DataType.array
    else match currentType.kind with
      | .SCALAR => mapScalarType currentType.name
      | .ENUM => DataType.string
      | .OBJECT => DataType.object
      | .INTERFACE => DataType.object
      | .UNION => DataType.object
      | .INPUT_OBJECT => DataType.object
      | _ => DataType.unknown

/-- `GraphQLSchemaConverter.isNonNullType`: only the outermost wrapper kind
is inspected. -/
def isNonNullType (typeRef : GraphQLTypeRef) : Bool :=
  typeRef.kind == GraphQLTypeKind.NON_NULL

/-- `GraphQLSchemaConverter.getTypeString`. -/
def getTypeString : GraphQLTypeRef → String
  | .mk GraphQLTypeKind.NON_NULL _ (GQLRefOpt.some r) => getTypeString r ++ "!"
  | .mk GraphQLTypeKind.LIST _ (GQLRefOpt.some r) =>
    "[" ++ getTypeString r ++ "]"
  | .mk _ n _ => jsStrOr n "Unknown"

/-- `inputValue.defaultValue ? JSON.parse(inputValue.defaultValue) :
undefined`: a falsy (absent or empty) raw string yields `undefined`; a
truthy one is parsed, and a parse failure throws. -/
def gqlDefaultValue :
    Option (String × Except String Json) → Except String (Option Json)
  | Option.none => .ok Option.none
  | some (raw, out) =>
    if raw ≠ "" then
      match out with
      | .ok j => .ok (some j)
      | .error m => .error m
    else .ok Option.none

/-- `GraphQLSchemaConverter.convertInputValueToParameter`. -/
def convertInputValueToParameter (inputValue : GraphQLInputValue) :
    Except String Parameter := do
  let dv ← gqlDefaultValue inputValue.defaultValue
  pure (Parameter.mk inputValue.name ParamLocation.body
    (SchemaField.mk inputValue.name
      (convertGraphQLTypeToDataType inputValue.type)
      (isNonNullType inputValue.type) inputValue.description dv
      Option.none Option.none Option.none Option.none)
    (isNonNullType inputValue.type) inputValue.description Option.none)

/-- The entry `convertTypeToSchemaField` writes into `properties` for one
member of `type.fields`. -/
def convertGqlFieldToSchemaField (field : GraphQLField) :
    Except String SchemaField := do
  let args ← field.args.mapM convertInputValueToParameter
  pure (SchemaField.mk field.name (convertGraphQLTypeToDataType field.type)
    (isNonNullType field.type) field.description Option.none Option.none
    Option.none Option.none
    (some (FieldMeta.graphqlField field.isDeprecated field.deprecationReason
      args)))

/-- The entry `convertTypeToSchemaField` writes into `properties` for one
member of `type.inputFields`. -/
def convertGqlInputFieldToSchemaField (inputField : GraphQLInputValue) :
    Except String SchemaField := do
  let dv ← gqlDefaultValue inputField.defaultValue
  pure (SchemaField.mk inputField.name
    (convertGraphQLTypeToDataType inputField.type)
    (isNonNullType inputField.type) inputField.description dv
    Option.none Option.none Option.none Option.none)

/-- The `type.fields` loop of `convertTypeToSchemaField`:
`properties[field.name] = ...` in order. -/
def gqlFieldProps :
    List GraphQLField → List (String × SchemaField) →
    Except String (List (String × SchemaField))
  | [], acc => .ok acc
  | f :: rest, acc => do
    let sf ← convertGqlFieldToSchemaField f
    gqlFieldProps rest (jsRecordSet acc f.name sf)

/-- The `type.inputFields` loop of `convertTypeToSchemaField`. -/
def gqlInputFieldProps :
    List GraphQLInputValue → List (String × SchemaField) →
    Except String (List (String × SchemaField))
  | [], acc => .ok acc
  | iv :: rest, acc => do
    let sf ← convertGqlInputFieldToSchemaField iv
    gqlInputFieldProps rest (jsRecordSet acc iv.name sf)

/-- `GraphQLSchemaConverter.convertTypeToSchemaField`.  The source reads
`type.name!`; an absent name leaks as the string `"undefined"`. -/
def convertTypeToSchemaField (t : GraphQLType) : Except String SchemaField := do
  let props1 ← match t.fields with
    | some fs => gqlFieldProps fs []
    | Option.none => .ok []
  let props2 ← match t.inputFields with
    | some ivs => gqlInputFieldProps ivs props1
    | Option.none => .ok props1
  pure (SchemaField.mk (t.name.getD "undefined") DataType.object true
    t.description Option.none Option.none (some props2) Option.none
    (some (FieldMeta.graphqlType t.kind
      (t.interfaces.map (fun l => l.map GraphQLTypeRef.name))
      (t.possibleTypes.map (fun l => l.map GraphQLTypeRef.name)))))

/-- The string value of a GraphQL operation type, as interpolated into
operation ids. -/
def gqlOpTypeStr : OperationType → String
  | .query => "query"
  | .mutation => "mutation"
  | .subscription => "subscription"
  | .endpoint => "endpoint"
  | .message => "message"

/-- `GraphQLSchemaConverter.getOperationType`. -/
def getOperationType (typeName : String)
    (schema : GraphQLIntrospectionSchema) : OperationType :=
  if schema.queryType == some typeName then OperationType.query
  else if schema.mutationType == some typeName then OperationType.mutation
  else if schema.subscriptionType == some typeName then
    OperationType.subscription
  else OperationType.query

/-- `GraphQLSchemaConverter.extractOperationsFromType`. -/
def extractOperationsFromType (t : GraphQLType)
    (schema : GraphQLIntrospectionSchema) : Except String (List Operation) :=
  match t.fields with
  | Option.none => .ok []
  | some fs =>
    let opType := getOperationType (t.name.getD "undefined") schema
    fs.mapM (fun f => do
      let params ← f.args.mapM convertInputValueToParameter
      pure { id := gqlOpTypeStr opType ++ "_" ++ f.name
             name := f.name
             type := opType
             description := f.description
             parameters := params
             responses := [{ statusCode := "200"
                             description := "Successful response"
                             schema := some (SchemaField.mk "response"
                               (convertGraphQLTypeToDataType f.type) true
                               (some ("Response for " ++ f.name)) Option.none
                               Option.none Option.none Option.none
                               Option.none) }]
             deprecated := some f.isDeprecated
             metadata := some (OpMeta.graphql f.deprecationReason
               (getTypeString f.type)) })

/-- `GraphQLSchemaConverter.isBuiltInType`: falsy (absent or empty) names
count as built-in. -/
def isBuiltInType (typeName : Option String) : Bool :=
  match typeName with
  | Option.none => true
  | some n =>
    if n = "" then true
    else strStartsWith n "__" ||
      (["__Schema", "__Type", "__TypeKind", "__Field", "__InputValue",
        "__EnumValue", "__Directive", "__DirectiveLocation"].contains n)

/-- `GraphQLSchemaConverter.isRootType`. -/
def isRootType (typeName : Option String)
    (schema : GraphQLIntrospectionSchema) : Bool :=
  match typeName with
  | Option.none => false
  | some n =>
    if n = "" then false
    else schema.queryType == some n || schema.mutationType == some n ||
      schema.subscriptionType == some n

/-- The type loop of `GraphQLSchemaConverter.convertSchema`: skip built-in
types; convert object/input-object/interface types into the `types` record;
extract operations from root types. -/
def gqlConvertLoop (schema : GraphQLIntrospectionSchema) :
    List GraphQLType → List Operation → List (String × SchemaField) →
    Except String (List Operation × List (String × SchemaField))
  | [], ops, tys => .ok (ops, tys)
  | t :: rest, ops, tys =>
    if isBuiltInType t.name then gqlConvertLoop schema rest ops tys
    else do
      let tys2 ←
        if t.kind == GraphQLTypeKind.OBJECT
            || t.kind == GraphQLTypeKind.INPUT_OBJECT
            || t.kind == GraphQLTypeKind.INTERFACE then do
          let sf ← convertTypeToSchemaField t
          pure (jsRecordSet tys (t.name.getD "undefined") sf)
        else pure tys
      let ops2 ←
        if isRootType t.name schema then do
          let newOps ← extractOperationsFromType t schema
          pure (ops ++ newOps)
        else pure ops
      gqlConvertLoop schema rest ops2 tys2

/-- The host part of a URL, as read off `new URL(url).hostname`: the
characters after the first `://` up to the first delimiter, lowercased.
A string without `://` makes the constructor throw (`Option.none`). -/
def takeHostChars : List Char → List Char
  | [] => []
  | c :: rest =>
    if c = '/' ∨ c = ':' ∨ c = '?' ∨ c = '#' then []
    else c :: takeHostChars rest

def afterSchemeSep : List Char → Option (List Char)
  | [] => Option.none
  | ':' :: '/' :: '/' :: rest => some rest
  | _ :: rest => afterSchemeSep rest

def urlHost (url : String) : Option String :=
  match afterSchemeSep url.toList with
  | Option.none => Option.none
  | some rest => some (jsToLower (String.mk (takeHostChars rest)))

/-- `hostname.replace(/^www\./, '')`. -/
def stripWww (h : String) : String :=
  match h.toList with
  | 'w' :: 'w' :: 'w' :: '.' :: rest => String.mk rest
  | _ => h

/-- `GraphQLSchemaConverter.extractApiName`. -/
def extractApiName (sourceUrl : String) : String :=
  match urlHost sourceUrl with
  | Option.none => "GraphQL API"
  | some h =>
    let n := stripWww h
    if n = "" then "GraphQL API" else n

/-- `GraphQLSchemaConverter.inferAuthentication`. -/
def inferAuthentication : AuthenticationInfo :=
  { type := AuthType.custom
    description :=
      some "Authentication method not determined from schema introspection" }

/-- `GraphQLSchemaConverter.createMetadata`. -/
def gqlCreateMetadata (schema : GraphQLIntrospectionSchema) : SchemaMetadata :=
  { extensions := ExtMeta.graphql schema.types.length
      schema.directives.length schema.queryType.isSome
      schema.mutationType.isSome schema.subscriptionType.isSome }

/-- `GraphQLSchemaConverter.generateSchemaId`:
`graphql_${base64(url).slice(0,8)}_${Date.now()}`. -/
def generateGqlSchemaId (sourceUrl : String) (now : Nat) : String :=
  "graphql_" ++ (jsBase64 sourceUrl).take 8 ++ "_" ++ toString now

/-- `GraphQLSchemaConverter.convertSchema` (named with a `gql` prefix to
distinguish it from the REST converter's `convertSchema`). -/
def gqlConvertSchema (introspectionSchema : GraphQLIntrospectionSchema)
    (sourceUrl : String) (apiName : Option String) (now : Nat) :
    Except String UniversalSchema := do
  let (operations, types) ←
    gqlConvertLoop introspectionSchema introspectionSchema.types [] []
  pure { id := generateGqlSchemaId sourceUrl now
         name := jsStrOr apiName (extractApiName sourceUrl)
         version := "1.0.0"
         protocol := APIProtocol.graphql
         baseUrl := some sourceUrl
         description := some "GraphQL API discovered via introspection"
         operations := operations
         types := types
         authentication := some inferAuthentication
         metadata := some (gqlCreateMetadata introspectionSchema)
         discoveredAt := now
         source := sourceUrl }

/-- GraphQL connector configuration (transport options absorbed by the
environment). -/
structure GraphQLConnectorConfig where
  url : String
  useSimpleQuery : Option Bool := Option.none
  customQuery : Option String := Option.none

/-- Which introspection document `executeGraphQLQuery` is given.  A custom
query is identified by its text. -/
inductive GqlQueryKind where
  | health
  | full
  | simple
  | custom (q : String)
deriving DecidableEq, Repr

/-- The `data` member of a GraphQL response body; `schemaData` models its
`__schema` member (renamed: identifiers cannot start with `__`). -/
structure GqlDataObj where
  schemaData : Option GraphQLIntrospectionSchema := Option.none

/-- A GraphQL HTTP response body (`GraphQLIntrospectionResponse`); `errors`
carries the `message` of each entry of the `errors` array. -/
structure GqlResponseBody where
  data : Option GqlDataObj := Option.none
  errors : Option (List String) := Option.none

/-- `response.data?.data?.__schema` as a boolean. -/
def gqlHasSchema (body : GqlResponseBody) : Bool :=
  match body.data with
  | some d => d.schemaData.isSome
  | Option.none => false

/-- `response.data?.data?.__schema` as an optional value. -/
def gqlSchemaOf (body : GqlResponseBody) : Option GraphQLIntrospectionSchema :=
  body.data.bind (fun d => d.schemaData)

/-- The POST transport of the GraphQL connector. -/
structure GqlEnv where
  post : GqlQueryKind → FetchOutcome GqlResponseBody

/-- Metadata attached to GraphQL connection-test results. -/
inductive GqlTCMeta where
  | hasSchema (endpoint : String)
  | gqlErrors (endpoint : String) (errors : List String)
  | invalidResp (endpoint : String) (respData : Option GqlDataObj)
  | httpError (endpoint : String) (status : Option Nat) (statusText : String)

/-- `GraphQLConnector.testConnection`: a 401/403 axios rejection throws an
`AuthenticationError`; other HTTP failures are returned as unsuccessful
results; non-axios transport failures throw a `ConnectionError`. -/
def graphqlTestConnection (config : GraphQLConnectorConfig) (env : GqlEnv) :
    Except ConnectorThrow (ConnectionTestResult GqlTCMeta) :=
  match env.post GqlQueryKind.health with
  | .ok body =>
    if gqlHasSchema body then
      .ok { success := true, metadata := GqlTCMeta.hasSchema config.url }
    else match body.errors with
      | some errs =>
        .ok { success := false
              error := some ("GraphQL errors: "
                ++ String.intercalate ", " errs)
              metadata := GqlTCMeta.gqlErrors config.url errs }
      | Option.none =>
        .ok { success := false
              error := some "Invalid GraphQL response format"
              metadata := GqlTCMeta.invalidResp config.url body.data }
  | .axiosErr status statusText message =>
    if status == some 401 || status == some 403 then
      .error (.authenticationError ("Authentication failed: " ++ statusText))
    else
      .ok { success := false
            error := some ("HTTP " ++ statusOptStr status ++ ": "
              ++ (if statusText ≠ "" then statusText else message))
            metadata := GqlTCMeta.httpError config.url status statusText }
  | .thrown message =>
    .error (.connectionError
      ("Failed to connect to GraphQL endpoint: " ++ message))

/-- `GraphQLConnector.selectIntrospectionQuery`. -/
def selectIntrospectionQuery (config : GraphQLConnectorConfig) :
    GqlQueryKind :=
  if jsStrOptTruthy config.customQuery then
    GqlQueryKind.custom (config.customQuery.getD "")
  else if config.useSimpleQuery == some true then GqlQueryKind.simple
  else GqlQueryKind.full

/-- Metadata attached to GraphQL introspection results. -/
inductive GqlIntroMeta where
  | fromTest (m : GqlTCMeta)
  | introErrors (endpoint : String) (errors : List String)
  | missingSchema (endpoint : String) (respData : Option GqlDataObj)
  | converted (endpoint : String) (typeCount : Nat) (operationCount : Nat)
  | convFail (endpoint : String) (err : String)

/-- `GraphQLConnector.processIntrospectionResult`: conversion failures are
caught inside and reported as an unsuccessful result. -/
def processIntrospectionResult (schemaData : GraphQLIntrospectionSchema)
    (sourceUrl : String) (warnings : List String) (now : Nat) :
    IntrospectionResult GqlIntroMeta :=
  match gqlConvertSchema schemaData sourceUrl Option.none now with
  | .ok schema =>
    { success := true
      schema := some schema
      warnings := some warnings
      metadata := GqlIntroMeta.converted sourceUrl schema.types.length
        schema.operations.length }
  | .error msg =>
    { success := false
      error := some ("Failed to convert GraphQL schema: " ++ msg)
      warnings := some warnings
      metadata := GqlIntroMeta.convFail sourceUrl msg }

/-- The `Introspection failed` result built from the full query's errors. -/
def gqlIntroFail (config : GraphQLConnectorConfig) (errs : List String) :
    IntrospectionResult GqlIntroMeta :=
  { success := false
    error := some ("Introspection failed: " ++ String.intercalate ", " errs)
    metadata := GqlIntroMeta.introErrors config.url errs }

/-- The no-errors tail of `GraphQLConnector.introspect`. -/
def gqlProcessBody (config : GraphQLConnectorConfig) (body : GqlResponseBody)
    (now : Nat) : IntrospectionResult GqlIntroMeta :=
  match gqlSchemaOf body with
  | some sData => processIntrospectionResult sData config.url [] now
  | Option.none =>
    { success := false
      error := some "Invalid introspection response: missing schema data"
      metadata := GqlIntroMeta.missingSchema config.url body.data }

/-- The body of `GraphQLConnector.introspect` (inside its try block).  An
axios rejection of the introspection POST surfaces as a thrown error
(wrapped by the catch), unlike in `testConnection`. -/
def graphqlIntrospectBody (config : GraphQLConnectorConfig) (env : GqlEnv)
    (now : Nat) : Except ConnectorThrow (IntrospectionResult GqlIntroMeta) := do
  let connectionTest ← graphqlTestConnection config env
  if ¬ connectionTest.success then
    return { success := false
             error := some ("Connection test failed: "
               ++ connectionTest.error.getD "undefined")
             metadata := GqlIntroMeta.fromTest connectionTest.metadata }
  let query := selectIntrospectionQuery config
  match env.post query with
  | .axiosErr _ _ message => .error (.genericError message)
  | .thrown message => .error (.genericError message)
  | .ok body =>
    match body.errors with
    | some errs =>
      if 0 < errs.length then
        if query == GqlQueryKind.full then
          match env.post GqlQueryKind.simple with
          | .axiosErr _ _ message => .error (.genericError message)
          | .thrown message => .error (.genericError message)
          | .ok simpleBody =>
            match gqlSchemaOf simpleBody with
            | some sData =>
              return processIntrospectionResult sData config.url
                ["Used simplified introspection query due to errors in full query"]
                now
            | Option.none => return gqlIntroFail config errs
        else return gqlIntroFail config errs
      else return gqlProcessBody config body now
    | Option.none => return gqlProcessBody config body now

/-- The catch block of `GraphQLConnector.introspect`: rethrow
`ConnectionError` and `AuthenticationError`, wrap everything else as
`IntrospectionError` carrying the original message. -/
def graphqlIntrospect (config : GraphQLConnectorConfig) (env : GqlEnv)
    (now : Nat) : Except ConnectorThrow (IntrospectionResult GqlIntroMeta) :=
  match graphqlIntrospectBody config env now with
  | .ok res => .ok res
  | .error (.connectionError m) => .error (.connectionError m)
  | .error (.authenticationError m) => .error (.authenticationError m)
  | .error e =>
    .error (.introspectionError
      ("GraphQL introspection failed: " ++ e.message))

/-! ## Claims C4 and C5: GraphQL required/array conversion -/

/-- Spec-side notion for claim C4: a `NON_NULL` wrapper appears anywhere in
the wrapped-type chain. -/
def chainContainsNonNull : GraphQLTypeRef → Bool
  | .mk k _ GQLRefOpt.none => k == GraphQLTypeKind.NON_NULL
  | .mk k _ (GQLRefOpt.some r) =>
    k == GraphQLTypeKind.NON_NULL || chainContainsNonNull r

/-- Claim C4 (amended): the converted `required` flag of a field, input
field, or argument reflects only the OUTERMOST wrapper of its introspected
type: it is true exactly when the top-level `kind` is `NON_NULL`
(`isNonNullType` never follows `ofType`), not when a `NON_NULL` appears
anywhere in the chain. -/
theorem C4_required_outermost :
    (∀ (f : GraphQLField) (sf : SchemaField),
      convertGqlFieldToSchemaField f = .ok sf →
      sf.required = isNonNullType f.type)
    ∧ (∀ (iv : GraphQLInputValue) (sf : SchemaField),
      convertGqlInputFieldToSchemaField iv = .ok sf →
      sf.required = isNonNullType iv.type)
    ∧ (∀ (iv : GraphQLInputValue) (p : Parameter),
      convertInputValueToParameter iv = .ok p →
      p.required = isNonNullType iv.type
        ∧ p.schema.required = isNonNullType iv.type)
    ∧ (∀ r : GraphQLTypeRef,
      isNonNullType r = (r.kind == GraphQLTypeKind.NON_NULL)) := by
  refine ⟨?_, ?_, ?_, fun r => rfl⟩
  · intro f sf h
    unfold convertGqlFieldToSchemaField at h
    cases hm : f.args.mapM convertInputValueToParameter with
    | error e =>
      rw [hm, exceptBind_err] at h
      exact absurd h (by simp)
    | ok args =>
      rw [hm, exceptBind_ok, exceptPure] at h
      cases h
      rfl
  · intro iv sf h
    unfold convertGqlInputFieldToSchemaField at h
    cases hm : gqlDefaultValue iv.defaultValue with
    | error e =>
      rw [hm, exceptBind_err] at h
      exact absurd h (by simp)
    | ok dv =>
      rw [hm, exceptBind_ok, exceptPure] at h
      cases h
      rfl
  · intro iv p h
    unfold convertInputValueToParameter at h
    cases hm : gqlDefaultValue iv.defaultValue with
    | error e =>
      rw [hm, exceptBind_err] at h
      exact absurd h (by simp)
    | ok dv =>
      rw [hm, exceptBind_ok, exceptPure] at h
      cases h
      exact ⟨rfl, rfl⟩

def c4WitTypeRef : GraphQLTypeRef :=
  .mk GraphQLTypeKind.NON_NULL Option.none
    (GQLRefOpt.some (.mk GraphQLTypeKind.SCALAR (some "Int") GQLRefOpt.none))

def c4WitField : GraphQLField := { name := "id", type := c4WitTypeRef }

def c4WitInput : GraphQLInputValue := { name := "limit", type := c4WitTypeRef }

def c4WitFieldSF : SchemaField :=
  SchemaField.mk "id" DataType.integer true Option.none Option.none
    Option.none Option.none Option.none
    (some (FieldMeta.graphqlField false Option.none []))

def c4WitInputSF : SchemaField :=
  SchemaField.mk "limit" DataType.integer true Option.none Option.none
    Option.none Option.none Option.none Option.none

def c4WitParam : Parameter :=
  Parameter.mk "limit" ParamLocation.body
    (SchemaField.mk "limit" DataType.integer true Option.none Option.none
      Option.none Option.none Option.none Option.none)
    true Option.none Option.none

theorem C4_required_outermost_witness :
    convertGqlFieldToSchemaField c4WitField = .ok c4WitFieldSF
    ∧ c4WitFieldSF.required = isNonNullType c4WitTypeRef
    ∧ convertGqlInputFieldToSchemaField c4WitInput = .ok c4WitInputSF
    ∧ c4WitInputSF.required = isNonNullType c4WitTypeRef
    ∧ convertInputValueToParameter c4WitInput = .ok c4WitParam
    ∧ c4WitParam.required = isNonNullType c4WitTypeRef
    ∧ c4WitParam.schema.required = isNonNullType c4WitTypeRef :=
  ⟨rfl, C4_required_outermost.1 c4WitField c4WitFieldSF rfl,
   rfl, C4_required_outermost.2.1 c4WitInput c4WitInputSF rfl,
   rfl, (C4_required_outermost.2.2.1 c4WitInput c4WitParam rfl).1,
   (C4_required_outermost.2.2.1 c4WitInput c4WitParam rfl).2⟩

def cexC4TypeRef : GraphQLTypeRef :=
  .mk GraphQLTypeKind.LIST Option.none
    (GQLRefOpt.some (.mk GraphQLTypeKind.NON_NULL Option.none
      (GQLRefOpt.some
        (.mk GraphQLTypeKind.SCALAR (some "String") GQLRefOpt.none))))

def cexC4Field : GraphQLField := { name := "names", type := cexC4TypeRef }

/-- Claim C4, counterexample: a field of type `LIST(NON_NULL(String))` has a
`NON_NULL` wrapper in its chain, yet converts with `required := false`,
because `isNonNullType` looks only at the outermost kind (`LIST`). -/
theorem C4_nested_nonnull_counterexample :
    chainContainsNonNull cexC4TypeRef = true
    ∧ isNonNullType cexC4TypeRef = false
    ∧ convertGqlFieldToSchemaField cexC4Field
        = .ok (SchemaField.mk "names" DataType.array false Option.none
            Option.none Option.none Option.none Option.none
            (some (FieldMeta.graphqlField false Option.none []))) :=
  ⟨rfl, rfl, rfl⟩

def c5TypeRef : GraphQLTypeRef :=
  .mk GraphQLTypeKind.NON_NULL Option.none
    (GQLRefOpt.some (.mk GraphQLTypeKind.LIST Option.none
      (GQLRefOpt.some (.mk GraphQLTypeKind.NON_NULL Option.none
        (GQLRefOpt.some
          (.mk GraphQLTypeKind.SCALAR (some "String") GQLRefOpt.none))))))

def c5Field : GraphQLField := { name := "tags", type := c5TypeRef }

/-- Claim C5: a field of wrapped type `NON_NULL(LIST(NON_NULL(String)))`
converts to data type `array` with `required := true`: the unwrap loop sees
the `LIST` wrapper (so the data type is array) and the outermost wrapper is
`NON_NULL` (so the field is required). -/
theorem C5_nonnull_list_nonnull :
    convertGraphQLTypeToDataType c5TypeRef = DataType.array
    ∧ isNonNullType c5TypeRef = true
    ∧ convertGqlFieldToSchemaField c5Field
        = .ok (SchemaField.mk "tags" DataType.array true Option.none
            Option.none Option.none Option.none Option.none
            (some (FieldMeta.graphqlField false Option.none []))) :=
  ⟨rfl, rfl, rfl⟩

/-! ## Claim C1: recoverable results versus thrown errors -/

/-- Claim C1 (amended): an HTTP error response during connection testing is
a recoverable result — REST `introspect` returns `success:false` with a
human-readable error.  But not every network/parse failure is recoverable:
when the fetched specification body fails both JSON and YAML parsing, REST
`introspect` THROWS an `IntrospectionError` (the catch block rethrows the
inner `SchemaParsingError` wrapped); and a 401 HTTP response makes GraphQL
`introspect` THROW an `AuthenticationError` (rethrown by its catch). -/
theorem C1_recoverable_vs_thrown :
    (∀ (config : RESTConnectorConfig) (env : RestEnv) (now : Nat)
       (specUrl : String) (status : Option Nat) (st msg : String),
      discoverSpecificationUrl config env = some specUrl →
      env.get specUrl = .axiosErr status st msg →
      restIntrospect config env now
        = .ok { success := false
                error := some ("Connection test failed: HTTP "
                  ++ statusOptStr status ++ ": "
                  ++ (if st ≠ "" then st else msg))
                metadata := RestIntroMeta.fromTest
                  (RestTCMeta.httpError config.url status st) })
    ∧ (∀ (config : RESTConnectorConfig) (env : RestEnv) (now : Nat)
        (specUrl raw e1 e2 : String),
      discoverSpecificationUrl config env = some specUrl →
      env.get specUrl = .ok (SpecData.str raw (.error e1) (.error e2)) →
      raw ≠ "" →
      restIntrospect config env now
        = .error (.introspectionError
            ("REST introspection failed: Failed to parse OpenAPI specification: "
              ++ e2)))
    ∧ (∀ (config : GraphQLConnectorConfig) (env : GqlEnv) (now : Nat)
        (st msg : String),
      env.post GqlQueryKind.health = .axiosErr (some 401) st msg →
      graphqlIntrospect config env now
        = .error (.authenticationError ("Authentication failed: " ++ st))) := by
  refine ⟨?_, ?_, ?_⟩
  · intro config env now specUrl status st msg hdisc hget
    have htc : restTestConnection config env
        = .ok { success := false
                error := some ("HTTP " ++ statusOptStr status ++ ": "
                  ++ (if st ≠ "" then st else msg))
                metadata := RestTCMeta.httpError config.url status st } := by
      unfold restTestConnection
      rw [hdisc]
      dsimp only
      rw [hget]
    unfold restIntrospect restIntrospectBody
    rw [htc, exceptBind_ok]
    rfl
  · intro config env now specUrl raw e1 e2 hdisc hget hraw
    have htruthy : (SpecData.str raw (.error e1) (.error e2)).truthy = true := by
      simp [SpecData.truthy, hraw]
    have htc : restTestConnection config env
        = .ok { success := true
                metadata := RestTCMeta.fetchOk config.url specUrl
                  (detectSpecificationFormat
                    (SpecData.str raw (.error e1) (.error e2))) } := by
      unfold restTestConnection
      rw [hdisc]
      dsimp only
      rw [hget]
      dsimp only
      rw [if_pos htruthy]
    unfold restIntrospect restIntrospectBody
    rw [htc, exceptBind_ok]
    dsimp only
    rw [if_neg (by simp), exceptPure, exceptBind_ok]
    rw [hdisc]
    dsimp only
    rw [hget]
    rfl
  · intro config env now st msg hpost
    have htc : graphqlTestConnection config env
        = .error (.authenticationError ("Authentication failed: " ++ st)) := by
      unfold graphqlTestConnection
      rw [hpost]
      dsimp only
      rw [if_pos (by decide)]
    unfold graphqlIntrospect graphqlIntrospectBody
    rw [htc, exceptBind_err]

def c1WitConfig : RESTConnectorConfig :=
  { url := "http://h", specUrl := some "http://h/spec.json" }

def c1WitEnv : RestEnv :=
  { head := fun _ => Option.none
    get := fun _ =>
      .axiosErr (some 500) "Server Error" "Request failed with status code 500" }

def cexC1Config : RESTConnectorConfig :=
  { url := "http://host", specUrl := some "http://host/openapi.json" }

def cexC1Env : RestEnv :=
  { head := fun _ => Option.none
    get := fun _ => .ok (.str "\x7binvalid"
      (.error "Unexpected token i in JSON at position 1")
      (.error "yaml: bad scan")) }

def c1GqlConfig : GraphQLConnectorConfig := { url := "http://h/graphql" }

def c1GqlEnv : GqlEnv :=
  { post := fun _ =>
      .axiosErr (some 401) "Unauthorized" "Request failed with status code 401" }

theorem C1_recoverable_vs_thrown_witness :
    restIntrospect c1WitConfig c1WitEnv 0
      = .ok { success := false
              error := some ("Connection test failed: HTTP "
                ++ statusOptStr (some 500) ++ ": "
                ++ (if "Server Error" ≠ "" then "Server Error"
                    else "Request failed with status code 500"))
              metadata := RestIntroMeta.fromTest
                (RestTCMeta.httpError c1WitConfig.url (some 500)
                  "Server Error") }
    ∧ restIntrospect cexC1Config cexC1Env 0
        = .error (.introspectionError
            ("REST introspection failed: Failed to parse OpenAPI specification: "
              ++ "yaml: bad scan"))
    ∧ graphqlIntrospect c1GqlConfig c1GqlEnv 0
        = .error (.authenticationError
            ("Authentication failed: " ++ "Unauthorized")) :=
  ⟨C1_recoverable_vs_thrown.1 c1WitConfig c1WitEnv 0 "http://h/spec.json"
     (some 500) "Server Error" "Request failed with status code 500" rfl rfl,
   C1_recoverable_vs_thrown.2.1 cexC1Config cexC1Env 0
     "http://host/openapi.json" "\x7binvalid"
     "Unexpected token i in JSON at position 1" "yaml: bad scan" rfl rfl
     (by decide),
   C1_recoverable_vs_thrown.2.2 c1GqlConfig c1GqlEnv 0 "Unauthorized"
     "Request failed with status code 401" rfl⟩

/-- Claim C1, counterexample: two recoverable failures for which
`introspect` nevertheless throws.  A fetched body that both parsers reject
makes REST `introspect` end in a thrown `IntrospectionError` (not a
`success:false` result), and a 401 response makes GraphQL `introspect` end
in a thrown `AuthenticationError`. -/
theorem C1_throws_counterexample :
    restIntrospect cexC1Config cexC1Env 0
      = .error (.introspectionError
          "REST introspection failed: Failed to parse OpenAPI specification: yaml: bad scan")
    ∧ graphqlIntrospect c1GqlConfig c1GqlEnv 0
        = .error (.authenticationError "Authentication failed: Unauthorized") :=
  ⟨rfl, rfl⟩

/-! ## WebSocket model

Message-pattern analysis from `src/connectors/websocket/types.ts`
(`WebSocketConnector.analyzeMessagePatterns` and its helpers) and the schema
converter `src/connectors/websocket/schema-converter.ts`.  Wall-clock fields
(`startTime`, `endTime`, `state`, per-message `type`) parameterise nothing
embedded here and are absorbed. -/

/-- A captured WebSocket message.  `parsed` is the outcome of the JSON parse
of `data` when one was attempted. -/
structure WSMessage where
  id : String := ""
  direction : WsDirection := WsDirection.incoming
  data : Json := Json.null
  parsed : Option Json := Option.none
  timestamp : Nat := 0
  size : Nat := 0
  event : Option String := Option.none

/-- `WebSocketEvent`. -/
structure WSEvent where
  name : String
  description : Option String := Option.none
  direction : WsEventDirection := WsEventDirection.incoming
  examples : List WSMessage := []
  frequency : Nat := 0
  deprecated : Option Bool := Option.none

/-- The `authentication` member of a WebSocket endpoint. -/
structure WSAuthInfo where
  type : String
  description : Option String := Option.none
  required : Option Bool := Option.none

/-- `WebSocketEndpoint`. -/
structure WSEndpoint where
  url : String
  protocol : WebSocketProtocol := WebSocketProtocol.raw
  subprotocols : Option (List String) := Option.none
  headers : Option (List (String × String)) := Option.none
  authentication : Option WSAuthInfo := Option.none

/-- Session statistics. -/
structure WSStats where
  totalMessages : Nat := 0
  messagesByType : List (String × Nat) := []
  messagesByDirection : List (String × Nat) := []
  averageMessageSize : Rat := 0
  connectionDuration : Nat := 0

/-- `WebSocketSession` (the members the converter and analyzer read). -/
structure WSSession where
  id : String := ""
  endpoint : WSEndpoint
  messages : List WSMessage := []
  events : List WSEvent := []
  statistics : WSStats := {}

/-- `ProtocolDetectionResult`. -/
structure WSProtocolDetection where
  protocol : WebSocketProtocol := WebSocketProtocol.raw
  confidence : Rat := 1/2
  reasoning : List String := []

/-- The `fields` set and `fieldTypes` map accumulated by
`analyzeObjectFields` for one pattern. -/
structure WSFieldAcc where
  fields : List String := []
  fieldTypes : List (String × List String) := []

/-- `fieldTypes.get(fieldName)!.add(typeof value)` on the insertion-ordered
map of insertion-ordered sets. -/
def wsTypesAdd :
    List (String × List String) → String → String →
    List (String × List String)
  | [], _, _ => []
  | (k, tys) :: rest, f, t =>
    if k == f then (k, jsSetAdd tys t) :: rest
    else (k, tys) :: wsTypesAdd rest f t

/-- One `analyzeObjectFields` entry step: add the qualified field name to the
set, create its type set if absent, and add `typeof value` to it. -/
def wsAddField (acc : WSFieldAcc) (fieldName tyStr : String) : WSFieldAcc :=
  let ft0 := if (jsRecordGet acc.fieldTypes fieldName).isSome then
      acc.fieldTypes
    else acc.fieldTypes ++ [(fieldName, [])]
  { fields := jsSetAdd acc.fields fieldName
    fieldTypes := wsTypesAdd ft0 fieldName tyStr }

mutual
/-- `analyzeObjectFields(obj, fields, fieldTypes, prefix)`: non-objects and
`null` contribute nothing; otherwise walk `Object.entries` (keys for plain
objects, indices for arrays). -/
def analyzeJson : Json → String → WSFieldAcc → WSFieldAcc
  | .obj o, pre, acc => analyzeObjEntries o pre acc
  | .arr a, pre, acc => analyzeArrEntries a 0 pre acc
  | _, _, acc => acc

def analyzeObjEntries : JsonObj → String → WSFieldAcc → WSFieldAcc
  | .nil, _, acc => acc
  | .cons k v rest, pre, acc =>
    let fieldName := if pre ≠ "" then pre ++ "." ++ k else k
    let acc1 := wsAddField acc fieldName (jsTypeof v)
    let acc2 :=
      if jsTypeof v == "object" && !(v == Json.null)
          && decide (jsSplitDotLen pre < 3) then
        analyzeJson v fieldName acc1
      else acc1
    analyzeObjEntries rest pre acc2

def analyzeArrEntries : JsonList → Nat → String → WSFieldAcc → WSFieldAcc
  | .nil, _, _, acc => acc
  | .cons v rest, i, pre, acc =>
    let fieldName := if pre ≠ "" then pre ++ "." ++ toString i else toString i
    let acc1 := wsAddField acc fieldName (jsTypeof v)
    let acc2 :=
      if jsTypeof v == "object" && !(v == Json.null)
          && decide (jsSplitDotLen pre < 3) then
        analyzeJson v fieldName acc1
      else acc1
    analyzeArrEntries rest (i + 1) pre acc2
end

/-- `WebSocketConnector.getMessageSignature`: non-objects and `null` map to
their `typeof`; objects map to their sorted, comma-joined key list. -/
def getMessageSignature (v : Json) : String :=
  if !(jsTypeof v == "object") || v == Json.null then jsTypeof v
  else String.intercalate "," (sortStable jsStrLe (jsKeys v))

/-- The per-signature accumulator of `analyzeMessagePatterns`. -/
structure WSPatternAcc where
  examples : List Json := []
  fields : List String := []
  fieldTypes : List (String × List String) := []

/-- Process one kept payload into its signature's accumulator:
`examples.push` and `analyzeObjectFields`. -/
def wsAccStep (acc : WSPatternAcc) (v : Json) : WSPatternAcc :=
  let fa := analyzeJson v ""
    { fields := acc.fields, fieldTypes := acc.fieldTypes }
  { examples := acc.examples ++ [v]
    fields := fa.fields
    fieldTypes := fa.fieldTypes }

def wsPatternUpdate :
    List (String × WSPatternAcc) → String → Json →
    List (String × WSPatternAcc)
  | [], _, _ => []
  | (k, acc) :: rest, sig, v =>
    if k == sig then (k, wsAccStep acc v) :: rest
    else (k, acc) :: wsPatternUpdate rest sig v

/-- One iteration of the message loop of `analyzeMessagePatterns` on a kept
payload: create the signature's entry if absent, then update it. -/
def wsPatternStep (pm : List (String × WSPatternAcc)) (v : Json) :
    List (String × WSPatternAcc) :=
  let signature := getMessageSignature v
  let pm1 := if (jsRecordGet pm signature).isSome then pm
             else pm ++ [(signature,
               { examples := [], fields := [], fieldTypes := [] })]
  wsPatternUpdate pm1 signature v

/-- The payloads the pattern loop keeps: `parsed` present, truthy, and of
`typeof` object. -/
def wsKept (messages : List WSMessage) : List Json :=
  messages.filterMap (fun m =>
    match m.parsed with
    | some v =>
      if jsTruthy v && jsTypeof v == "object" then some v else Option.none
    | Option.none => Option.none)

/-- The message loop of `analyzeMessagePatterns`. -/
def buildPatternMap :
    List WSMessage → List (String × WSPatternAcc) →
    List (String × WSPatternAcc)
  | [], pm => pm
  | m :: rest, pm =>
    match m.parsed with
    | some v =>
      if jsTruthy v && jsTypeof v == "object" then
        buildPatternMap rest (wsPatternStep pm v)
      else buildPatternMap rest pm
    | Option.none => buildPatternMap rest pm

/-- The field-classification loop of `analyzeMessagePatterns`: each field of
the set goes to `requiredFields` when the `in` operator finds it in every
example, otherwise to `optionalFields`; its first recorded type is written
into `fieldTypes` when the type set is nonempty. -/
def wsFieldsLoop (examples : List Json) (ftm : List (String × List String)) :
    List String → List String → List String → List (String × String) →
    List String × List String × List (String × String)
  | [], req, opt, ft => (req, opt, ft)
  | f :: rest, req, opt, ft =>
    let appearsInAll := examples.all (fun ex => jsHasKey ex f)
    let req2 := if appearsInAll then req ++ [f] else req
    let opt2 := if appearsInAll then opt else opt ++ [f]
    let ft2 := match jsRecordGet ftm f with
      | some tys =>
        if 0 < tys.length then jsRecordSet ft f (tys.headD "") else ft
      | Option.none => ft
    wsFieldsLoop examples ftm rest req2 opt2 ft2

/-- `WebSocketMessagePattern`. -/
structure WSPattern where
  id : String
  name : String
  description : String
  template : Json
  requiredFields : List String
  optionalFields : List String
  fieldTypes : List (String × String)
  frequency : Nat
  examples : List Json

/-- The output loop of `analyzeMessagePatterns`: groups with fewer than two
examples are skipped; the pattern counter advances only on emitted
patterns. -/
def wsAssemblePatterns :
    List (String × WSPatternAcc) → Nat → List WSPattern
  | [], _ => []
  | (sig, acc) :: rest, pid =>
    if acc.examples.length < 2 then wsAssemblePatterns rest pid
    else
      match wsFieldsLoop acc.examples acc.fieldTypes acc.fields [] [] [] with
      | (req, opt, ft) =>
        { id := "pattern_" ++ toString pid
          name := "Pattern_" ++ sig.take 8
          description := "Message pattern with " ++ toString req.length
            ++ " required and " ++ toString opt.length ++ " optional fields"
          template := acc.examples.headD Json.null
          requiredFields := req
          optionalFields := opt
          fieldTypes := ft
          frequency := acc.examples.length
          examples := acc.examples.take 3 } :: wsAssemblePatterns rest (pid + 1)

/-- `WebSocketConnector.analyzeMessagePatterns`. -/
def analyzeMessagePatterns (messages : List WSMessage) : List WSPattern :=
  wsAssemblePatterns (buildPatternMap messages []) 1

/-- `message.parsed || message.data`: a falsy parsed value falls back to the
raw data. -/
def wsMsgPayload (m : WSMessage) : Json :=
  match m.parsed with
  | some v => if jsTruthy v then v else m.data
  | Option.none => m.data

/-- `WebSocketSchemaConverter.mapFieldType`. -/
def mapFieldType (fieldType : String) : DataType :=
  match jsToLower fieldType with
  | "string" => DataType.string
  | "number" => DataType.number
  | "float" => DataType.number
  | "double" => DataType.number
  | "integer" => DataType.integer
  | "int" => DataType.integer
  | "boolean" => DataType.boolean
  | "bool" => DataType.boolean
  | "array" => DataType.array
  | "object" => DataType.object
  | "null" => DataType.null
  | _ => DataType.unknown

/-- `WebSocketSchemaConverter.inferDataType` (`Number.isInteger` holds for a
modelled number exactly when its denominator is 1). -/
def inferDataType : Json → DataType
  | .null => DataType.null
  | .str _ => DataType.string
  | .num q => if q.den = 1 then DataType.integer else DataType.number
  | .bool _ => DataType.boolean
  | .arr _ => DataType.array
  | .obj _ => DataType.object

/-- `WebSocketSchemaConverter.messageMatchesPattern`. -/
def messageMatchesPattern (message : WSMessage) (pattern : WSPattern) :
    Bool :=
  let data := wsMsgPayload message
  if !(jsTypeof data == "object") || data == Json.null then false
  else pattern.requiredFields.all (fun f => jsHasKey data f)

/-- The properties record built by
`WebSocketSchemaConverter.convertPatternToSchemaField`: required fields
first, then optional fields. -/
def wsPatternProps (pattern : WSPattern) : List (String × SchemaField) :=
  let props1 := pattern.requiredFields.foldl (fun ps f =>
    jsRecordSet ps f (SchemaField.mk f
      (mapFieldType (jsStrOr (jsRecordGet pattern.fieldTypes f) "unknown"))
      true (some ("Required field for " ++ pattern.name)) Option.none
      Option.none Option.none Option.none Option.none)) []
  pattern.optionalFields.foldl (fun ps f =>
    jsRecordSet ps f (SchemaField.mk f
      (mapFieldType (jsStrOr (jsRecordGet pattern.fieldTypes f) "unknown"))
      false (some ("Optional field for " ++ pattern.name)) Option.none
      Option.none Option.none Option.none Option.none)) props1

/-- `WebSocketSchemaConverter.convertPatternToSchemaField`. -/
def convertPatternToSchemaField (pattern : WSPattern) : SchemaField :=
  SchemaField.mk pattern.name DataType.object true (some pattern.description)
    Option.none Option.none (some (wsPatternProps pattern)) Option.none
    (some (FieldMeta.websocketPattern pattern.frequency
      (pattern.examples.take 2)))

/-- `WebSocketSchemaConverter.extractFieldsFromPattern`. -/
def extractFieldsFromPattern (pattern : WSPattern) :
    List (String × SchemaField) :=
  (pattern.requiredFields ++ pattern.optionalFields).foldl (fun ps f =>
    jsRecordSet ps f (SchemaField.mk f
      (mapFieldType (jsStrOr (jsRecordGet pattern.fieldTypes f) "unknown"))
      (pattern.requiredFields.contains f) Option.none Option.none
      Option.none Option.none Option.none Option.none)) []

def wsInferPropsObj :
    JsonObj → List (String × SchemaField) → List (String × SchemaField)
  | .nil, ps => ps
  | .cons k v rest, ps =>
    wsInferPropsObj rest (jsRecordSet ps k (SchemaField.mk k
      (inferDataType v) true Option.none Option.none Option.none Option.none
      Option.none Option.none))

def wsInferPropsArr :
    JsonList → Nat → List (String × SchemaField) →
    List (String × SchemaField)
  | .nil, _, ps => ps
  | .cons v rest, i, ps =>
    wsInferPropsArr rest (i + 1) (jsRecordSet ps (toString i)
      (SchemaField.mk (toString i) (inferDataType v) true Option.none
        Option.none Option.none Option.none Option.none Option.none))

/-- `Object.entries` walk of `inferSchemaFromExamples` for an object-typed
first example. -/
def wsInferProps : Json → List (String × SchemaField)
  | .obj o => wsInferPropsObj o []
  | .arr a => wsInferPropsArr a 0 []
  | _ => []

/-- `WebSocketSchemaConverter.inferSchemaFromExamples`. -/
def inferSchemaFromExamples (examples : List WSMessage) : SchemaField :=
  match examples with
  | [] =>
    SchemaField.mk "message" DataType.unknown true Option.none Option.none
      Option.none Option.none Option.none Option.none
  | firstExample :: _ =>
    let data := wsMsgPayload firstExample
    if jsTypeof data == "object" && !(data == Json.null) then
      SchemaField.mk "message" DataType.object true Option.none Option.none
        Option.none (some (wsInferProps data)) Option.none Option.none
    else
      SchemaField.mk "message" (inferDataType data) true Option.none
        Option.none Option.none Option.none Option.none Option.none

/-- `WebSocketSchemaConverter.convertEventToOperation`. -/
def convertEventToOperation (event : WSEvent) (patterns : List WSPattern) :
    Operation :=
  let matchingPattern := patterns.find? (fun p =>
    event.examples.any (fun ex => messageMatchesPattern ex p))
  let parameters := match matchingPattern with
    | some mp =>
      [Parameter.mk "message" ParamLocation.body
        (SchemaField.mk "message" DataType.object true
          (some ("Message data for " ++ event.name ++ " event"))
          Option.none Option.none (some (extractFieldsFromPattern mp))
          Option.none Option.none)
        true (some ("Message payload for " ++ event.name ++ " event"))
        Option.none]
    | Option.none =>
      if 0 < event.examples.length then
        [Parameter.mk "message" ParamLocation.body
          (inferSchemaFromExamples event.examples)
          true (some ("Message payload for " ++ event.name ++ " event"))
          Option.none]
      else []
  let responses :=
    if event.direction == WsEventDirection.bidirectional
        || event.direction == WsEventDirection.incoming then
      [{ statusCode := "success"
         description := "Successful " ++ event.name ++ " event response"
         schema := match matchingPattern with
           | some _ =>
             some (SchemaField.mk "response" DataType.object true
               (some ("Response data for " ++ event.name ++ " event"))
               Option.none Option.none Option.none Option.none Option.none)
           | Option.none => Option.none }]
    else []
  { id := "websocket_" ++ event.name
    name := event.name
    type := OperationType.message
    description := some (jsStrOr event.description
      ("WebSocket " ++ event.name ++ " event"))
    parameters := parameters
    responses := responses
    deprecated := event.deprecated
    metadata := some (OpMeta.websocketEvent event.direction event.frequency
      ((event.examples.take 3).map (fun ex =>
        { data := wsMsgPayload ex, timestamp := ex.timestamp
          size := ex.size }))) }

/-- `WebSocketSchemaConverter.createConnectionOperation`. -/
def createConnectionOperation (endpoint : WSEndpoint) : Operation :=
  { id := "websocket_connect"
    name := "Connect"
    type := OperationType.endpoint
    description := some "Establish WebSocket connection"
    parameters := []
    responses :=
      [{ statusCode := "101"
         description := "WebSocket connection established" },
       { statusCode := "400"
         description := "Bad request - connection failed" },
       { statusCode := "401"
         description := "Unauthorized - authentication required" }]
    metadata := some (OpMeta.websocketConnect endpoint.protocol
      endpoint.subprotocols endpoint.headers) }

/-- `WebSocketSchemaConverter.extractAuthentication` (it never actually
returns `undefined`). -/
def wsExtractAuthentication (session : WSSession) : AuthenticationInfo :=
  match session.endpoint.authentication with
  | Option.none => { type := AuthType.none }
  | some auth =>
    if auth.type = "none" then { type := AuthType.none }
    else
      { type := AuthType.custom
        description := some (jsStrOr auth.description
          (auth.type ++ " authentication required")) }

/-- `WebSocketSchemaConverter.createDescription`. -/
def createDescription (session : WSSession) (pd : WSProtocolDetection) :
    String :=
  let protocol := if pd.protocol == WebSocketProtocol.raw then "WebSocket"
    else pd.protocol.str
  protocol ++ " API discovered via introspection. Found "
    ++ toString session.events.length ++ " events from "
    ++ toString session.messages.length ++ " captured messages."

/-- `WebSocketSchemaConverter.createMetadata`. -/
def wsCreateMetadata (session : WSSession) (pd : WSProtocolDetection) :
    SchemaMetadata :=
  { extensions := ExtMeta.websocket pd.protocol pd.confidence
      session.statistics.connectionDuration session.statistics.totalMessages
      session.statistics.messagesByType
      session.statistics.averageMessageSize pd.reasoning }

/-- `WebSocketSchemaConverter.generateSchemaId`:
`websocket_${Math.abs(hash).toString(36)}_${Date.now()}`. -/
def generateWsSchemaId (sourceUrl : String) (now : Nat) : String :=
  "websocket_" ++ natToBase36 (Int.natAbs (jsStringHash sourceUrl))
    ++ "_" ++ toString now

def stripWsDot (h : String) : String :=
  match h.toList with
  | 'w' :: 's' :: '.' :: rest => String.mk rest
  | _ => h

def stripWssDot (h : String) : String :=
  match h.toList with
  | 'w' :: 's' :: 's' :: '.' :: rest => String.mk rest
  | _ => h

/-- `WebSocketSchemaConverter.extractApiName`. -/
def wsExtractApiName (sourceUrl : String) : String :=
  match urlHost sourceUrl with
  | Option.none => "WebSocket API"
  | some h =>
    let n := stripWssDot (stripWsDot h)
    if n = "" then "WebSocket API" else n

/-- `WebSocketSchemaConverter.convertSession`:

the pattern types are recorded, the events become operations, and the
synthetic connection operation is unshifted in front of them. -/
def convertSession (session : WSSession) (patterns : List WSPattern)
    (protocolDetection : WSProtocolDetection) (sourceUrl : String)
    (apiName : Option String) (now : Nat) : UniversalSchema :=
  let types := patterns.foldl (fun ts p =>
    jsRecordSet ts p.name (convertPatternToSchemaField p)) []
  let operations := session.events.map (fun e =>
    convertEventToOperation e patterns)
  { id := generateWsSchemaId sourceUrl now
    name := jsStrOr apiName (wsExtractApiName sourceUrl)
    version := "1.0.0"
    protocol := APIProtocol.websocket
    baseUrl := some sourceUrl
    description := some (createDescription session protocolDetection)
    operations := createConnectionOperation session.endpoint :: operations
    types := types
    authentication := some (wsExtractAuthentication session)
    metadata := some (wsCreateMetadata session protocolDetection)
    discoveredAt := now
    source := sourceUrl }

/-! ## Claim C10: the synthetic Connect operation -/

/-- Claim C10: for every capture session, the converted schema's operations
are exactly the synthetic connection operation followed by one operation per
detected event (so there is always exactly one more operation than events);
the connection operation has id `websocket_connect`, type `endpoint`, and
responses with status codes 101, 400, 401, and is built from the endpoint
alone, not from any captured event. -/
theorem C10_connect_operation (session : WSSession)
    (patterns : List WSPattern) (pd : WSProtocolDetection)
    (sourceUrl : String) (apiName : Option String) (now : Nat) :
    (convertSession session patterns pd sourceUrl apiName now).operations
      = createConnectionOperation session.endpoint
        :: session.events.map (fun e => convertEventToOperation e patterns)
    ∧ ((convertSession session patterns pd sourceUrl apiName
          now).operations).length = session.events.length + 1
    ∧ (createConnectionOperation session.endpoint).id = "websocket_connect"
    ∧ (createConnectionOperation session.endpoint).type
        = OperationType.endpoint
    ∧ (createConnectionOperation session.endpoint).responses.map
        Response.statusCode = ["101", "400", "401"] := by
  refine ⟨rfl, ?_, rfl, rfl, rfl⟩
  simp [convertSession]

/-! ## Claim C2: WebSocket pattern inference

Spec-side notions (groups, signatures, key unions, first-carrier types) and
the lemmas relating them to the pattern-map fold of
`analyzeMessagePatterns`. -/

/-- The kept payloads carrying a given signature, in capture order. -/
def wsGroup (messages : List WSMessage) (s : String) : List Json :=
  (wsKept messages).filter (fun v => getMessageSignature v == s)

/-- The distinct signatures of the kept payloads, in first-seen order. -/
def wsSigList (messages : List WSMessage) : List String :=
  (wsKept messages).foldl (fun ks v => jsSetAdd ks (getMessageSignature v)) []

/-- The union of the top-level key lists of a group, in first-seen order. -/
def wsKeysUnion (g : List Json) : List String :=
  g.foldl (fun ks v => (jsKeys v).foldl jsSetAdd ks) []

/-- Top-level property read on a parsed JSON value. -/
def jsGetKey : Json → String → Option Json
  | .obj o, k => o.get k
  | _, _ => Option.none

/-- The `typeof` of a field's value in the first group example that carries
the field (the spec's "type seen in the first example carrying it"). -/
def firstCarrierType (g : List Json) (f : String) : Option String :=
  match g.find? (fun v => (jsKeys v).contains f) with
  | some v => some (jsTypeof ((jsGetKey v f).getD Json.null))
  | Option.none => Option.none

/-- Flatness of one entry list: no value is a non-null object (so the
analyzer's recursion never fires). -/
def wsFlatEntries : JsonObj → Bool
  | .nil => true
  | .cons _ v rest =>
    !(jsTypeof v == "object" && !(v == Json.null)) && wsFlatEntries rest

def keysNoDupB : List String → Bool
  | [] => true
  | k :: rest => !(rest.contains k) && keysNoDupB rest

/-- A flat plain object: an object whose values are all non-objects (or
null) and whose keys are distinct. -/
def wsFlatObj : Json → Bool
  | .obj o => wsFlatEntries o && keysNoDupB o.keys
  | _ => false

theorem jsRecordGet_cons {ν : Type} (k1 : String) (a : ν)
    (rest : List (String × ν)) (k : String) :
    jsRecordGet ((k1, a) :: rest) k
      = if k1 = k then some a else jsRecordGet rest k := by
  unfold jsRecordGet
  by_cases h : k1 = k
  · rw [List.find?_cons_of_pos _ (by simp [h])]
    rw [if_pos h]
  · rw [List.find?_cons_of_neg _ (by simp [h])]
    rw [if_neg h]

theorem buildPatternMap_eq (messages : List WSMessage)
    (pm : List (String × WSPatternAcc)) :
    buildPatternMap messages pm
      = (wsKept messages).foldl wsPatternStep pm := by
  induction messages generalizing pm with
  | nil => rfl
  | cons m rest ih =>
    have hb : buildPatternMap (m :: rest) pm
        = match m.parsed with
          | some v =>
            if jsTruthy v && jsTypeof v == "object" then
              buildPatternMap rest (wsPatternStep pm v)
            else buildPatternMap rest pm
          | Option.none => buildPatternMap rest pm := rfl
    cases hp : m.parsed with
    | none =>
      rw [hb, hp]
      have hkept : wsKept (m :: rest) = wsKept rest := by
        unfold wsKept
        rw [List.filterMap_cons]
        rw [hp]
      rw [hkept]
      exact ih pm
    | some v =>
      rw [hb, hp]
      dsimp only
      by_cases hv : (jsTruthy v && jsTypeof v == "object") = true
      · rw [if_pos hv]
        have hkept : wsKept (m :: rest) = v :: wsKept rest := by
          unfold wsKept
          rw [List.filterMap_cons]
          rw [hp]
          dsimp only
          rw [if_pos hv]
        rw [hkept, List.foldl_cons]
        exact ih (wsPatternStep pm v)
      · rw [if_neg hv]
        have hkept : wsKept (m :: rest) = wsKept rest := by
          unfold wsKept
          rw [List.filterMap_cons]
          rw [hp]
          dsimp only
          rw [if_neg hv]
        rw [hkept]
        exact ih pm

theorem wsPatternUpdate_cons (k1 : String) (a : WSPatternAcc)
    (rest : List (String × WSPatternAcc)) (s : String) (v : Json) :
    wsPatternUpdate ((k1, a) :: rest) s v
      = if (k1 == s) = true then (k1, wsAccStep a v) :: rest
        else (k1, a) :: wsPatternUpdate rest s v := rfl

theorem jsRecordGet_wsPatternUpdate (pm : List (String × WSPatternAcc))
    (s : String) (v : Json) (k : String) :
    jsRecordGet (wsPatternUpdate pm s v) k
      = if k = s then (jsRecordGet pm k).map (fun a => wsAccStep a v)
        else jsRecordGet pm k := by
  induction pm with
  | nil => simp [wsPatternUpdate, jsRecordGet]
  | cons e rest ih =>
    obtain ⟨k1, a⟩ := e
    rw [wsPatternUpdate_cons]
    by_cases h1 : k1 = s
    · rw [if_pos (by simp [h1])]
      by_cases h2 : k1 = k
      · subst h2
        subst h1
        simp [jsRecordGet_cons]
      · have hsk : ¬ s = k := fun h => h2 (h1.trans h)
        have hks : ¬ k = s := fun h => hsk h.symm
        simp [jsRecordGet_cons, hsk, hks, h2]
    · rw [if_neg (by simp [h1])]
      by_cases h2 : k1 = k
      · subst h2
        simp [jsRecordGet_cons, h1, show ¬ k1 = s from h1]
      · by_cases h3 : k = s
        · subst h3
          simp [jsRecordGet_cons, h2, ih]
        · simp [jsRecordGet_cons, h2, h3, ih]

theorem jsRecordGet_append {ν : Type} (l1 l2 : List (String × ν))
    (k : String) :
    jsRecordGet (l1 ++ l2) k
      = match jsRecordGet l1 k with
        | some a => some a
        | Option.none => jsRecordGet l2 k := by
  induction l1 with
  | nil => simp [jsRecordGet]
  | cons e rest ih =>
    obtain ⟨k1, a⟩ := e
    by_cases h : k1 = k
    · simp [jsRecordGet_cons, h]
    · simp [jsRecordGet_cons, h, ih]

theorem jsRecordGet_isSome_contains {ν : Type} (l : List (String × ν))
    (k : String) :
    (jsRecordGet l k).isSome = (l.map Prod.fst).contains k := by
  induction l with
  | nil => simp [jsRecordGet]
  | cons e rest ih =>
    obtain ⟨k1, a⟩ := e
    by_cases h : k1 = k
    · simp [jsRecordGet_cons, h]
    · have h2 : ¬ k = k1 := fun hh => h hh.symm
      rw [jsRecordGet_cons, if_neg h, ih]
      simp [List.contains_cons, h2]

theorem wsPatternUpdate_keys (pm : List (String × WSPatternAcc))
    (s : String) (v : Json) :
    (wsPatternUpdate pm s v).map Prod.fst = pm.map Prod.fst := by
  induction pm with
  | nil => rfl
  | cons e rest ih =>
    obtain ⟨k1, a⟩ := e
    rw [wsPatternUpdate_cons]
    by_cases h : (k1 == s) = true
    · rw [if_pos h]
      simp
    · rw [if_neg h]
      simp [ih]

/-- The accumulator stored for a signature (the empty accumulator when the
signature has no entry yet). -/
def wsEntry (pm : List (String × WSPatternAcc)) (s : String) : WSPatternAcc :=
  (jsRecordGet pm s).getD { examples := [], fields := [], fieldTypes := [] }

theorem wsEntry_wsPatternStep (pm : List (String × WSPatternAcc)) (v : Json)
    (sig : String) :
    wsEntry (wsPatternStep pm v) sig
      = if getMessageSignature v = sig then wsAccStep (wsEntry pm sig) v
        else wsEntry pm sig := by
  unfold wsPatternStep
  by_cases hs : (jsRecordGet pm (getMessageSignature v)).isSome = true
  · dsimp only
    rw [if_pos hs]
    unfold wsEntry
    rw [jsRecordGet_wsPatternUpdate]
    by_cases he : getMessageSignature v = sig
    · rw [if_pos he, if_pos he.symm, ← he]
      obtain ⟨a, ha⟩ := Option.isSome_iff_exists.mp hs
      rw [ha]
      rfl
    · rw [if_neg he, if_neg (fun h => he h.symm)]
  · dsimp only
    rw [if_neg hs]
    unfold wsEntry
    rw [jsRecordGet_wsPatternUpdate]
    have hnone : jsRecordGet pm (getMessageSignature v) = Option.none := by
      cases hg : jsRecordGet pm (getMessageSignature v) with
      | none => rfl
      | some a => rw [hg] at hs; simp at hs
    by_cases he : getMessageSignature v = sig
    · rw [if_pos he, if_pos he.symm, jsRecordGet_append, ← he, hnone]
      simp [jsRecordGet_cons]
    · rw [if_neg he, if_neg (fun h => he h.symm), jsRecordGet_append]
      cases hg : jsRecordGet pm sig with
      | none =>
        rw [jsRecordGet_cons, if_neg he]
        simp [jsRecordGet]
      | some a => simp

theorem wsPatternStep_keys (pm : List (String × WSPatternAcc)) (v : Json) :
    (wsPatternStep pm v).map Prod.fst
      = jsSetAdd (pm.map Prod.fst) (getMessageSignature v) := by
  unfold wsPatternStep jsSetAdd
  by_cases hs : (jsRecordGet pm (getMessageSignature v)).isSome = true
  · dsimp only
    rw [if_pos hs, wsPatternUpdate_keys]
    rw [if_pos (by rw [← jsRecordGet_isSome_contains]; exact hs)]
  · dsimp only
    rw [if_neg hs, wsPatternUpdate_keys]
    rw [if_neg (by rw [← jsRecordGet_isSome_contains]; exact hs)]
    simp

theorem wsEntry_foldl (l : List Json) (pm : List (String × WSPatternAcc))
    (sig : String) :
    wsEntry (l.foldl wsPatternStep pm) sig
      = (l.filter (fun v => getMessageSignature v == sig)).foldl wsAccStep
          (wsEntry pm sig) := by
  induction l generalizing pm with
  | nil => rfl
  | cons v rest ih =>
    rw [List.foldl_cons, ih]
    by_cases h : getMessageSignature v = sig
    · simp [List.filter_cons, h, wsEntry_wsPatternStep]
    · simp [List.filter_cons, h, wsEntry_wsPatternStep]

theorem keys_foldl_wsPatternStep (l : List Json)
    (pm : List (String × WSPatternAcc)) :
    (l.foldl wsPatternStep pm).map Prod.fst
      = l.foldl (fun ks v => jsSetAdd ks (getMessageSignature v))
          (pm.map Prod.fst) := by
  induction l generalizing pm with
  | nil => rfl
  | cons v rest ih =>
    rw [List.foldl_cons, ih, wsPatternStep_keys, List.foldl_cons]

theorem jsSetAdd_nodup (l : List String) (x : String) (h : l.Nodup) :
    (jsSetAdd l x).Nodup := by
  unfold jsSetAdd
  by_cases hc : l.contains x = true
  · rw [if_pos hc]; exact h
  · rw [if_neg hc]
    have hx : x ∉ l := by simpa using hc
    simp [List.nodup_append, h, hx]

theorem mem_jsSetAdd (l : List String) (x y : String) :
    y ∈ jsSetAdd l x ↔ y ∈ l ∨ y = x := by
  unfold jsSetAdd
  by_cases hc : l.contains x = true
  · rw [if_pos hc]
    have hx : x ∈ l := by simpa using hc
    constructor
    · exact Or.inl
    · rintro (h | rfl)
      · exact h
      · exact hx
  · rw [if_neg hc]
    simp

theorem mem_foldl_jsSetAdd {α : Type} (f : α → String) (ks : List α)
    (init : List String) (y : String) :
    y ∈ ks.foldl (fun acc v => jsSetAdd acc (f v)) init
      ↔ y ∈ init ∨ ∃ v ∈ ks, f v = y := by
  induction ks generalizing init with
  | nil => simp
  | cons x rest ih =>
    rw [List.foldl_cons, ih]
    simp [mem_jsSetAdd]
    tauto

theorem foldl_jsSetAdd_nodup {α : Type} (f : α → String) (ks : List α)
    (init : List String) (h : init.Nodup) :
    (ks.foldl (fun acc v => jsSetAdd acc (f v)) init).Nodup := by
  induction ks generalizing init with
  | nil => exact h
  | cons x rest ih =>
    rw [List.foldl_cons]
    exact ih _ (jsSetAdd_nodup _ _ h)

theorem wsKeysUnion_nodup_aux (g : List Json) (init : List String)
    (h : init.Nodup) :
    (g.foldl (fun ks v => (jsKeys v).foldl jsSetAdd ks) init).Nodup := by
  induction g generalizing init with
  | nil => exact h
  | cons v rest ih =>
    rw [List.foldl_cons]
    refine ih _ ?_
    have := foldl_jsSetAdd_nodup (fun s => s) (jsKeys v) init h
    simpa using this

theorem wsKeysUnion_nodup (g : List Json) : (wsKeysUnion g).Nodup :=
  wsKeysUnion_nodup_aux g [] List.nodup_nil

theorem mem_wsKeysUnion_aux (g : List Json) (init : List String)
    (f : String) :
    f ∈ g.foldl (fun ks v => (jsKeys v).foldl jsSetAdd ks) init
      ↔ f ∈ init ∨ ∃ v ∈ g, f ∈ jsKeys v := by
  induction g generalizing init with
  | nil => simp
  | cons v rest ih =>
    rw [List.foldl_cons, ih]
    have hinner : f ∈ (jsKeys v).foldl jsSetAdd init
        ↔ f ∈ init ∨ f ∈ jsKeys v := by
      have := mem_foldl_jsSetAdd (fun s => s) (jsKeys v) init f
      simp only at this
      rw [this]
      constructor
      · rintro (h | ⟨x, hx, rfl⟩)
        · exact Or.inl h
        · exact Or.inr hx
      · rintro (h | h)
        · exact Or.inl h
        · exact Or.inr ⟨f, h, rfl⟩
    rw [hinner]
    simp
    tauto

theorem mem_wsKeysUnion (g : List Json) (f : String) :
    f ∈ wsKeysUnion g ↔ ∃ v ∈ g, f ∈ jsKeys v := by
  rw [wsKeysUnion, mem_wsKeysUnion_aux]
  simp

theorem jsRecordGet_of_mem_nodup {ν : Type} (l : List (String × ν))
    (h : (l.map Prod.fst).Nodup) :
    ∀ e ∈ l, jsRecordGet l e.1 = some e.2 := by
  induction l with
  | nil => simp
  | cons e0 rest ih =>
    obtain ⟨k1, a⟩ := e0
    intro e he
    rcases List.mem_cons.mp he with rfl | hrest
    · simp [jsRecordGet_cons]
    · have hk1 : k1 ∉ rest.map Prod.fst := by
        simp only [List.map_cons, List.nodup_cons] at h
        exact h.1
      have hne : k1 ≠ e.1 := by
        intro hEq
        exact hk1 (hEq ▸ List.mem_map_of_mem Prod.fst hrest)
      rw [jsRecordGet_cons, if_neg hne]
      exact ih (by simpa using (List.nodup_cons.mp (by simpa using h)).2) e hrest

theorem foldl_wsAccStep_examples (g : List Json) (acc : WSPatternAcc) :
    (g.foldl wsAccStep acc).examples = acc.examples ++ g := by
  induction g generalizing acc with
  | nil => simp
  | cons v rest ih =>
    rw [List.foldl_cons, ih]
    simp [wsAccStep]

theorem jsRecordGet_map_replace {ν : Type} (l : List (String × ν))
    (k : String) (v : ν) (f : String) (h : ¬ k = f) :
    jsRecordGet (l.map (fun p => if p.1 == k then (k, v) else p)) f
      = jsRecordGet l f := by
  induction l with
  | nil => rfl
  | cons e rest ih =>
    obtain ⟨k1, a⟩ := e
    rw [List.map_cons]
    by_cases h1 : k1 = k
    · rw [if_pos (by simp [h1])]
      rw [jsRecordGet_cons, jsRecordGet_cons, if_neg h,
        if_neg (fun hh => h (h1.symm.trans hh))]
      exact ih
    · rw [if_neg (by simp [h1])]
      rw [jsRecordGet_cons, jsRecordGet_cons]
      by_cases h2 : k1 = f
      · simp [h2]
      · rw [if_neg h2, if_neg h2]
        exact ih

theorem jsRecordGet_eq_none_of_not_any {ν : Type} (l : List (String × ν))
    (k : String) (hc : ¬ (l.any fun p => p.1 == k) = true) :
    jsRecordGet l k = Option.none := by
  induction l with
  | nil => rfl
  | cons e rest ih =>
    obtain ⟨k1, a⟩ := e
    simp only [List.any_cons, Bool.or_eq_true, not_or] at hc
    obtain ⟨h1, h2⟩ := hc
    rw [jsRecordGet_cons, if_neg (by simpa using h1)]
    exact ih h2

theorem jsRecordGet_map_replace_self {ν : Type} (l : List (String × ν))
    (k : String) (v : ν) (hc : (l.any fun p => p.1 == k) = true) :
    jsRecordGet (l.map (fun p => if p.1 == k then (k, v) else p)) k
      = some v := by
  induction l with
  | nil => simp at hc
  | cons e rest ih =>
    obtain ⟨k1, a⟩ := e
    rw [List.map_cons]
    by_cases h1 : k1 = k
    · rw [if_pos (by simp [h1])]
      rw [jsRecordGet_cons, if_pos rfl]
    · rw [if_neg (by simp [h1])]
      rw [jsRecordGet_cons, if_neg h1]
      apply ih
      simpa [h1] using hc

theorem jsRecordGet_jsRecordSet_ne {ν : Type} (l : List (String × ν))
    (k : String) (v : ν) (f : String) (h : ¬ k = f) :
    jsRecordGet (jsRecordSet l k v) f = jsRecordGet l f := by
  unfold jsRecordSet
  by_cases hc : (l.any fun p => p.1 == k) = true
  · rw [if_pos hc]
    exact jsRecordGet_map_replace l k v f h
  · rw [if_neg hc, jsRecordGet_append]
    cases hg : jsRecordGet l f with
    | some a => rfl
    | none =>
      dsimp only
      rw [jsRecordGet_cons, if_neg h]
      rfl

theorem jsRecordGet_jsRecordSet_self {ν : Type} (l : List (String × ν))
    (k : String) (v : ν) :
    jsRecordGet (jsRecordSet l k v) k = some v := by
  unfold jsRecordSet
  by_cases hc : (l.any fun p => p.1 == k) = true
  · rw [if_pos hc]
    exact jsRecordGet_map_replace_self l k v hc
  · rw [if_neg hc, jsRecordGet_append, jsRecordGet_eq_none_of_not_any l k hc]
    dsimp only
    rw [jsRecordGet_cons, if_pos rfl]

theorem wsFieldsLoop_req (ex : List Json) (ftm : List (String × List String)) :
    ∀ (fields req opt : List String) (ft : List (String × String)),
    (wsFieldsLoop ex ftm fields req opt ft).1
      = req ++ fields.filter (fun f => ex.all (fun e => jsHasKey e f)) := by
  intro fields
  induction fields with
  | nil => intro req opt ft; simp [wsFieldsLoop]
  | cons g rest ih =>
    intro req opt ft
    unfold wsFieldsLoop
    dsimp only
    rw [ih]
    by_cases h : (ex.all fun e => jsHasKey e g) = true
    · rw [if_pos h, List.filter_cons, if_pos h]
      simp
    · rw [if_neg h, List.filter_cons, if_neg h]

theorem wsFieldsLoop_opt (ex : List Json) (ftm : List (String × List String)) :
    ∀ (fields req opt : List String) (ft : List (String × String)),
    (wsFieldsLoop ex ftm fields req opt ft).2.1
      = opt ++ fields.filter (fun f => !(ex.all (fun e => jsHasKey e f))) := by
  intro fields
  induction fields with
  | nil => intro req opt ft; simp [wsFieldsLoop]
  | cons g rest ih =>
    intro req opt ft
    unfold wsFieldsLoop
    dsimp only
    rw [ih]
    by_cases h : (ex.all fun e => jsHasKey e g) = true
    · rw [if_pos h, List.filter_cons, if_neg (by simp [h])]
    · rw [if_neg h, List.filter_cons, if_pos (by simp [h])]
      simp

theorem wsFieldsLoop_ft_skip (ex : List Json)
    (ftm : List (String × List String)) :
    ∀ (fields req opt : List String) (ft : List (String × String))
      (f : String), f ∉ fields →
    jsRecordGet (wsFieldsLoop ex ftm fields req opt ft).2.2 f
      = jsRecordGet ft f := by
  intro fields
  induction fields with
  | nil => intro req opt ft f _; simp [wsFieldsLoop]
  | cons g rest ih =>
    intro req opt ft f hf
    have hfg : f ≠ g := fun h => hf (h ▸ List.mem_cons_self g rest)
    have hfr : f ∉ rest := fun h => hf (List.mem_cons_of_mem g h)
    unfold wsFieldsLoop
    dsimp only
    rw [ih _ _ _ _ hfr]
    cases hg : jsRecordGet ftm g with
    | none => rfl
    | some tys =>
      dsimp only
      split
      · exact jsRecordGet_jsRecordSet_ne _ _ _ _ (fun h => hfg h.symm)
      · rfl

theorem wsFieldsLoop_ft_mem (ex : List Json)
    (ftm : List (String × List String)) :
    ∀ (fields req opt : List String) (ft : List (String × String))
      (f : String) (tys : List String),
    fields.Nodup → f ∈ fields → jsRecordGet ftm f = some tys →
    0 < tys.length →
    jsRecordGet (wsFieldsLoop ex ftm fields req opt ft).2.2 f
      = some (tys.headD "") := by
  intro fields
  induction fields with
  | nil => intro req opt ft f tys _ hf; simp at hf
  | cons g rest ih =>
    intro req opt ft f tys hnd hf hget hlen
    rcases List.mem_cons.mp hf with rfl | hfr
    · have hfr2 : f ∉ rest := (List.nodup_cons.mp hnd).1
      unfold wsFieldsLoop
      dsimp only
      rw [wsFieldsLoop_ft_skip ex ftm rest _ _ _ f hfr2]
      rw [hget]
      dsimp only
      rw [if_pos hlen]
      exact jsRecordGet_jsRecordSet_self _ _ _
    · unfold wsFieldsLoop
      dsimp only
      exact ih _ _ _ f tys (List.nodup_cons.mp hnd).2 hfr hget hlen

theorem wsAssemblePatterns_length (pm : List (String × WSPatternAcc)) :
    ∀ pid, (wsAssemblePatterns pm pid).length
      = pm.countP (fun e => decide (2 ≤ e.2.examples.length)) := by
  induction pm with
  | nil => intro pid; simp [wsAssemblePatterns]
  | cons e rest ih =>
    intro pid
    obtain ⟨sig, acc⟩ := e
    unfold wsAssemblePatterns
    by_cases h : acc.examples.length < 2
    · rw [if_pos h, ih, List.countP_cons]
      have h2 : ¬ 2 ≤ acc.examples.length := by omega
      simp [h2]
    · rw [if_neg h]
      rcases hW : wsFieldsLoop acc.examples acc.fieldTypes acc.fields [] [] []
        with ⟨req, opt, ft⟩
      rw [List.length_cons, ih, List.countP_cons]
      have h2 : 2 ≤ acc.examples.length := by omega
      simp [h2]

theorem wsAssemblePatterns_mem (pm : List (String × WSPatternAcc)) :
    ∀ pid p, p ∈ wsAssemblePatterns pm pid →
    ∃ sig acc, (sig, acc) ∈ pm ∧ 2 ≤ acc.examples.length
      ∧ p.frequency = acc.examples.length
      ∧ p.template = acc.examples.headD Json.null
      ∧ p.examples = acc.examples.take 3
      ∧ (p.requiredFields, p.optionalFields, p.fieldTypes)
          = wsFieldsLoop acc.examples acc.fieldTypes acc.fields [] [] [] := by
  induction pm with
  | nil => intro pid p h; simp [wsAssemblePatterns] at h
  | cons e rest ih =>
    intro pid p h
    obtain ⟨sig, acc⟩ := e
    unfold wsAssemblePatterns at h
    by_cases hlen : acc.examples.length < 2
    · rw [if_pos hlen] at h
      obtain ⟨s2, a2, hmem, h2⟩ := ih pid p h
      exact ⟨s2, a2, List.mem_cons_of_mem _ hmem, h2⟩
    · rw [if_neg hlen] at h
      rcases hW : wsFieldsLoop acc.examples acc.fieldTypes acc.fields [] [] []
        with ⟨req, opt, ft⟩
      rw [hW] at h
      rcases List.mem_cons.mp h with rfl | htail
      · refine ⟨sig, acc, List.mem_cons_self _ _, by omega, rfl, rfl, rfl, ?_⟩
        rw [hW]
      · obtain ⟨s2, a2, hmem, h2⟩ := ih (pid + 1) p htail
        exact ⟨s2, a2, List.mem_cons_of_mem _ hmem, h2⟩

theorem wsAddField_fields (acc : WSFieldAcc) (k t : String) :
    (wsAddField acc k t).fields = jsSetAdd acc.fields k := rfl

theorem jsRecordGet_wsTypesAdd (ft : List (String × List String))
    (f0 t g : String) :
    jsRecordGet (wsTypesAdd ft f0 t) g
      = if g = f0 then (jsRecordGet ft f0).map (fun tys => jsSetAdd tys t)
        else jsRecordGet ft g := by
  induction ft with
  | nil => simp [wsTypesAdd, jsRecordGet]
  | cons e rest ih =>
    obtain ⟨k1, tys1⟩ := e
    show jsRecordGet (if (k1 == f0) = true then (k1, jsSetAdd tys1 t) :: rest
      else (k1, tys1) :: wsTypesAdd rest f0 t) g = _
    by_cases h1 : k1 = f0
    · subst h1
      rw [if_pos (by simp)]
      by_cases h2 : g = k1
      · subst h2
        simp [jsRecordGet_cons]
      · simp [jsRecordGet_cons, h2, show ¬ k1 = g from fun h => h2 h.symm]
    · rw [if_neg (by simp [h1])]
      by_cases h2 : g = k1
      · subst h2
        simp [jsRecordGet_cons, h1]
      · simp [jsRecordGet_cons, h1,
          show ¬ k1 = g from fun h => h2 h.symm, ih]

theorem jsRecordGet_wsAddField (acc : WSFieldAcc) (k t f : String) :
    jsRecordGet (wsAddField acc k t).fieldTypes f
      = if f = k then
          some (jsSetAdd ((jsRecordGet acc.fieldTypes k).getD []) t)
        else jsRecordGet acc.fieldTypes f := by
  unfold wsAddField
  dsimp only
  by_cases hs : (jsRecordGet acc.fieldTypes k).isSome = true
  · rw [if_pos hs, jsRecordGet_wsTypesAdd]
    by_cases hf : f = k
    · rw [if_pos hf, if_pos hf]
      obtain ⟨tys, htys⟩ := Option.isSome_iff_exists.mp hs
      rw [htys]
      rfl
    · rw [if_neg hf, if_neg hf]
  · rw [if_neg hs, jsRecordGet_wsTypesAdd]
    have hnone : jsRecordGet acc.fieldTypes k = Option.none := by
      cases hg : jsRecordGet acc.fieldTypes k with
      | none => rfl
      | some a => rw [hg] at hs; simp at hs
    by_cases hf : f = k
    · rw [if_pos hf, if_pos hf, jsRecordGet_append, hnone]
      dsimp only
      rw [jsRecordGet_cons, if_pos rfl]
      rfl
    · rw [if_neg hf, if_neg hf, jsRecordGet_append]
      cases hg : jsRecordGet acc.fieldTypes f with
      | some a => rfl
      | none =>
        dsimp only
        rw [jsRecordGet_cons, if_neg (fun hh => hf hh.symm)]
        rfl

theorem analyzeObjEntries_cons (k : String) (v : Json) (rest : JsonObj)
    (pre : String) (acc : WSFieldAcc) :
    analyzeObjEntries (.cons k v rest) pre acc
      = analyzeObjEntries rest pre
          (if jsTypeof v == "object" && !(v == Json.null)
              && decide (jsSplitDotLen pre < 3) then
            analyzeJson v (if pre ≠ "" then pre ++ "." ++ k else k)
              (wsAddField acc (if pre ≠ "" then pre ++ "." ++ k else k)
                (jsTypeof v))
          else wsAddField acc (if pre ≠ "" then pre ++ "." ++ k else k)
            (jsTypeof v)) := rfl

theorem wsFlatEntries_cons (k : String) (v : Json) (rest : JsonObj)
    (h : wsFlatEntries (.cons k v rest) = true) :
    (jsTypeof v == "object" && !(v == Json.null)) = false
      ∧ wsFlatEntries rest = true := by
  unfold wsFlatEntries at h
  rw [Bool.and_eq_true] at h
  refine ⟨?_, h.2⟩
  have h1 := h.1
  cases hx : (jsTypeof v == "object" && !(v == Json.null)) with
  | false => rfl
  | true => rw [hx] at h1; simp at h1

theorem analyzeObjEntries_flat_fields :
    ∀ (o : JsonObj) (acc : WSFieldAcc), wsFlatEntries o = true →
    (analyzeObjEntries o "" acc).fields = o.keys.foldl jsSetAdd acc.fields
  | .nil, acc, _ => rfl
  | .cons k v rest, acc, h => by
    obtain ⟨hv, hrest⟩ := wsFlatEntries_cons k v rest h
    rw [analyzeObjEntries_cons]
    rw [if_neg (by
      intro hc
      rw [Bool.and_eq_true] at hc
      rw [hv] at hc
      simp at hc)]
    rw [if_neg (by simp)]
    rw [analyzeObjEntries_flat_fields rest _ hrest]
    rw [wsAddField_fields]
    rfl

theorem analyzeObjEntries_flat_ftGet_skip :
    ∀ (o : JsonObj) (acc : WSFieldAcc) (f : String),
    wsFlatEntries o = true → (o.keys.contains f) = false →
    jsRecordGet (analyzeObjEntries o "" acc).fieldTypes f
      = jsRecordGet acc.fieldTypes f
  | .nil, acc, f, _, _ => rfl
  | .cons k v rest, acc, f, h, hcf => by
    obtain ⟨hv, hrest⟩ := wsFlatEntries_cons k v rest h
    have hfk : ¬ f = k := by
      intro hEq
      subst hEq
      simp [JsonObj.keys, List.contains_cons] at hcf
    have hcr : (rest.keys.contains f) = false := by
      simp only [JsonObj.keys, List.contains_cons, Bool.or_eq_false_iff]
        at hcf
      exact hcf.2
    rw [analyzeObjEntries_cons]
    rw [if_neg (by
      intro hc
      rw [Bool.and_eq_true] at hc
      rw [hv] at hc
      simp at hc)]
    rw [if_neg (by simp)]
    rw [analyzeObjEntries_flat_ftGet_skip rest _ f hrest hcr]
    rw [jsRecordGet_wsAddField, if_neg hfk]

theorem analyzeObjEntries_flat_ftGet_mem :
    ∀ (o : JsonObj) (acc : WSFieldAcc) (f : String),
    wsFlatEntries o = true → keysNoDupB o.keys = true →
    (o.keys.contains f) = true →
    jsRecordGet (analyzeObjEntries o "" acc).fieldTypes f
      = some (jsSetAdd ((jsRecordGet acc.fieldTypes f).getD [])
          (jsTypeof ((JsonObj.get o f).getD Json.null)))
  | .nil, acc, f, _, _, hcf => by simp [JsonObj.keys] at hcf
  | .cons k v rest, acc, f, h, hnd, hcf => by
    obtain ⟨hv, hrest⟩ := wsFlatEntries_cons k v rest h
    have hnd2 : (!(rest.keys.contains k) && keysNoDupB rest.keys) = true := by
      simpa [JsonObj.keys, keysNoDupB] using hnd
    rw [Bool.and_eq_true] at hnd2
    rw [analyzeObjEntries_cons]
    rw [if_neg (by
      intro hc
      rw [Bool.and_eq_true] at hc
      rw [hv] at hc
      simp at hc)]
    rw [if_neg (by simp)]
    by_cases hfk : f = k
    · subst hfk
      have hkr : (rest.keys.contains f) = false := by
        cases hx : rest.keys.contains f with
        | false => rfl
        | true => rw [hx] at hnd2; simp at hnd2
      rw [analyzeObjEntries_flat_ftGet_skip rest _ f hrest hkr]
      rw [jsRecordGet_wsAddField, if_pos rfl]
      rw [show JsonObj.get (.cons f v rest) f = some v by
        simp [JsonObj.get]]
      rfl
    · have hcr : (rest.keys.contains f) = true := by
        simp only [JsonObj.keys, List.contains_cons, Bool.or_eq_true] at hcf
        rcases hcf with hx | hx
        · exact absurd (by simpa using hx) hfk
        · exact hx
      rw [analyzeObjEntries_flat_ftGet_mem rest _ f hrest hnd2.2 hcr]
      rw [jsRecordGet_wsAddField, if_neg hfk]
      rw [show JsonObj.get (.cons k v rest) f = JsonObj.get rest f by
        have hkf : ¬ k = f := fun hh => hfk hh.symm
        simp [JsonObj.get, hkf]]

theorem jsSetAdd_ne_nil (l : List String) (x : String) : jsSetAdd l x ≠ [] := by
  unfold jsSetAdd
  split
  · next h =>
    cases l with
    | nil => simp at h
    | cons a as => simp
  · simp

theorem jsSetAdd_headD (l : List String) (x d : String) (h : l ≠ []) :
    (jsSetAdd l x).headD d = l.headD d := by
  unfold jsSetAdd
  split
  · rfl
  · cases l with
    | nil => exact absurd rfl h
    | cons a as => rfl

theorem wsFlatObj_elim (v : Json) (h : wsFlatObj v = true) :
    ∃ o, v = Json.obj o ∧ wsFlatEntries o = true
      ∧ keysNoDupB o.keys = true := by
  cases v with
  | obj o =>
    have h2 : (wsFlatEntries o && keysNoDupB o.keys) = true := h
    rw [Bool.and_eq_true] at h2
    exact ⟨o, rfl, h2.1, h2.2⟩
  | null => simp [wsFlatObj] at h
  | bool b => simp [wsFlatObj] at h
  | num q => simp [wsFlatObj] at h
  | str s => simp [wsFlatObj] at h
  | arr a => simp [wsFlatObj] at h

theorem foldl_wsAccStep_flat_fields :
    ∀ (g : List Json) (acc : WSPatternAcc),
    (∀ v ∈ g, wsFlatObj v = true) →
    (g.foldl wsAccStep acc).fields
      = g.foldl (fun ks v => (jsKeys v).foldl jsSetAdd ks) acc.fields := by
  intro g
  induction g with
  | nil => intro acc _; rfl
  | cons v rest ih =>
    intro acc hflat
    obtain ⟨o, rfl, ho, hnd⟩ :=
      wsFlatObj_elim v (hflat v (List.mem_cons_self _ _))
    rw [List.foldl_cons, List.foldl_cons]
    rw [ih _ (fun w hw => hflat w (List.mem_cons_of_mem _ hw))]
    congr 1
    show (analyzeObjEntries o ""
      { fields := acc.fields, fieldTypes := acc.fieldTypes }).fields = _
    rw [analyzeObjEntries_flat_fields o _ ho]
    rfl

theorem foldl_wsAccStep_flat_ftGet_skip :
    ∀ (g : List Json) (acc : WSPatternAcc) (f : String),
    (∀ v ∈ g, wsFlatObj v = true) →
    (∀ v ∈ g, ((jsKeys v).contains f) = false) →
    jsRecordGet (g.foldl wsAccStep acc).fieldTypes f
      = jsRecordGet acc.fieldTypes f := by
  intro g
  induction g with
  | nil => intro acc f _ _; rfl
  | cons v rest ih =>
    intro acc f hflat hnc
    obtain ⟨o, rfl, ho, hnd⟩ :=
      wsFlatObj_elim v (hflat v (List.mem_cons_self _ _))
    rw [List.foldl_cons]
    rw [ih _ f (fun w hw => hflat w (List.mem_cons_of_mem _ hw))
      (fun w hw => hnc w (List.mem_cons_of_mem _ hw))]
    show jsRecordGet (analyzeObjEntries o ""
      { fields := acc.fields, fieldTypes := acc.fieldTypes }).fieldTypes f
      = _
    rw [analyzeObjEntries_flat_ftGet_skip o _ f ho
      (hnc _ (List.mem_cons_self _ _))]

theorem foldl_wsAccStep_flat_ftGet_stable :
    ∀ (g : List Json) (acc : WSPatternAcc) (f : String) (tys : List String),
    (∀ v ∈ g, wsFlatObj v = true) →
    jsRecordGet acc.fieldTypes f = some tys → tys ≠ [] →
    ∃ tys2, jsRecordGet (g.foldl wsAccStep acc).fieldTypes f = some tys2
      ∧ tys2 ≠ [] ∧ tys2.headD "" = tys.headD "" := by
  intro g
  induction g with
  | nil => intro acc f tys _ hget hne; exact ⟨tys, hget, hne, rfl⟩
  | cons v rest ih =>
    intro acc f tys hflat hget hne
    obtain ⟨o, rfl, ho, hnd⟩ :=
      wsFlatObj_elim v (hflat v (List.mem_cons_self _ _))
    rw [List.foldl_cons]
    have hstep : jsRecordGet (wsAccStep acc (Json.obj o)).fieldTypes f
        = if (o.keys.contains f) = true then
            some (jsSetAdd tys
              (jsTypeof ((JsonObj.get o f).getD Json.null)))
          else some tys := by
      show jsRecordGet (analyzeObjEntries o ""
        { fields := acc.fields, fieldTypes := acc.fieldTypes }).fieldTypes f
        = _
      by_cases hc : (o.keys.contains f) = true
      · rw [if_pos hc]
        rw [analyzeObjEntries_flat_ftGet_mem o _ f ho hnd hc]
        show some (jsSetAdd ((jsRecordGet acc.fieldTypes f).getD []) _)
          = _
        rw [hget]
        rfl
      · rw [if_neg hc]
        rw [analyzeObjEntries_flat_ftGet_skip o _ f ho
          (by cases hx : o.keys.contains f with
            | false => rfl
            | true => exact absurd hx hc)]
        exact hget
    by_cases hc : (o.keys.contains f) = true
    · rw [if_pos hc] at hstep
      obtain ⟨tys2, hg2, hne2, hh2⟩ := ih _ f _
        (fun w hw => hflat w (List.mem_cons_of_mem _ hw)) hstep
        (jsSetAdd_ne_nil _ _)
      exact ⟨tys2, hg2, hne2, by rw [hh2, jsSetAdd_headD _ _ _ hne]⟩
    · rw [if_neg hc] at hstep
      exact ih _ f _ (fun w hw => hflat w (List.mem_cons_of_mem _ hw))
        hstep hne

theorem foldl_wsAccStep_flat_ftGet_carrier :
    ∀ (g : List Json) (acc : WSPatternAcc) (f : String) (v0 : Json),
    (∀ v ∈ g, wsFlatObj v = true) →
    jsRecordGet acc.fieldTypes f = Option.none →
    g.find? (fun v => (jsKeys v).contains f) = some v0 →
    ∃ tys2, jsRecordGet (g.foldl wsAccStep acc).fieldTypes f = some tys2
      ∧ tys2 ≠ []
      ∧ tys2.headD "" = jsTypeof ((jsGetKey v0 f).getD Json.null) := by
  intro g
  induction g with
  | nil => intro acc f v0 _ _ hfind; simp at hfind
  | cons v rest ih =>
    intro acc f v0 hflat hnone hfind
    obtain ⟨o, rfl, ho, hnd⟩ :=
      wsFlatObj_elim v (hflat v (List.mem_cons_self _ _))
    rw [List.foldl_cons]
    by_cases hc : ((jsKeys (Json.obj o)).contains f) = true
    · simp only [List.find?_cons, hc] at hfind
      have hv0 : v0 = Json.obj o := (Option.some.inj hfind).symm
      subst hv0
      have hstep : jsRecordGet
          (wsAccStep acc (Json.obj o)).fieldTypes f
          = some (jsSetAdd []
              (jsTypeof ((JsonObj.get o f).getD Json.null))) := by
        show jsRecordGet (analyzeObjEntries o ""
          { fields := acc.fields,
            fieldTypes := acc.fieldTypes }).fieldTypes f = _
        rw [analyzeObjEntries_flat_ftGet_mem o _ f ho hnd (by simpa using hc)]
        show some (jsSetAdd ((jsRecordGet acc.fieldTypes f).getD []) _) = _
        rw [hnone]
        rfl
      obtain ⟨tys2, hg2, hne2, hh2⟩ := foldl_wsAccStep_flat_ftGet_stable
        rest _ f _ (fun w hw => hflat w (List.mem_cons_of_mem _ hw)) hstep
        (jsSetAdd_ne_nil _ _)
      refine ⟨tys2, hg2, hne2, ?_⟩
      rw [hh2]
      show (jsSetAdd [] _).headD "" = jsTypeof ((jsGetKey (Json.obj o) f).getD Json.null)
      simp [jsSetAdd, jsGetKey]
    · have hcf : ((jsKeys (Json.obj o)).contains f) = false := by
        cases hx : (jsKeys (Json.obj o)).contains f with
        | false => rfl
        | true => exact absurd hx hc
      simp only [List.find?_cons, hcf] at hfind
      have hstep : jsRecordGet (wsAccStep acc (Json.obj o)).fieldTypes f
          = Option.none := by
        show jsRecordGet (analyzeObjEntries o ""
          { fields := acc.fields,
            fieldTypes := acc.fieldTypes }).fieldTypes f = _
        rw [analyzeObjEntries_flat_ftGet_skip o _ f ho
          (by cases hx : o.keys.contains f with
            | false => rfl
            | true => exact absurd (by simpa using hx) hc)]
        exact hnone
      exact ih _ f v0 (fun w hw => hflat w (List.mem_cons_of_mem _ hw))
        hstep hfind

/-- Claim C2 (amended): pattern inference groups the kept payloads by their
sorted, comma-joined top-level key list; every signature group with at least
two examples yields exactly one pattern whose `frequency` is the group size,
whose `template` is the group's first example and whose `examples` are the
first three.  Field classification, however, runs over the analyzer's field
set — which also records dot-qualified nested paths — and tests membership
with the JavaScript `in` operator at the top level only.  For groups of flat
plain objects the field set is exactly the union of top-level keys, and
then: `requiredFields` are the keys the `in` operator finds in every group
example, `optionalFields` are the remaining keys of the union, and the
recorded field type is the `typeof` of the key's value in the first group
example carrying it. -/
theorem C2_pattern_inference (messages : List WSMessage)
    (hflat : ∀ v ∈ wsKept messages, wsFlatObj v = true) :
    (analyzeMessagePatterns messages).length
      = ((wsSigList messages).filter (fun s =>
          decide (2 ≤ (wsGroup messages s).length))).length
    ∧ ∀ p ∈ analyzeMessagePatterns messages, ∃ s ∈ wsSigList messages,
        2 ≤ (wsGroup messages s).length
        ∧ p.frequency = (wsGroup messages s).length
        ∧ p.template = (wsGroup messages s).headD Json.null
        ∧ p.examples = (wsGroup messages s).take 3
        ∧ (∀ f, f ∈ p.requiredFields ↔
            (f ∈ wsKeysUnion (wsGroup messages s)
              ∧ ((wsGroup messages s).all fun e => jsHasKey e f) = true))
        ∧ (∀ f, f ∈ p.optionalFields ↔
            (f ∈ wsKeysUnion (wsGroup messages s)
              ∧ ¬ ((wsGroup messages s).all fun e => jsHasKey e f) = true))
        ∧ (∀ f ∈ wsKeysUnion (wsGroup messages s),
            jsRecordGet p.fieldTypes f
              = firstCarrierType (wsGroup messages s) f) := by
  have hpm : buildPatternMap messages []
      = (wsKept messages).foldl wsPatternStep [] := buildPatternMap_eq _ _
  have hkeys : (buildPatternMap messages []).map Prod.fst
      = wsSigList messages := by
    rw [hpm]
    exact keys_foldl_wsPatternStep _ _
  have hndkeys : ((buildPatternMap messages []).map Prod.fst).Nodup := by
    rw [hkeys]
    exact foldl_jsSetAdd_nodup _ _ _ List.nodup_nil
  have hentry : ∀ s, wsEntry (buildPatternMap messages []) s
      = (wsGroup messages s).foldl wsAccStep
          { examples := [], fields := [], fieldTypes := [] } := by
    intro s
    rw [hpm]
    exact wsEntry_foldl _ _ _
  have hmem_entry : ∀ e ∈ buildPatternMap messages [],
      e.2 = (wsGroup messages e.1).foldl wsAccStep
        { examples := [], fields := [], fieldTypes := [] } := by
    intro e he
    rw [← hentry e.1]
    unfold wsEntry
    rw [jsRecordGet_of_mem_nodup _ hndkeys e he]
    rfl
  have hmem_ex : ∀ e ∈ buildPatternMap messages [],
      e.2.examples = wsGroup messages e.1 := by
    intro e he
    rw [hmem_entry e he, foldl_wsAccStep_examples]
    rfl
  constructor
  · show (wsAssemblePatterns (buildPatternMap messages []) 1).length = _
    rw [wsAssemblePatterns_length]
    rw [List.countP_congr (fun e he => by
      rw [hmem_ex e he] :
      ∀ e ∈ buildPatternMap messages [],
        (decide (2 ≤ e.2.examples.length)) = true
          ↔ (decide (2 ≤ (wsGroup messages e.1).length)) = true)]
    rw [show (fun (e : String × WSPatternAcc) =>
        decide (2 ≤ (wsGroup messages e.1).length))
      = ((fun s => decide (2 ≤ (wsGroup messages s).length)) ∘ Prod.fst)
      from rfl]
    rw [← List.countP_map, hkeys, List.countP_eq_length_filter]
  · intro p hp
    obtain ⟨sig, acc, hmem, hlen, hfreq, htemp, hex3, hW⟩ :=
      wsAssemblePatterns_mem (buildPatternMap messages []) 1 p hp
    have hsig : sig ∈ wsSigList messages := by
      rw [← hkeys]
      exact List.mem_map_of_mem Prod.fst hmem
    have hacc : acc = (wsGroup messages sig).foldl wsAccStep
        { examples := [], fields := [], fieldTypes := [] } :=
      hmem_entry (sig, acc) hmem
    have hexamples : acc.examples = wsGroup messages sig :=
      hmem_ex (sig, acc) hmem
    have hgflat : ∀ v ∈ wsGroup messages sig, wsFlatObj v = true :=
      fun v hv => hflat v (List.mem_of_mem_filter hv)
    have hfields : acc.fields = wsKeysUnion (wsGroup messages sig) := by
      rw [hacc, foldl_wsAccStep_flat_fields _ _ hgflat]
      rfl
    have hreq := congrArg (fun t => t.1) hW
    have hopt := congrArg (fun t => t.2.1) hW
    have hft := congrArg (fun t => t.2.2) hW
    dsimp only at hreq hopt hft
    refine ⟨sig, hsig, by rw [← hexamples]; exact hlen,
      by rw [hfreq, hexamples],
      by rw [htemp, hexamples],
      by rw [hex3, hexamples], ?_, ?_, ?_⟩
    · intro f
      rw [hreq, wsFieldsLoop_req, List.nil_append, List.mem_filter,
        hfields, hexamples]
    · intro f
      rw [hopt, wsFieldsLoop_opt, List.nil_append, List.mem_filter,
        hfields, hexamples]
      simp
    · intro f hfU
      have hffields : f ∈ acc.fields := by rw [hfields]; exact hfU
      have hndfields : acc.fields.Nodup := by
        rw [hfields]
        exact wsKeysUnion_nodup _
      obtain ⟨v, hv, hfk⟩ := (mem_wsKeysUnion _ f).mp hfU
      have hfindSome : ((wsGroup messages sig).find?
          (fun w => (jsKeys w).contains f)).isSome := by
        rw [List.find?_isSome]
        exact ⟨v, hv, by simpa using hfk⟩
      obtain ⟨v0, hfind0⟩ := Option.isSome_iff_exists.mp hfindSome
      obtain ⟨tys2, hg2, hne2, hh2⟩ :=
        foldl_wsAccStep_flat_ftGet_carrier (wsGroup messages sig)
          { examples := [], fields := [], fieldTypes := [] } f v0 hgflat
          rfl hfind0
      have hg2a : jsRecordGet acc.fieldTypes f = some tys2 := by
        rw [hacc]
        exact hg2
      rw [hft, wsFieldsLoop_ft_mem acc.examples acc.fieldTypes acc.fields
        [] [] [] f tys2 hndfields hffields hg2a
        (List.length_pos.mpr hne2)]
      rw [hh2]
      unfold firstCarrierType
      rw [hfind0]

def c2WitM1 : WSMessage :=
  { parsed := some (Json.obj (.cons "x" (Json.num 1)
      (.cons "y" (Json.num 2) .nil))) }

def c2WitM2 : WSMessage :=
  { parsed := some (Json.obj (.cons "x" (Json.num 3) .nil)) }

def c2WitM3 : WSMessage :=
  { parsed := some (Json.obj (.cons "x" (Json.num 4) .nil)) }

def c2WitMessages : List WSMessage := [c2WitM1, c2WitM2, c2WitM3]

theorem C2_pattern_inference_witness :
    (∀ v ∈ wsKept c2WitMessages, wsFlatObj v = true)
    ∧ (analyzeMessagePatterns c2WitMessages).length
        = ((wsSigList c2WitMessages).filter (fun s =>
            decide (2 ≤ (wsGroup c2WitMessages s).length))).length := by
  have hflat : ∀ v ∈ wsKept c2WitMessages, wsFlatObj v = true := by
    intro v hv
    have hk : wsKept c2WitMessages
        = [Json.obj (.cons "x" (Json.num 1) (.cons "y" (Json.num 2) .nil)),
           Json.obj (.cons "x" (Json.num 3) .nil),
           Json.obj (.cons "x" (Json.num 4) .nil)] := rfl
    rw [hk] at hv
    rcases List.mem_cons.mp hv with rfl | hv
    · rfl
    rcases List.mem_cons.mp hv with rfl | hv
    · rfl
    rcases List.mem_cons.mp hv with rfl | hv
    · rfl
    · simp at hv
  exact ⟨hflat, (C2_pattern_inference c2WitMessages hflat).1⟩

def cexC2V1 : Json :=
  Json.obj (.cons "a" (Json.obj (.cons "b" (Json.num 1) .nil)) .nil)

def cexC2V2 : Json :=
  Json.obj (.cons "a" (Json.obj (.cons "b" (Json.num 2) .nil)) .nil)

def cexC2M1 : WSMessage := { parsed := some cexC2V1 }

def cexC2M2 : WSMessage := { parsed := some cexC2V2 }

/-- Claim C2, counterexample: two messages `{a:{b:1}}` and `{a:{b:2}}` form
one signature group; the analyzer records the dot-qualified nested path
`a.b` in the field set, and since `"a.b" in example` is false at the top
level, `a.b` lands in `optionalFields` — although `a.b` is a top-level key
of no example at all, and in particular not a key "present in some but not
all examples". -/
theorem C2_nested_fields_counterexample :
    analyzeMessagePatterns [cexC2M1, cexC2M2]
      = [{ id := "pattern_1"
           name := "Pattern_a"
           description :=
             "Message pattern with 1 required and 1 optional fields"
           template := cexC2V1
           requiredFields := ["a"]
           optionalFields := ["a.b"]
           fieldTypes := [("a", "object"), ("a.b", "number")]
           frequency := 2
           examples := [cexC2V1, cexC2V2] }]
    ∧ ((jsKeys cexC2V1).contains "a.b") = false
    ∧ ((jsKeys cexC2V2).contains "a.b") = false := by
  refine ⟨?_, rfl, rfl⟩
  rfl
